import Mathlib

/-!
# SuperAdPro compensation engine — verification development

Shallow embedding of the compensation engine of the SuperAdPro repository
(`src/app/course_engine.py`, `src/app/grid.py`, `src/app/payment.py`,
data model in `src/app/database.py`) together with theorems settling the
specification's testable properties.

Modelling conventions:
* `Money` is `ℤ`, in micro-USDT: the database stores `Numeric(18,6)`
  fixed-point values, whose exact resolution is `10⁻⁶` USDT.  Percentage
  splits with Python's `round(x * pct, 6)` are embedded as `applyPct`.
* The relational store is a record of lists (`DB`); SQLAlchemy's
  `query(...).first()` becomes `List.find?` and in-place ORM mutation
  becomes keyed map-updates.
* SQLAlchemy autoincrement primary keys are modelled with explicit
  `next…Id` counters on `DB`.
* Free-text `notes` columns and timestamps that no property depends on are
  omitted from the record types; renewal timestamps are modelled as `Int`
  seconds.
* The blockchain payment oracle `verify_transaction` is passed in as a
  boolean-valued function parameter.
* Bounded `while` loops and the recursive activation cascade are embedded
  with an explicit fuel argument chosen to coincide with the source's
  depth guard (`depth < max_depth`, resp. `chain_depth > max_depth`).
-/

namespace SuperAdPro

/-- Monetary amounts in micro-USDT (`10⁻⁶` USDT), the exact resolution of
the database's `Numeric(18, 6)` `Money` columns.  On stored values Python's
`round(x, 6)` is the identity, so plain `+`/`-` model credit and debit. -/
abbrev Money := ℤ

/-- A percentage constant, kept as an exact fraction
(numerator, positive denominator). -/
structure Pct where
  num : ℤ
  den : ℤ
deriving DecidableEq

/-- Product of two percentage constants. -/
def Pct.mul (a b : Pct) : Pct := ⟨a.num * b.num, a.den * b.den⟩

/-- `round(x * (p.num / p.den), 6)` on a `Money` value `x`, in micro-USDT:
round-half-up to the nearest integer (no engine value ever lands on a tie).
`⌊(2·x·num + den) / (2·den)⌋` is that rounding, via flooring division. -/
def applyPct (x : Money) (p : Pct) : Money :=
  Int.fdiv (2 * x * p.num + p.den) (2 * p.den)

/-- Whole-USDT amounts (`$n`) in micro-USDT. -/
def usd (n : ℤ) : Money := n * 1000000

instance {ε α : Type} [DecidableEq ε] [DecidableEq α] : DecidableEq (Except ε α) := fun x y =>
  match x, y with
  | .ok a, .ok b =>
    if h : a = b then .isTrue (by rw [h]) else .isFalse (fun hh => by cases hh; exact h rfl)
  | .error a, .error b =>
    if h : a = b then .isTrue (by rw [h]) else .isFalse (fun hh => by cases hh; exact h rfl)
  | .ok _, .error _ => .isFalse (fun hh => by cases hh)
  | .error _, .ok _ => .isFalse (fun hh => by cases hh)

/-! ## Data model (`src/app/database.py`) -/

/-- `users` table (the columns the compensation engine reads or writes). -/
structure User where
  id : Nat
  username : String
  sponsorId : Option Nat
  walletAddress : Option String
  isAdmin : Bool
  isActive : Bool
  balance : Money
  totalEarned : Money
  totalWithdrawn : Money
  gridEarnings : Money
  levelEarnings : Money
  uplineEarnings : Money
  courseEarnings : Money
  personalReferrals : Nat
  totalTeam : Nat
  lowBalanceWarned : Bool
deriving DecidableEq

/-- `courses` table. -/
structure Course where
  id : Nat
  price : Money
  tier : Nat
  isActive : Bool
deriving DecidableEq

/-- `course_purchases` table. -/
structure CoursePurchase where
  id : Nat
  userId : Nat
  courseId : Nat
  courseTier : Nat
  amountPaid : Money
  paymentMethod : String
  txRef : Option String
deriving DecidableEq

/-- `course_commissions` table (ledger of the Course variant). -/
structure CourseCommission where
  purchaseId : Nat
  buyerId : Nat
  earnerId : Option Nat
  amount : Money
  courseTier : Nat
  commissionType : String
  passUpDepth : Nat
deriving DecidableEq

/-- `course_pass_up_trackers` table. -/
structure Tracker where
  userId : Nat
  courseTier : Nat
  salesCount : Nat
  firstPassedUp : Bool
deriving DecidableEq

/-- `grids` table.  `grid.py` accesses the advance counter as
`cycle_number`. -/
structure Grid where
  id : Nat
  ownerId : Nat
  packageTier : Nat
  packagePrice : Money
  cycleNumber : Nat
  positionsFilled : Nat
  isComplete : Bool
  ownerPaid : Bool
  revenueTotal : Money
deriving DecidableEq

/-- `grid_positions` table. -/
structure GridPosition where
  gridId : Nat
  memberId : Nat
  gridLevel : Nat
  positionNum : Nat
  isOverspill : Bool
deriving DecidableEq

/-- `commissions` table (ledger of the Grid variant and renewals). -/
structure Commission where
  fromUserId : Nat
  toUserId : Option Nat
  gridId : Option Nat
  amountUsdt : Money
  commissionType : String
  packageTier : Nat
  status : String
deriving DecidableEq

/-- `payments` table (incoming external payments, keyed by `tx_hash`). -/
structure Payment where
  fromUserId : Nat
  toUserId : Option Nat
  amountUsdt : Money
  paymentType : String
  txHash : String
  status : String
deriving DecidableEq

/-- `withdrawals` table. -/
structure Withdrawal where
  userId : Nat
  amountUsdt : Money
  walletAddress : String
  status : String
deriving DecidableEq

/-- `p2p_transfers` table. -/
structure P2PTransfer where
  fromUserId : Nat
  toUserId : Nat
  amountUsdt : Money
  note : Option String
  status : String
deriving DecidableEq

/-- `membership_renewals` table, timestamps as `Int` seconds. -/
structure MembershipRenewal where
  userId : Nat
  nextRenewalDate : Int
  lastRenewedAt : Int
  inGracePeriod : Bool
  gracePeriodStart : Option Int
  totalRenewals : Nat
deriving DecidableEq

/-- The relational store. -/
structure DB where
  users : List User
  courses : List Course
  coursePurchases : List CoursePurchase
  courseCommissions : List CourseCommission
  trackers : List Tracker
  grids : List Grid
  gridPositions : List GridPosition
  commissions : List Commission
  payments : List Payment
  withdrawals : List Withdrawal
  p2pTransfers : List P2PTransfer
  renewals : List MembershipRenewal
  nextGridId : Nat
  nextPurchaseId : Nat
deriving DecidableEq

/-! ## Query and update helpers (SQLAlchemy `query`/ORM mutation) -/

def findUser (db : DB) (uid : Nat) : Option User :=
  db.users.find? (fun u => u.id == uid)

def updateUser (db : DB) (uid : Nat) (f : User → User) : DB :=
  { db with users := db.users.map (fun u => if u.id == uid then f u else u) }

def findTracker (db : DB) (uid tier : Nat) : Option Tracker :=
  db.trackers.find? (fun t => t.userId == uid && t.courseTier == tier)

def updateTracker (db : DB) (uid tier : Nat) (f : Tracker → Tracker) : DB :=
  let ts := db.trackers.map (fun t => if t.userId == uid && t.courseTier == tier then f t else t)
  { db with trackers := ts }

def updateGrid (db : DB) (gid : Nat) (f : Grid → Grid) : DB :=
  { db with grids := db.grids.map (fun g => if g.id == gid then f g else g) }

def updateRenewal (db : DB) (uid : Nat) (f : MembershipRenewal → MembershipRenewal) : DB :=
  { db with renewals := db.renewals.map (fun r => if r.userId == uid then f r else r) }

/-! ## Course engine (`src/app/course_engine.py`) -/

/-- `get_or_create_tracker`: fetch the pass-up tracker for `(userId, tier)`,
creating it with `sales_count=0, first_passed_up=False` when absent. -/
def get_or_create_tracker (db : DB) (userId tier : Nat) : Tracker × DB :=
  match findTracker db userId tier with
  | some t => (t, db)
  | none =>
    let t : Tracker := ⟨userId, tier, 0, false⟩
    (t, { db with trackers := db.trackers ++ [t] })

/-- `user_owns_tier`: the user has a course purchase at this tier or higher. -/
def user_owns_tier (db : DB) (userId tier : Nat) : Bool :=
  (db.coursePurchases.find? (fun p => p.userId == userId && tier ≤ p.courseTier)).isSome

/-- Loop body of `find_qualified_upline`; `fuel` = `max_depth - depth`. -/
def find_qualified_upline_aux (db : DB) (cur : Option Nat) (tier depth : Nat) :
    Nat → Option User × Nat
  | 0 => (none, depth)
  | fuel + 1 =>
    match cur with
    | none => (none, depth)
    | some cid =>
      match findUser db cid with
      | none => (none, depth + 1)
      | some user =>
        if user_owns_tier db user.id tier then (some user, depth + 1)
        else find_qualified_upline_aux db user.sponsorId tier (depth + 1) fuel

/-- `find_qualified_upline`: walk the sponsor chain upward from
`startId` to the first user owning the tier (no admin shortcut, no
tracker mutation), bounded by `max_depth` (default 500). -/
def find_qualified_upline (db : DB) (startId : Option Nat) (tier : Nat)
    (maxDepth : Nat := 500) : Option User × Nat :=
  find_qualified_upline_aux db startId tier 0 maxDepth

/-- Loop body of `_find_passup_recipient`; mutates trackers of candidates
that own the tier but have never sold or passed up at it. -/
def find_passup_aux (db : DB) (cur : Option Nat) (tier depth : Nat) :
    Nat → Option User × Nat × DB
  | 0 => (none, depth, db)
  | fuel + 1 =>
    match cur with
    | none => (none, depth, db)
    | some cid =>
      match findUser db cid with
      | none => (none, depth + 1, db)
      | some cand =>
        if cand.isAdmin then (some cand, depth + 1, db)
        else if user_owns_tier db cand.id tier then
          let tdb := get_or_create_tracker db cand.id tier
          if tdb.1.firstPassedUp || decide (0 < tdb.1.salesCount) then
            (some cand, depth + 1, tdb.2)
          else
            let db2 := updateTracker tdb.2 cand.id tier
              (fun t => { t with salesCount := t.salesCount + 1, firstPassedUp := true })
            find_passup_aux db2 cand.sponsorId tier (depth + 1) fuel
        else find_passup_aux db cand.sponsorId tier (depth + 1) fuel

/-- `_find_passup_recipient`: walk up from the sponsor's sponsor for the
first admin, or tier owner who has already sold or passed up; consume the
first-sale credit of tier owners encountered who have not. -/
def find_passup_recipient (db : DB) (sponsor : User) (tier : Nat)
    (maxDepth : Nat := 500) : Option User × Nat × DB :=
  find_passup_aux db sponsor.sponsorId tier 0 maxDepth

/-- Result row returned by the distribution helpers. -/
structure DistResult where
  earnerId : Option Nat
  amount : Money
  commissionType : String
  depth : Nat
deriving DecidableEq

/-- `_credit_earner`: append the course ledger entry and credit the earner's
balance, lifetime earnings and course earnings. -/
def credit_earner (db : DB) (purchaseId buyerId tier : Nat) (earnerId : Nat)
    (amount : Money) (ctype : String) (depth : Nat) : DistResult × DB :=
  let entry : CourseCommission := ⟨purchaseId, buyerId, some earnerId, amount, tier, ctype, depth⟩
  let db1 := { db with courseCommissions := db.courseCommissions ++ [entry] }
  let creditE : User → User := fun u =>
    { u with balance := u.balance + amount,
             totalEarned := u.totalEarned + amount,
             courseEarnings := u.courseEarnings + amount }
  (⟨some earnerId, amount, ctype, depth⟩, updateUser db1 earnerId creditE)

/-- `_credit_platform`: ledger entry of type `platform`; the first admin
user (if any) receives the funds. -/
def credit_platform (db : DB) (purchaseId buyerId tier : Nat) (amount : Money) :
    DistResult × DB :=
  let admin := db.users.find? (fun u => u.isAdmin)
  let entry : CourseCommission := ⟨purchaseId, buyerId, admin.map (·.id), amount, tier, "platform", 0⟩
  let db1 := { db with courseCommissions := db.courseCommissions ++ [entry] }
  let creditA : User → User := fun u =>
    { u with balance := u.balance + amount, totalEarned := u.totalEarned + amount }
  let db2 := match admin with
    | some a => updateUser db1 a.id creditA
    | none => db1
  (⟨admin.map (·.id), amount, "platform", 0⟩, db2)

/-- `_distribute_commission`: decide who earns the 100% commission. -/
def distribute_commission (db : DB) (purchaseId : Nat) (buyer : User)
    (course : Course) : DistResult × DB :=
  let amount := course.price
  match buyer.sponsorId with
  | none => credit_platform db purchaseId buyer.id course.tier amount
  | some sid =>
    match findUser db sid with
    | none => credit_platform db purchaseId buyer.id course.tier amount
    | some sponsor =>
      let tdb := get_or_create_tracker db sponsor.id course.tier
      let db2 := updateTracker tdb.2 sponsor.id course.tier
        (fun t => { t with salesCount := t.salesCount + 1 })
      if !tdb.1.firstPassedUp then
        let db3 := updateTracker db2 sponsor.id course.tier
          (fun t => { t with firstPassedUp := true })
        match find_passup_recipient db3 sponsor course.tier with
        | (some earner, depth, db4) =>
          credit_earner db4 purchaseId buyer.id course.tier earner.id amount "pass_up" depth
        | (none, _, db4) =>
          credit_platform db4 purchaseId buyer.id course.tier amount
      else
        if user_owns_tier db2 sponsor.id course.tier then
          credit_earner db2 purchaseId buyer.id course.tier sponsor.id amount "direct_sale" 0
        else
          match find_qualified_upline db2 sponsor.sponsorId course.tier with
          | (some earner, depth) =>
            credit_earner db2 purchaseId buyer.id course.tier earner.id amount "pass_up" depth
          | (none, _) =>
            credit_platform db2 purchaseId buyer.id course.tier amount

/-- `process_course_purchase`: validate, record the purchase, deduct the
wallet and distribute the commission. -/
def process_course_purchase (db : DB) (buyerId courseId : Nat)
    (paymentMethod : String := "wallet") (txRef : Option String := none) :
    Except String DistResult × DB :=
  match findUser db buyerId with
  | none => (.error "Buyer not found", db)
  | some buyer =>
    match db.courses.find? (fun c => c.id == courseId && c.isActive) with
    | none => (.error "Course not found or inactive", db)
    | some course =>
      if (db.coursePurchases.find?
            (fun p => p.userId == buyerId && p.courseTier == course.tier)).isSome then
        (.error "Already purchased this tier", db)
      else if paymentMethod == "wallet" && buyer.balance < course.price then
        (.error "Insufficient balance", db)
      else
        let pid := db.nextPurchaseId
        let rec_ : CoursePurchase :=
          ⟨pid, buyerId, courseId, course.tier, course.price, paymentMethod, txRef⟩
        let db1 := { db with coursePurchases := db.coursePurchases ++ [rec_],
                             nextPurchaseId := pid + 1 }
        let db2 := if paymentMethod == "wallet" then
            updateUser db1 buyerId (fun u => { u with balance := u.balance - course.price })
          else db1
        let rdb := distribute_commission db2 pid buyer course
        (.ok rdb.1, rdb.2)

/-! ## Grid engine (`src/app/grid.py`, constants from `src/app/database.py`) -/

def GRID_WIDTH : Nat := 8
def GRID_LEVELS : Nat := 8
def GRID_TOTAL : Nat := 63

def DIRECT_PCT : Pct := ⟨40, 100⟩
def UNILEVEL_PCT : Pct := ⟨55, 100⟩
def PER_LEVEL_PCT : Pct := ⟨875, 10000⟩
def PLATFORM_PCT : Pct := ⟨5, 100⟩

/-- The (unused in `grid.py`) variable per-level table, totalling 55%. -/
def LEVEL_PCTS : List Pct :=
  [⟨15, 100⟩, ⟨10, 100⟩, ⟨8, 100⟩, ⟨6, 100⟩, ⟨5, 100⟩, ⟨4, 100⟩, ⟨4, 100⟩, ⟨3, 100⟩]

def OWNER_PCT : Pct := DIRECT_PCT
def UPLINE_PCT : Pct := UNILEVEL_PCT
def LEVEL_PCT : Pct := PER_LEVEL_PCT
def COMPANY_PCT : Pct := PLATFORM_PCT

/-- `LEVEL_WEIGHT = 1.0 / GRID_LEVELS`. -/
def LEVEL_WEIGHT : Pct := ⟨1, 8⟩

/-- `GRID_PACKAGES` price table. -/
def GRID_PACKAGES : Nat → Option Money
  | 1 => some (usd 20)
  | 2 => some (usd 50)
  | 3 => some (usd 100)
  | 4 => some (usd 200)
  | 5 => some (usd 400)
  | 6 => some (usd 600)
  | 7 => some (usd 800)
  | 8 => some (usd 1000)
  | _ => none

/-- `_next_cycle_number`: completed grids for this owner and tier, plus one. -/
def next_cycle_number (db : DB) (ownerId tier : Nat) : Nat :=
  (db.grids.filter (fun g => g.ownerId == ownerId && g.packageTier == tier && g.isComplete)).length + 1

/-- `get_or_create_active_grid`: the open grid for this owner and tier, or a
fresh one. -/
def get_or_create_active_grid (db : DB) (ownerId tier : Nat) : Grid × DB :=
  match db.grids.find? (fun g => g.ownerId == ownerId && g.packageTier == tier && !g.isComplete) with
  | some g => (g, db)
  | none =>
    let g : Grid :=
      { id := db.nextGridId
        ownerId := ownerId
        packageTier := tier
        packagePrice := (GRID_PACKAGES tier).getD 0
        cycleNumber := next_cycle_number db ownerId tier
        positionsFilled := 0
        isComplete := false
        ownerPaid := false
        revenueTotal := 0 }
    (g, { db with grids := db.grids ++ [g], nextGridId := db.nextGridId + 1 })

/-- Number of occupied positions of a grid at a given level. -/
def levelCount (db : DB) (gid level : Nat) : Nat :=
  (db.gridPositions.filter (fun p => p.gridId == gid && p.gridLevel == level)).length

/-- `_next_slot`: lowest level (1..8) with fewer than 8 positions, and the
next position number in it. -/
def next_slot (db : DB) (gid : Nat) : Option (Nat × Nat) :=
  ((List.range GRID_LEVELS).map (· + 1)).findSome? (fun level =>
    let filled := levelCount db gid level
    if filled < GRID_WIDTH then some (level, filled + 1) else none)

/-- `_pay_level_commission`: pay `price * LEVEL_PCT * LEVEL_WEIGHT` (rounded
to 6 decimals) to the grid owner and append a `level_pool` ledger entry. -/
def pay_level_commission (db : DB) (grid : Grid) (price : Money) : DB :=
  let amount := applyPct price (LEVEL_PCT.mul LEVEL_WEIGHT)
  let creditO : User → User := fun u =>
    { u with balance := u.balance + amount,
             totalEarned := u.totalEarned + amount,
             levelEarnings := u.levelEarnings + amount }
  let db1 := match findUser db grid.ownerId with
    | some _ => updateUser db grid.ownerId creditO
    | none => db
  let entry : Commission :=
    ⟨grid.ownerId, some grid.ownerId, some grid.id, amount, "level_pool", grid.packageTier, "paid"⟩
  { db1 with commissions := db1.commissions ++ [entry] }

/-- `_record_commission`. -/
def record_commission (db : DB) (grid : Grid) (toUserId : Option Nat)
    (amount : Money) (ctype : String) : DB :=
  let entry : Commission :=
    ⟨grid.ownerId, toUserId, some grid.id, amount, ctype, grid.packageTier,
      if toUserId.isSome then "paid" else "company"⟩
  { db with commissions := db.commissions ++ [entry] }

/-- `_get_upline_id`. -/
def get_upline_id (db : DB) (uid : Nat) : Option Nat :=
  (findUser db uid).bind (·.sponsorId)

/-- `_complete_grid`: seal the grid, pay the owner `OWNER_PCT` and the upline
`UPLINE_PCT` of the accumulated revenue (company absorbs the upline share if
there is no upline), record the `COMPANY_PCT` fee, and spawn the successor
grid with `cycle_number + 1`. `grid` is the in-memory row with the freshly
updated counters. -/
def complete_grid (db : DB) (grid : Grid) : DB :=
  let db0 := updateGrid db grid.id (fun g => { g with isComplete := true })
  let totalRevenue := grid.revenueTotal
  let ownerAmount := applyPct totalRevenue OWNER_PCT
  let uplineAmount := applyPct totalRevenue UPLINE_PCT
  let companyAmount := applyPct totalRevenue COMPANY_PCT
  let creditOwner : User → User := fun u =>
    { u with balance := u.balance + ownerAmount,
             totalEarned := u.totalEarned + ownerAmount,
             gridEarnings := u.gridEarnings + ownerAmount }
  let db1 := match findUser db0 grid.ownerId with
    | some _ => updateUser db0 grid.ownerId creditOwner
    | none => db0
  let db2 := record_commission db1 grid (some grid.ownerId) ownerAmount "grid_owner"
  let creditUp : User → User := fun u =>
    { u with balance := u.balance + uplineAmount,
             totalEarned := u.totalEarned + uplineAmount,
             uplineEarnings := u.uplineEarnings + uplineAmount }
  let db3 := match get_upline_id db2 grid.ownerId with
    | some uid =>
      let db3a := match findUser db2 uid with
        | some _ => updateUser db2 uid creditUp
        | none => db2
      record_commission db3a grid (some uid) uplineAmount "upline"
    | none => record_commission db2 grid none uplineAmount "company"
  let db4 := record_commission db3 grid none companyAmount "company"
  let newGrid : Grid :=
    { id := db4.nextGridId
      ownerId := grid.ownerId
      packageTier := grid.packageTier
      packagePrice := grid.packagePrice
      cycleNumber := grid.cycleNumber + 1
      positionsFilled := 0
      isComplete := false
      ownerPaid := false
      revenueTotal := 0 }
  let db5 := { db4 with grids := db4.grids ++ [newGrid], nextGridId := db4.nextGridId + 1 }
  updateGrid db5 grid.id (fun g => { g with ownerPaid := true })

/-- Successful placement payload returned by `place_member_in_grid`. -/
structure PlaceOk where
  gridId : Nat
  gridLevel : Nat
  position : Nat
  cycle : Nat
  filled : Nat
  complete : Bool
deriving DecidableEq

/-- `place_member_in_grid`: validate, occupy the next free slot of the
owner's open grid, update the counters, pay the per-fill level-pool
commission, and complete the grid when `positions_filled` reaches
`GRID_TOTAL`. -/
def place_member_in_grid (db : DB) (memberId ownerId tier : Nat)
    (isOverspill : Bool := false) : Except String PlaceOk × DB :=
  if memberId == ownerId then (.error "Cannot join your own grid", db)
  else
    match GRID_PACKAGES tier with
    | none => (.error "Invalid package tier", db)
    | some price =>
      let gdb := get_or_create_active_grid db ownerId tier
      let grid := gdb.1
      let db1 := gdb.2
      match next_slot db1 grid.id with
      | none => (.error "Grid unexpectedly full", db1)
      | some (level, position) =>
        let pos : GridPosition := ⟨grid.id, memberId, level, position, isOverspill⟩
        let db2 := { db1 with gridPositions := db1.gridPositions ++ [pos] }
        let db3 := updateGrid db2 grid.id (fun g =>
          { g with positionsFilled := g.positionsFilled + 1,
                   revenueTotal := g.revenueTotal + price })
        let grid1 := { grid with positionsFilled := grid.positionsFilled + 1,
                                 revenueTotal := grid.revenueTotal + price }
        let db4 := match findUser db3 ownerId with
          | some _ => updateUser db3 ownerId (fun u => { u with totalTeam := u.totalTeam + 1 })
          | none => db3
        let db5 := pay_level_commission db4 grid1 price
        let isComplete := GRID_TOTAL ≤ grid1.positionsFilled
        let db6 := if isComplete then complete_grid db5 grid1 else db5
        (.ok ⟨grid.id, level, position, grid.cycleNumber, grid1.positionsFilled, isComplete⟩, db6)

/-! ## Payments, cascade, withdrawals, renewals, transfers
(`src/app/payment.py`) -/

def MEMBERSHIP_FEE : Money := usd 20

/-- One audit `Payment` row written per cascade hop
(`tx_hash = tx_hash + "_cascade_" + chain_depth`). -/
def cascadeHop (fromId : Nat) (toId : Option Nat) (txHash : String) (chainDepth : Nat) : Payment :=
  ⟨fromId, toId, MEMBERSHIP_FEE, "membership_auto", txHash ++ "_cascade_" ++ toString chainDepth, "confirmed"⟩

/-- Body of `_cascade_auto_activation`; `fuel = max_depth + 1 - chain_depth`,
so `fuel = 0` is exactly the `chain_depth > max_depth` guard.  Returns the
updated store and the `activated_users` accumulator entry list
`(user id, chain depth)` in activation order. -/
def cascadeAux (db : DB) (recipientId : Nat) (txHash : String) (chainDepth : Nat) :
    Nat → DB × List (Nat × Nat)
  | 0 => (db, [])
  | fuel + 1 =>
    match findUser db recipientId with
    | none => (db, [])
    | some r =>
      if r.isActive then (db, [])
      else if MEMBERSHIP_FEE ≤ r.balance then
        let db1 := updateUser db recipientId (fun u =>
          { u with balance := u.balance - MEMBERSHIP_FEE, isActive := true })
        match r.sponsorId.bind (fun sid => findUser db1 sid) with
        | none =>
          ({ db1 with payments := db1.payments ++ [cascadeHop recipientId none txHash chainDepth] },
            [(recipientId, chainDepth)])
        | some nextR =>
          let db2 := updateUser db1 nextR.id (fun u =>
            { u with balance := u.balance + MEMBERSHIP_FEE,
                     totalEarned := u.totalEarned + MEMBERSHIP_FEE,
                     personalReferrals := u.personalReferrals + 1 })
          let db3 := { db2 with payments :=
            db2.payments ++ [cascadeHop recipientId (some nextR.id) txHash chainDepth] }
          let rest := cascadeAux db3 nextR.id txHash (chainDepth + 1) fuel
          (rest.1, (recipientId, chainDepth) :: rest.2)
      else (db, [])

/-- `_cascade_auto_activation` with its `max_depth = 50` safety cap. -/
def cascade_auto_activation (db : DB) (recipientId : Nat) (txHash : String)
    (chainDepth : Nat) (maxDepth : Nat := 50) : DB × List (Nat × Nat) :=
  cascadeAux db recipientId txHash chainDepth (maxDepth + 1 - chainDepth)

/-- The debit-and-activate update of one cascade hop (named form of the
first `db.commit()` block of `_cascade_auto_activation`). -/
def cascadeDebit (db : DB) (rid : Nat) : DB :=
  updateUser db rid (fun u =>
    { u with balance := u.balance - MEMBERSHIP_FEE, isActive := true })

/-- The sponsor-credit update of one cascade hop. -/
def cascadeCredit (db : DB) (nid : Nat) : DB :=
  updateUser db nid (fun u =>
    { u with balance := u.balance + MEMBERSHIP_FEE,
             totalEarned := u.totalEarned + MEMBERSHIP_FEE,
             personalReferrals := u.personalReferrals + 1 })

/-- Store after a cascade hop whose fee is absorbed (no sponsor found). -/
def cascadeAbsorb (db : DB) (rid : Nat) (tx : String) (d : Nat) : DB :=
  { cascadeDebit db rid with
    payments := (cascadeDebit db rid).payments ++ [cascadeHop rid none tx d] }

/-- Store after a cascade hop that forwards the fee to sponsor `nid`. -/
def cascadeStep (db : DB) (rid nid : Nat) (tx : String) (d : Nat) : DB :=
  { cascadeCredit (cascadeDebit db rid) nid with
    payments := (cascadeCredit (cascadeDebit db rid) nid).payments
      ++ [cascadeHop rid (some nid) tx d] }

/-- Loop body of `_find_overspill_placement`: walk the upline, trying to
place into each ancestor's grid; the `visited` set breaks cycles.  `fuel`
dominates the loop (any value `≥ db.users.length + 2` is never the binding
constraint, see `overspill_fuel_irrelevant`-style reasoning in the proofs). -/
def overspillAux (db : DB) (userId tier : Nat) (cur : Option Nat) (visited : List Nat) :
    Nat → Except String PlaceOk × DB
  | 0 => (.error "No available grid in upline", db)
  | fuel + 1 =>
    match cur with
    | none => (.error "No available grid in upline", db)
    | some cid =>
      if visited.contains cid then (.error "No available grid in upline", db)
      else
        let rdb := place_member_in_grid db userId cid tier true
        match rdb.1 with
        | .ok r => (.ok r, rdb.2)
        | .error _ =>
          let next := (findUser rdb.2 cid).bind (·.sponsorId)
          overspillAux rdb.2 userId tier next (cid :: visited) fuel

/-- `_find_overspill_placement`. -/
def find_overspill_placement (db : DB) (userId originalSponsorId tier : Nat) :
    Except String PlaceOk × DB :=
  overspillAux db userId tier (some originalSponsorId) [] (db.users.length + 2)

/-- `process_grid_payment`: duplicate-reference check, validation, oracle
verification, then record the incoming payment and place the member into the
sponsor's grid (overspill walk when full).  `verify` stands for
`verify_transaction(tx_hash, COMPANY_WALLET, price)`. -/
def process_grid_payment (db : DB) (userId tier : Nat) (txHash : String)
    (verify : String → Money → Bool) : Except String PlaceOk × DB :=
  if (db.payments.find? (fun p => p.txHash == txHash)).isSome then
    (.error "Transaction already processed", db)
  else
    match findUser db userId with
    | none => (.error "User not found", db)
    | some user =>
      if !user.isActive then (.error "Membership not active", db)
      else
        match GRID_PACKAGES tier with
        | none => (.error "Invalid package tier", db)
        | some price =>
          if !verify txHash price then (.error "Payment not verified on Base Chain", db)
          else
            let pay : Payment :=
              ⟨userId, none, price, "grid_tier_" ++ toString tier, txHash, "confirmed"⟩
            let db1 := { db with payments := db.payments ++ [pay] }
            let sponsorId := match user.sponsorId with
              | some s => s
              | none =>
                match db1.users.find? (fun u => u.isAdmin) with
                | some a => a.id
                | none => 1
            let rdb := place_member_in_grid db1 userId sponsorId tier
            let rdb2 := match rdb.1 with
              | .ok r => (Except.ok r, rdb.2)
              | .error _ => find_overspill_placement rdb.2 userId sponsorId tier
            match rdb2.1 with
            | .ok r => (.ok r, rdb2.2)
            | .error _ => (.error "Could not place in any grid", rdb2.2)

/-- `request_withdrawal`. -/
def request_withdrawal (db : DB) (userId : Nat) (amount : Money) :
    Except String Money × DB :=
  match findUser db userId with
  | none => (.error "User not found", db)
  | some user =>
    if amount < usd 5 then (.error "Minimum withdrawal is 5 USDT", db)
    else if user.balance < amount then (.error "Insufficient balance", db)
    else
      match user.walletAddress with
      | none => (.error "No withdrawal wallet set", db)
      | some addr =>
        let db1 := updateUser db userId (fun u =>
          { u with balance := u.balance - amount, totalWithdrawn := u.totalWithdrawn + amount })
        let db2 := { db1 with withdrawals := db1.withdrawals ++ [⟨userId, amount, addr, "pending"⟩] }
        (.ok (user.balance - amount), db2)

/-- One day in seconds (renewal timestamps are `Int` seconds). -/
def DAY : Int := 86400

/-- Body of the `process_auto_renewals` sweep for one renewal record
(identified by its `user_id` key), threading the store. -/
def renewStep (now : Int) (db : DB) (ruid : Nat) : DB :=
  match db.renewals.find? (fun r => r.userId == ruid) with
  | none => db
  | some renewal =>
    match findUser db ruid with
    | none => db
    | some user =>
      if !user.isActive then db
      else
        let warnDue := renewal.nextRenewalDate - 3 * DAY ≤ now
        let db1 :=
          if warnDue && !renewal.inGracePeriod && user.balance < MEMBERSHIP_FEE
              && !user.lowBalanceWarned then
            updateUser db ruid (fun u => { u with lowBalanceWarned := true })
          else db
        let user1 := (findUser db1 ruid).getD user
        if renewal.nextRenewalDate ≤ now && !renewal.inGracePeriod then
          if MEMBERSHIP_FEE ≤ user1.balance then
            let sponsor := user1.sponsorId.bind (fun sid => findUser db1 sid)
            let db2 := updateUser db1 ruid (fun u =>
              { u with balance := u.balance - MEMBERSHIP_FEE, lowBalanceWarned := false })
            let creditS : User → User := fun u =>
              { u with balance := u.balance + MEMBERSHIP_FEE,
                       totalEarned := u.totalEarned + MEMBERSHIP_FEE }
            let db3 := match sponsor with
              | some s => updateUser db2 s.id creditS
              | none => db2
            let entry : Commission :=
              ⟨ruid, sponsor.map (·.id), none, MEMBERSHIP_FEE, "membership_renewal", 0, "paid"⟩
            let db4 := { db3 with commissions := db3.commissions ++ [entry] }
            updateRenewal db4 ruid (fun r =>
              { r with lastRenewedAt := now, nextRenewalDate := now + 30 * DAY,
                       totalRenewals := r.totalRenewals + 1 })
          else
            updateRenewal db1 ruid (fun r =>
              { r with inGracePeriod := true, gracePeriodStart := some now })
        else if renewal.inGracePeriod then
          match renewal.gracePeriodStart with
          | some gs =>
            if gs + 5 * DAY ≤ now then
              updateRenewal (updateUser db1 ruid (fun u => { u with isActive := false })) ruid
                (fun r => { r with inGracePeriod := false })
            else db1
          | none => db1
        else db1

/-- `process_auto_renewals`: daily sweep over all renewal records (the
summary lists the Python version also returns are pure reporting and are
omitted). -/
def process_auto_renewals (db : DB) (now : Int) : DB :=
  (db.renewals.map (·.userId)).foldl (renewStep now) db

def MIN_P2P_AMOUNT : Money := usd 1
def MAX_P2P_AMOUNT : Money := usd 500

/-- Python `str.strip()` on the character list. -/
def trimChars (cs : List Char) : List Char :=
  ((cs.dropWhile Char.isWhitespace).reverse.dropWhile Char.isWhitespace).reverse

/-- Python `str.replace("SAP-", "")`: remove every (non-overlapping,
left-to-right) occurrence of `SAP-`; `fuel` is the list length. -/
def dropSAPAux : Nat → List Char → List Char
  | 0, _ => []
  | _, [] => []
  | fuel + 1, c :: cs =>
    if c = 'S' && cs.take 3 == ['A', 'P', '-'] then dropSAPAux fuel (cs.drop 3)
    else c :: dropSAPAux fuel cs

/-- `to_member_id.strip().upper().replace("SAP-", "")`. -/
def cleanMemberId (s : String) : List Char :=
  let t := (trimChars s.data).map Char.toUpper
  dropSAPAux t.length t

/-- Python `int(...)` on an all-digit string. -/
def digitsToNat (cs : List Char) : Nat :=
  cs.foldl (fun n c => n * 10 + (c.toNat - 48)) 0

/-- Recipient resolution of `process_p2p_transfer`: strip/uppercase, drop
every `"SAP-"`, numeric lookup by id when the remainder is all digits, then
fallback lookup by username on the trimmed original. -/
def resolveP2PRecipient (db : DB) (toMemberId : String) : Option User :=
  let clean := cleanMemberId toMemberId
  let byId : Option User :=
    if !clean.isEmpty && clean.all Char.isDigit then findUser db (digitsToNat clean)
    else none
  match byId with
  | some u => some u
  | none => db.users.find? (fun u => u.username == String.mk (trimChars toMemberId.data))

/-- `process_p2p_transfer`. -/
def process_p2p_transfer (db : DB) (fromUserId : Nat) (toMemberId : String)
    (amount : Money) (note : Option String := none) : Except String Money × DB :=
  if amount < MIN_P2P_AMOUNT then (.error "Minimum transfer is 1 USDT", db)
  else if MAX_P2P_AMOUNT < amount then (.error "Maximum single transfer is 500 USDT", db)
  else
    match findUser db fromUserId with
    | none => (.error "Sender not found", db)
    | some sender =>
      if !sender.isActive then (.error "Active membership required to transfer funds", db)
      else if sender.balance < amount then (.error "Insufficient balance", db)
      else
        match resolveP2PRecipient db toMemberId with
        | none => (.error "Member not found", db)
        | some recipient =>
          if recipient.id == fromUserId then
            (.error "You cannot transfer funds to yourself", db)
          else if !recipient.isActive then
            (.error "Recipient does not have an active membership", db)
          else
            let db1 := updateUser db fromUserId (fun u =>
              { u with balance := u.balance - amount })
            let db2 := updateUser db1 recipient.id (fun u =>
              { u with balance := u.balance + amount,
                       totalEarned := u.totalEarned + amount })
            let note1 := match note with
              | some s => if s.isEmpty then none else some (String.mk (s.data.take 200))
              | none => none
            let rec_ : P2PTransfer := ⟨fromUserId, recipient.id, amount, note1, "completed"⟩
            let db3 := { db2 with p2pTransfers := db2.p2pTransfers ++ [rec_] }
            (.ok (sender.balance - amount), db3)

/-! ## Specification-side definitions and invariants -/

/-- Read-only view of a pass-up tracker (`salesCount = 0`,
`firstPassedUp = false` when no row exists yet). -/
def trackerOf (db : DB) (uid tier : Nat) : Tracker :=
  (findTracker db uid tier).getD ⟨uid, tier, 0, false⟩

/-- Store a tracker value: update the row in place when it exists,
append it otherwise. -/
def setTracker (db : DB) (uid tier : Nat) (v : Tracker) : DB :=
  if (findTracker db uid tier).isSome then updateTracker db uid tier (fun _ => v)
  else { db with trackers := db.trackers ++ [v] }

/-- The *amended* C4 walk: spec §4.2 step 3 with the ownership test widened
to the code's `user_owns_tier` ("has purchased tier `T` **or any higher
tier**").  Qualification predicate: "is admin OR (owns ≥ T AND (already
`firstPassedUp` OR has sales > 0))"; a candidate that owns ≥ T but has
neither sold nor passed up has their first-sale credit consumed (tracker
`salesCount + 1`, `firstPassedUp := true`) and the walk continues past
them.  The walk following the specification's glossary reading of
ownership verbatim is `specFirstSaleWalkExact` below; the two diverge
(claim C4's counterexample). -/
def amendedFirstSaleWalk (db : DB) (cur : Option Nat) (tier depth : Nat) :
    Nat → Option User × Nat × DB
  | 0 => (none, depth, db)
  | fuel + 1 =>
    match cur with
    | none => (none, depth, db)
    | some cid =>
      match findUser db cid with
      | none => (none, depth + 1, db)
      | some cand =>
        let tr := trackerOf db cand.id tier
        let owns := user_owns_tier db cand.id tier
        if cand.isAdmin || (owns && (tr.firstPassedUp || decide (0 < tr.salesCount))) then
          (some cand, depth + 1, db)
        else if owns then
          let db1 := setTracker db cand.id tier
            { tr with salesCount := tr.salesCount + 1, firstPassedUp := true }
          amendedFirstSaleWalk db1 cand.sponsorId tier (depth + 1) fuel
        else amendedFirstSaleWalk db cand.sponsorId tier (depth + 1) fuel

/-- "Owns tier `T`" as the specification's glossary defines it ("a member
is qualified for a tier if they themselves own (have purchased) that
tier"): a course purchase at exactly tier `T`. -/
def spec_owns_tier_exact (db : DB) (userId tier : Nat) : Bool :=
  (db.coursePurchases.find? (fun p => p.userId == userId && p.courseTier == tier)).isSome

/-- Spec §4.2 step 3 written from the specification's words, with the
glossary's exact-tier ownership: walk the chain with qualification
predicate "is admin OR (owns exactly T AND (already `firstPassedUp` OR has
sales > 0))", consuming the first-sale credit of candidates who own
exactly `T` but have done neither.  This is the walk the frozen C4 claim
describes; the code diverges from it. -/
def specFirstSaleWalkExact (db : DB) (cur : Option Nat) (tier depth : Nat) :
    Nat → Option User × Nat × DB
  | 0 => (none, depth, db)
  | fuel + 1 =>
    match cur with
    | none => (none, depth, db)
    | some cid =>
      match findUser db cid with
      | none => (none, depth + 1, db)
      | some cand =>
        let tr := trackerOf db cand.id tier
        let owns := spec_owns_tier_exact db cand.id tier
        if cand.isAdmin || (owns && (tr.firstPassedUp || decide (0 < tr.salesCount))) then
          (some cand, depth + 1, db)
        else if owns then
          let db1 := setTracker db cand.id tier
            { tr with salesCount := tr.salesCount + 1, firstPassedUp := true }
          specFirstSaleWalkExact db1 cand.sponsorId tier (depth + 1) fuel
        else specFirstSaleWalkExact db cand.sponsorId tier (depth + 1) fuel

/-- The tracker mutation `_distribute_commission` performs on the sponsor's
tracker for a first sale, in specification form: increment `sales_count`
and set `first_passed_up` on the (possibly fresh) tracker row. -/
def markFirstSale (db : DB) (uid tier : Nat) : DB :=
  let tr := trackerOf db uid tier
  setTracker db uid tier { tr with salesCount := tr.salesCount + 1, firstPassedUp := true }

/-- One row per `(member, tier)` pair: the uniqueness invariant of the
pass-up tracker table. -/
def TrackersNodup (db : DB) : Prop :=
  (db.trackers.map (fun t => (t.userId, t.courseTier))).Nodup

instance (db : DB) : Decidable (TrackersNodup db) := by
  unfold TrackersNodup
  infer_instance

/-- The tracker mutation `_distribute_commission` performs on the sponsor's
tracker for a repeat sale: fetch or create, increment `sales_count` only. -/
def markRepeatSale (db : DB) (uid tier : Nat) : DB :=
  let tdb := get_or_create_tracker db uid tier
  updateTracker tdb.2 uid tier (fun t => { t with salesCount := t.salesCount + 1 })

/-- Grid store invariant: position counts agree with the `positions_filled`
counters, open grids are strictly below capacity, no grid exceeds capacity,
grid ids are unique and below the id counter, and positions only reference
allocated grid ids. -/
def GridInv (db : DB) : Prop :=
  (∀ g ∈ db.grids, g.positionsFilled ≤ GRID_TOTAL) ∧
  (∀ g ∈ db.grids, g.isComplete = false →
      g.positionsFilled < GRID_TOTAL ∧
      (db.gridPositions.filter (fun p => p.gridId == g.id)).length = g.positionsFilled) ∧
  (db.grids.map (·.id)).Nodup ∧
  (∀ g ∈ db.grids, g.id < db.nextGridId) ∧
  (∀ p ∈ db.gridPositions, p.gridId < db.nextGridId)

instance (db : DB) : Decidable (GridInv db) := by
  unfold GridInv
  infer_instance

/-- All member balances are non-negative, all accumulated grid revenue
totals are non-negative, and all catalogue prices are non-negative (the
monetary well-formedness of the store that purchases preserve). -/
def MoneyInv (db : DB) : Prop :=
  (∀ u ∈ db.users, 0 ≤ u.balance) ∧
  (∀ g ∈ db.grids, 0 ≤ g.revenueTotal) ∧
  (∀ c ∈ db.courses, 0 ≤ c.price)

instance (db : DB) : Decidable (MoneyInv db) := by
  unfold MoneyInv
  infer_instance

/-- The primary-key property of the member table: member ids are unique. -/
def UsersNodup (db : DB) : Prop := (db.users.map (·.id)).Nodup

instance (db : DB) : Decidable (UsersNodup db) := by
  unfold UsersNodup
  infer_instance

/-- Monetary well-formedness plus unique member ids: the inductive
invariant of the non-negative-balance proof. -/
def WF (db : DB) : Prop := MoneyInv db ∧ UsersNodup db

instance (db : DB) : Decidable (WF db) := by
  unfold WF
  infer_instance

/-- One engine operation, as exposed to the presentation layer: the state
transitions of the compensation engine. -/
inductive EngineStep : DB → DB → Prop
  | coursePurchase (db : DB) (buyerId courseId : Nat) (pm : String) (txRef : Option String) :
      EngineStep db (process_course_purchase db buyerId courseId pm txRef).2
  | gridPayment (db : DB) (userId tier : Nat) (txHash : String) (verify : String → Money → Bool) :
      EngineStep db (process_grid_payment db userId tier txHash verify).2
  | withdrawal (db : DB) (userId : Nat) (amount : Money) :
      EngineStep db (request_withdrawal db userId amount).2
  | renewals (db : DB) (now : Int) :
      EngineStep db (process_auto_renewals db now)
  | cascade (db : DB) (recipientId : Nat) (txHash : String) (chainDepth : Nat) :
      EngineStep db (cascade_auto_activation db recipientId txHash chainDepth).1
  | p2p (db : DB) (fromUserId : Nat) (toMemberId : String) (amount : Money) (note : Option String) :
      EngineStep db (process_p2p_transfer db fromUserId toMemberId amount note).2

/-- Reflexive-transitive closure of `EngineStep`. -/
inductive Reachable : DB → DB → Prop
  | refl (db : DB) : Reachable db db
  | step {db1 db2 db3 : DB} : Reachable db1 db2 → EngineStep db2 db3 → Reachable db1 db3

/-! ## Concrete stores used by counterexamples and witnesses -/

/-- A member row with the given id, sponsor, flags and balance; all other
columns at their defaults. -/
def mkUser (id : Nat) (sponsor : Option Nat) (admin active : Bool) (bal : Money) : User :=
  { id := id, username := "u" ++ toString id, sponsorId := sponsor, walletAddress := some "w",
    isAdmin := admin, isActive := active, balance := bal, totalEarned := 0, totalWithdrawn := 0,
    gridEarnings := 0, levelEarnings := 0, uplineEarnings := 0, courseEarnings := 0,
    personalReferrals := 0, totalTeam := 0, lowBalanceWarned := false }

/-- The empty store. -/
def emptyDB : DB := ⟨[], [], [], [], [], [], [], [], [], [], [], [], 1, 1⟩

/-- Admin 1 and member 2 (sponsored by 1), both active: the store for the
single grid seat fill evaluation. -/
def dbGridFill : DB :=
  { emptyDB with users := [mkUser 1 none true true 0, mkUser 2 (some 1) false true 0] }

/-- Buyer 2 (balance 1000, sponsored by admin 1) and two active courses,
tier 1 at price 100 and tier 2 at price 300. -/
def dbTwoCourses : DB :=
  { emptyDB with
    users := [mkUser 1 none true true 0, mkUser 2 (some 1) false true (usd 1000)],
    courses := [⟨1, usd 100, 1, true⟩, ⟨2, usd 300, 2, true⟩] }

/-- A lone active admin with no sponsor. -/
def dbLoneAdmin : DB := { emptyDB with users := [mkUser 1 none true true 0] }

/-- Sponsor chain 3 → 2 → 5; sponsor 2 has already passed up at tier 1 and
owns nothing; 5 owns only tier 3 (no tier-1 purchase). -/
def dbHigherTier : DB :=
  { emptyDB with
    users := [mkUser 5 none false true 0, mkUser 2 (some 5) false true 0,
              mkUser 3 (some 2) false true (usd 1000)],
    courses := [⟨1, usd 100, 1, true⟩],
    coursePurchases := [⟨90, 5, 9, 3, usd 500, "wallet", none⟩],
    trackers := [⟨2, 1, 1, true⟩],
    nextPurchaseId := 100 }

/-- Sponsor chain 3 → 2 → 1 → 4; sponsor 2 has passed up at tier 1 and owns
nothing; 1 is an admin who owns no tier; 4 owns tier 1. -/
def dbAdminNoTier : DB :=
  { emptyDB with
    users := [mkUser 4 none false true 0, mkUser 1 (some 4) true true 0,
              mkUser 2 (some 1) false true 0, mkUser 3 (some 2) false true (usd 1000)],
    courses := [⟨1, usd 100, 1, true⟩],
    coursePurchases := [⟨90, 4, 9, 1, usd 100, "wallet", none⟩],
    trackers := [⟨2, 1, 1, true⟩],
    nextPurchaseId := 100 }

/-- Append one transfer record (the last write of a successful
`process_p2p_transfer`). -/
def addP2P (db : DB) (t : P2PTransfer) : DB :=
  { db with p2pTransfers := db.p2pTransfers ++ [t] }

/-- The note stored on a transfer record: `note[:200] if note else None`. -/
def p2pNote (note : Option String) : Option String :=
  match note with
  | some s => if s.isEmpty then none else some (String.mk (s.data.take 200))
  | none => none

/-- The sender-side mutation of a successful transfer. -/
def debitBy (amount : Money) : User → User :=
  fun u => { u with balance := u.balance - amount }

/-- The recipient-side mutation of a successful transfer: balance and
lifetime earnings both grow by the amount. -/
def creditP2P (amount : Money) : User → User :=
  fun u => { u with balance := u.balance + amount, totalEarned := u.totalEarned + amount }

/-- Total of all member balances. -/
def sumBalances (db : DB) : Money := (db.users.map (·.balance)).sum

/-- The member has a sponsor pointer that resolves to an existing member
(the condition under which a cascaded fee is forwarded rather than
absorbed). -/
def sponsorExists (db : DB) (uid : Nat) : Bool :=
  match (findUser db uid).bind (·.sponsorId) with
  | some sid => (findUser db sid).isSome
  | none => false

/-- Member 1 (active, owns tier 1, has already passed up, two sales) with
downline buyer 2. -/
def dbRepeatSale : DB :=
  { emptyDB with
    users := [mkUser 1 none false true 0, mkUser 2 (some 1) false true (usd 500)],
    courses := [⟨1, usd 100, 1, true⟩],
    coursePurchases := [⟨50, 1, 8, 1, usd 100, "wallet", none⟩],
    trackers := [⟨1, 1, 2, true⟩],
    nextPurchaseId := 60 }

/-- Chain buyer 3 → sponsor 2 (fresh at tier 1) → grandsponsor 1, who owns
tier 1 and has prior tier-1 sales (spec §8, example scenario 1). -/
def dbFirstSale : DB :=
  { emptyDB with
    users := [mkUser 1 none false true 0, mkUser 2 (some 1) false true 0,
              mkUser 3 (some 2) false true (usd 500)],
    courses := [⟨1, usd 100, 1, true⟩],
    coursePurchases := [⟨50, 1, 8, 1, usd 100, "wallet", none⟩],
    trackers := [⟨1, 1, 1, true⟩],
    nextPurchaseId := 60 }

/-- Buyer 3 → sponsor 2 (no tier-1 tracker yet: first sale) → upline 5,
where 5 has purchased only tier 3 (never tier 1) and holds a tier-1
tracker with `salesCount = 1`: the code's walk credits 5, the frozen C4
claim's exact-ownership walk skips 5 and reaches the platform. -/
def dbC4Higher : DB :=
  { emptyDB with
    users := [mkUser 5 none false true 0, mkUser 2 (some 5) false true 0,
              mkUser 3 (some 2) false true (usd 500)],
    courses := [⟨1, usd 100, 1, true⟩],
    coursePurchases := [⟨50, 5, 9, 3, usd 100, "wallet", none⟩],
    trackers := [⟨5, 1, 1, false⟩],
    nextPurchaseId := 60 }

/-- Two unrelated active members for transfer scenarios. -/
def dbTransfer : DB :=
  { emptyDB with
    users := [mkUser 1 none false true (usd 100), mkUser 2 none false true (usd 5)] }

/-- Member 1: inactive, balance `$25`, sponsored by the active member 2
(spec §8, example scenario 4 shape). -/
def dbCascade : DB :=
  { emptyDB with
    users := [mkUser 1 (some 2) false false (usd 25), mkUser 2 none false true 0] }

/-! ## Helper lemmas -/

theorem findUser_some_id {db : DB} {uid : Nat} {u : User}
    (h : findUser db uid = some u) : u.id = uid := by
  have h1 := List.find?_some h
  simpa using h1

theorem findPred_congr {α : Type} {p q : α → Bool} :
    ∀ {l : List α}, (∀ x ∈ l, p x = q x) → l.find? p = l.find? q
  | [], _ => rfl
  | x :: xs, h => by
    have hx := h x (by simp)
    by_cases hp : p x
    · rw [List.find?_cons_of_pos _ hp, List.find?_cons_of_pos _ (hx ▸ hp)]
    · rw [List.find?_cons_of_neg _ hp, List.find?_cons_of_neg _ (hx ▸ hp)]
      exact findPred_congr (fun y hy => h y (by simp [hy]))

theorem findUser_updateUser (db : DB) (uid uid2 : Nat) (f : User → User)
    (hf : ∀ u, (f u).id = u.id) :
    findUser (updateUser db uid f) uid2 =
      (findUser db uid2).map (fun u => if u.id == uid then f u else u) := by
  unfold findUser updateUser
  rw [List.find?_map]
  apply congrArg
  apply findPred_congr
  intro u _
  by_cases h : u.id = uid <;> simp [Function.comp, h, hf]

theorem findUser_updateUser_self (db : DB) (uid : Nat) (f : User → User)
    (hf : ∀ u, (f u).id = u.id) :
    findUser (updateUser db uid f) uid = (findUser db uid).map f := by
  rw [findUser_updateUser db uid uid f hf]
  cases h : findUser db uid with
  | none => rfl
  | some u => simp [findUser_some_id h]

theorem findUser_updateUser_ne (db : DB) (uid uid2 : Nat) (f : User → User)
    (hf : ∀ u, (f u).id = u.id) (h : uid2 ≠ uid) :
    findUser (updateUser db uid f) uid2 = findUser db uid2 := by
  rw [findUser_updateUser db uid uid2 f hf]
  cases h1 : findUser db uid2 with
  | none => rfl
  | some u =>
    have := findUser_some_id h1
    simp [this, h]

theorem updateUser_trackers (db : DB) (uid : Nat) (f : User → User) :
    (updateUser db uid f).trackers = db.trackers := rfl

theorem credit_earner_trackers (db : DB) (pid bid tier eid : Nat) (amt : Money)
    (ct : String) (dep : Nat) :
    (credit_earner db pid bid tier eid amt ct dep).2.trackers = db.trackers := rfl

theorem credit_platform_trackers (db : DB) (pid bid tier : Nat) (amt : Money) :
    (credit_platform db pid bid tier amt).2.trackers = db.trackers := by
  cases h : db.users.find? (fun u => u.isAdmin) <;>
    simp [credit_platform, h, updateUser_trackers]

theorem credit_earner_fst (db : DB) (pid bid tier eid : Nat) (amt : Money)
    (ct : String) (dep : Nat) :
    (credit_earner db pid bid tier eid amt ct dep).1 = ⟨some eid, amt, ct, dep⟩ := rfl

theorem credit_platform_fst (db : DB) (pid bid tier : Nat) (amt : Money) :
    (credit_platform db pid bid tier amt).1 =
      ⟨(db.users.find? (fun u => u.isAdmin)).map (·.id), amt, "platform", 0⟩ := rfl

theorem user_owns_tier_congr {db db2 : DB} (h : db2.coursePurchases = db.coursePurchases)
    (uid tier : Nat) : user_owns_tier db2 uid tier = user_owns_tier db uid tier := by
  unfold user_owns_tier
  rw [h]

theorem findUser_congr {db db2 : DB} (h : db2.users = db.users) (uid : Nat) :
    findUser db2 uid = findUser db uid := by
  unfold findUser
  rw [h]

theorem find_qualified_upline_aux_congr {db db2 : DB} (hu : db2.users = db.users)
    (hp : db2.coursePurchases = db.coursePurchases) (tier : Nat) :
    ∀ (fuel : Nat) (cur : Option Nat) (depth : Nat),
      find_qualified_upline_aux db2 cur tier depth fuel =
        find_qualified_upline_aux db cur tier depth fuel
  | 0, _, _ => rfl
  | fuel + 1, none, _ => rfl
  | fuel + 1, some cid, depth => by
    simp only [find_qualified_upline_aux, findUser_congr hu,
      user_owns_tier_congr hp]
    cases findUser db cid with
    | none => rfl
    | some user =>
      simp only
      split
      · rfl
      · exact find_qualified_upline_aux_congr hu hp tier fuel user.sponsorId (depth + 1)

/-! ### Tracker-table lemmas -/

theorem find?_map_update_of_found {α : Type} {p : α → Bool} {v : α} (hv : p v = true) :
    ∀ {l : List α}, (l.find? p).isSome →
      (l.map (fun t => if p t then v else t)).find? p = some v
  | [], h => by simp at h
  | x :: xs, h => by
    by_cases hx : p x = true
    · simp only [List.map_cons, if_pos hx]
      exact List.find?_cons_of_pos _ hv
    · simp only [List.map_cons, if_neg hx]
      rw [List.find?_cons_of_neg _ (by simpa using hx)]
      refine find?_map_update_of_found hv ?_
      rw [List.find?_cons_of_neg _ (by simpa using hx)] at h
      exact h

theorem find?_map_update_other {α : Type} {p q : α → Bool} {v : α} (hqv : q v = false)
    (hpq : ∀ t, p t = true → q t = false) :
    ∀ (l : List α), (l.map (fun t => if p t then v else t)).find? q = l.find? q
  | [] => rfl
  | x :: xs => by
    by_cases hx : p x = true
    · simp only [List.map_cons, if_pos hx]
      rw [List.find?_cons_of_neg _ (by simp [hqv]),
        List.find?_cons_of_neg _ (by simp [hpq x hx])]
      exact find?_map_update_other hqv hpq xs
    · simp only [List.map_cons, if_neg hx]
      by_cases hq : q x = true
      · rw [List.find?_cons_of_pos _ hq, List.find?_cons_of_pos _ hq]
      · rw [List.find?_cons_of_neg _ (by simpa using hq),
          List.find?_cons_of_neg _ (by simpa using hq)]
        exact find?_map_update_other hqv hpq xs

theorem map_update_of_none {α : Type} {p : α → Bool} {f : α → α} {l : List α}
    (h : ∀ x ∈ l, p x = false) :
    l.map (fun t => if p t then f t else t) = l := by
  rw [show l.map (fun t => if p t then f t else t) = l.map id from
    List.map_congr_left (fun x hx => by simp [h x hx])]
  exact List.map_id l

theorem map_update_const_of_found {α : Type} {β : Type} {p : α → Bool} {f : α → α}
    {t : α} {key : α → β} {l : List α}
    (hn : (l.map key).Nodup) (hf : l.find? p = some t)
    (hkey : ∀ x y, p x = true → p y = true → key x = key y) :
    l.map (fun x => if p x then f x else x) = l.map (fun x => if p x then f t else x) := by
  have ht : t ∈ l := List.mem_of_find?_eq_some hf
  have hpt : p t = true := List.find?_some hf
  refine List.map_congr_left (fun x hx => ?_)
  by_cases hpx : p x = true
  · have : x = t := List.inj_on_of_nodup_map hn hx ht (hkey x t hpx hpt)
    rw [this]
  · simp [hpx]

theorem findTracker_isSome_key {db : DB} {uid tier : Nat} {t : Tracker}
    (h : findTracker db uid tier = some t) : t.userId = uid ∧ t.courseTier = tier := by
  have := List.find?_some h
  simpa using this

theorem trackerOf_key (db : DB) (uid tier : Nat) :
    (trackerOf db uid tier).userId = uid ∧ (trackerOf db uid tier).courseTier = tier := by
  unfold trackerOf
  cases h : findTracker db uid tier with
  | none => exact ⟨rfl, rfl⟩
  | some t => simpa using findTracker_isSome_key h

theorem gocr_fst (db : DB) (uid tier : Nat) :
    (get_or_create_tracker db uid tier).1 = trackerOf db uid tier := by
  unfold get_or_create_tracker trackerOf
  cases h : findTracker db uid tier <;> simp [h]

theorem gocr_snd_of_found {db : DB} {uid tier : Nat} {t : Tracker}
    (h : findTracker db uid tier = some t) :
    (get_or_create_tracker db uid tier).2 = db := by
  unfold get_or_create_tracker
  rw [h]

theorem findTracker_setTracker_self (db : DB) (uid tier : Nat) (v : Tracker)
    (hv : v.userId = uid ∧ v.courseTier = tier) :
    findTracker (setTracker db uid tier v) uid tier = some v := by
  have hvb : (v.userId == uid && v.courseTier == tier) = true := by simp [hv.1, hv.2]
  unfold setTracker
  by_cases h : (findTracker db uid tier).isSome
  · rw [if_pos h]
    simp only [findTracker, updateTracker] at h ⊢
    exact find?_map_update_of_found
      (p := fun t : Tracker => t.userId == uid && t.courseTier == tier) hvb h
  · rw [if_neg h]
    unfold findTracker at h ⊢
    rw [Option.not_isSome_iff_eq_none] at h
    rw [List.find?_append, h]
    simp [List.find?, hvb]

theorem findTracker_setTracker_ne (db : DB) (uid tier uid2 tier2 : Nat) (v : Tracker)
    (hne : ¬(uid2 = uid ∧ tier2 = tier)) (hv : v.userId = uid ∧ v.courseTier = tier) :
    findTracker (setTracker db uid tier v) uid2 tier2 = findTracker db uid2 tier2 := by
  have hkeyne : ∀ t : Tracker, t.userId = uid ∧ t.courseTier = tier →
      (t.userId == uid2 && t.courseTier == tier2) = false := by
    rintro t ⟨h1, h2⟩
    subst h1; subst h2
    by_cases e1 : t.userId = uid2
    · have e2 : ¬ t.courseTier = tier2 := fun e2 => hne ⟨e1.symm, e2.symm⟩
      simp [e2]
    · simp [e1]
  have hqv := hkeyne v hv
  have hpq : ∀ t : Tracker, (t.userId == uid && t.courseTier == tier) = true →
      (t.userId == uid2 && t.courseTier == tier2) = false := by
    intro t ht
    simp only [Bool.and_eq_true, beq_iff_eq] at ht
    exact hkeyne t ht
  unfold setTracker
  by_cases h : (findTracker db uid tier).isSome
  · rw [if_pos h]
    simp only [findTracker, updateTracker]
    exact find?_map_update_other
      (p := fun t : Tracker => t.userId == uid && t.courseTier == tier)
      (q := fun t : Tracker => t.userId == uid2 && t.courseTier == tier2) hqv hpq db.trackers
  · rw [if_neg h]
    unfold findTracker
    rw [List.find?_append]
    cases hf : List.find? (fun t => t.userId == uid2 && t.courseTier == tier2) db.trackers with
    | none => simp [List.find?, hqv]
    | some t => simp

theorem trackerOf_setTracker_self (db : DB) (uid tier : Nat) (v : Tracker)
    (hv : v.userId = uid ∧ v.courseTier = tier) :
    trackerOf (setTracker db uid tier v) uid tier = v := by
  unfold trackerOf
  rw [findTracker_setTracker_self db uid tier v hv]
  rfl

theorem trackerOf_setTracker_ne (db : DB) (uid tier uid2 tier2 : Nat) (v : Tracker)
    (hne : ¬(uid2 = uid ∧ tier2 = tier)) (hv : v.userId = uid ∧ v.courseTier = tier) :
    trackerOf (setTracker db uid tier v) uid2 tier2 = trackerOf db uid2 tier2 := by
  unfold trackerOf
  rw [findTracker_setTracker_ne db uid tier uid2 tier2 v hne hv]

theorem setTracker_update (db : DB) (uid tier : Nat) (v : Tracker) (g : Tracker → Tracker)
    (hv : v.userId = uid ∧ v.courseTier = tier) :
    updateTracker (setTracker db uid tier v) uid tier g = setTracker db uid tier (g v) := by
  have hvb : (v.userId == uid && v.courseTier == tier) = true := by simp [hv.1, hv.2]
  unfold setTracker updateTracker
  by_cases h : (findTracker db uid tier).isSome
  · rw [if_pos h, if_pos h]
    refine congrArg (fun ts : List Tracker => ({ db with trackers := ts } : DB)) ?_
    rw [List.map_map]
    refine List.map_congr_left (fun x _ => ?_)
    by_cases hx : (x.userId == uid && x.courseTier == tier) = true <;>
      simp [Function.comp, hx, hvb]
  · rw [if_neg h, if_neg h]
    refine congrArg (fun ts : List Tracker => ({ db with trackers := ts } : DB)) ?_
    have hnone : ∀ x ∈ db.trackers, (x.userId == uid && x.courseTier == tier) = false := by
      intro x hx
      unfold findTracker at h
      rw [Option.not_isSome_iff_eq_none, List.find?_eq_none] at h
      simpa using h x hx
    rw [List.map_append, map_update_of_none hnone]
    simp [List.map, hvb]

theorem gocr_update (db : DB) (uid tier : Nat) (f : Tracker → Tracker)
    (hn : TrackersNodup db) :
    updateTracker (get_or_create_tracker db uid tier).2 uid tier f =
      setTracker db uid tier (f (trackerOf db uid tier)) := by
  unfold get_or_create_tracker
  cases hf : findTracker db uid tier with
  | some t =>
    have hts : trackerOf db uid tier = t := by unfold trackerOf; rw [hf]; rfl
    rw [hts]
    unfold updateTracker setTracker
    rw [if_pos (by unfold findTracker at hf ⊢; rw [hf]; rfl)]
    refine congrArg (fun ts : List Tracker => ({ db with trackers := ts } : DB)) ?_
    unfold TrackersNodup at hn
    unfold findTracker at hf
    rw [map_update_const_of_found hn hf (by
      intro x y hx hy
      simp only [Bool.and_eq_true, beq_iff_eq] at hx hy
      simp [hx.1, hx.2, hy.1, hy.2])]
  | none =>
    have hts : trackerOf db uid tier = ⟨uid, tier, 0, false⟩ := by
      unfold trackerOf; rw [hf]; rfl
    rw [hts]
    unfold updateTracker setTracker
    rw [if_neg (by unfold findTracker at hf ⊢; rw [hf]; simp)]
    refine congrArg (fun ts : List Tracker => ({ db with trackers := ts } : DB)) ?_
    have hnone : ∀ x ∈ db.trackers, (x.userId == uid && x.courseTier == tier) = false := by
      intro x hx
      unfold findTracker at hf
      rw [List.find?_eq_none] at hf
      simpa using hf x hx
    simp only [List.map_append, map_update_of_none hnone]
    simp [List.map]

theorem setTracker_nodup (db : DB) (uid tier : Nat) (v : Tracker)
    (hn : TrackersNodup db) (hv : v.userId = uid ∧ v.courseTier = tier) :
    TrackersNodup (setTracker db uid tier v) := by
  unfold TrackersNodup at hn ⊢
  unfold setTracker
  by_cases h : (findTracker db uid tier).isSome
  · rw [if_pos h]
    unfold updateTracker
    simp only [List.map_map]
    rw [show (fun t : Tracker => (t.userId, t.courseTier)) ∘
          (fun t => if (t.userId == uid && t.courseTier == tier) = true then v else t) =
        (fun t : Tracker => (t.userId, t.courseTier)) from ?_]
    · exact hn
    · funext t
      by_cases hx : (t.userId == uid && t.courseTier == tier) = true
      · simp only [Function.comp, hx, if_true]
        simp only [Bool.and_eq_true, beq_iff_eq] at hx
        simp [hv.1, hv.2, hx.1, hx.2]
      · simp [Function.comp, hx]
  · rw [if_neg h]
    simp only [List.map_append, List.map]
    rw [List.nodup_append]
    refine ⟨hn, List.nodup_singleton _, ?_⟩
    intro a ha hb
    simp only [List.map, List.mem_singleton] at hb
    rcases List.mem_map.1 ha with ⟨t, htl, rfl⟩
    unfold findTracker at h
    rw [Option.not_isSome_iff_eq_none, List.find?_eq_none] at h
    have hth := h t htl
    simp only [Bool.and_eq_true, beq_iff_eq, not_and] at hth
    simp only [Prod.mk.injEq] at hb
    exact hth (hb.1.trans hv.1) (hb.2.trans hv.2)

theorem setTracker_frame (db : DB) (uid tier : Nat) (v : Tracker) :
    (setTracker db uid tier v).users = db.users ∧
    (setTracker db uid tier v).coursePurchases = db.coursePurchases ∧
    (setTracker db uid tier v).courseCommissions = db.courseCommissions := by
  unfold setTracker
  by_cases h : (findTracker db uid tier).isSome
  · rw [if_pos h]
    exact ⟨rfl, rfl, rfl⟩
  · rw [if_neg h]
    exact ⟨rfl, rfl, rfl⟩

/-- The first-sale pass-up walk of the source equals the walk described by
the specification, on any store whose tracker table has one row per
`(member, tier)` key. -/
theorem find_passup_aux_eq_amended (tier : Nat) :
    ∀ (fuel : Nat) (db : DB) (cur : Option Nat) (depth : Nat), TrackersNodup db →
      find_passup_aux db cur tier depth fuel = amendedFirstSaleWalk db cur tier depth fuel
  | 0, db, cur, depth, _ => rfl
  | fuel + 1, db, cur, depth, hn => by
    cases cur with
    | none => rfl
    | some cid =>
      simp only [find_passup_aux, amendedFirstSaleWalk]
      cases hfu : findUser db cid with
      | none => rfl
      | some cand =>
        simp only
        by_cases hadm : cand.isAdmin
        · simp [hadm]
        · simp only [hadm, Bool.false_or, if_false, Bool.false_eq_true]
          by_cases howns : user_owns_tier db cand.id tier = true
          · simp only [howns, if_true, Bool.true_and, gocr_fst]
            by_cases hq : ((trackerOf db cand.id tier).firstPassedUp ||
                decide (0 < (trackerOf db cand.id tier).salesCount)) = true
            · have hex : (findTracker db cand.id tier).isSome := by
                by_contra hne
                rw [Option.not_isSome_iff_eq_none] at hne
                have : trackerOf db cand.id tier = ⟨cand.id, tier, 0, false⟩ := by
                  unfold trackerOf
                  rw [hne]
                  rfl
                rw [this] at hq
                simp at hq
              obtain ⟨t, ht⟩ := Option.isSome_iff_exists.1 hex
              rw [gocr_snd_of_found ht]
              simp [hq]
            · simp only [hq, Bool.false_eq_true, if_false]
              rw [gocr_update db cand.id tier _ hn]
              have hkey := trackerOf_key db cand.id tier
              exact find_passup_aux_eq_amended tier fuel _ cand.sponsorId (depth + 1)
                (setTracker_nodup db cand.id tier _ hn ⟨hkey.1, hkey.2⟩)
          · simp only [howns, Bool.false_eq_true, if_false, Bool.false_and]
            exact find_passup_aux_eq_amended tier fuel db cand.sponsorId (depth + 1) hn

/-- The walk leaves every table except the trackers untouched. -/
theorem amendedWalk_frame (tier : Nat) :
    ∀ (fuel : Nat) (db : DB) (cur : Option Nat) (depth : Nat),
      (amendedFirstSaleWalk db cur tier depth fuel).2.2.users = db.users ∧
      (amendedFirstSaleWalk db cur tier depth fuel).2.2.coursePurchases = db.coursePurchases ∧
      (amendedFirstSaleWalk db cur tier depth fuel).2.2.courseCommissions = db.courseCommissions
  | 0, db, cur, depth => ⟨rfl, rfl, rfl⟩
  | fuel + 1, db, cur, depth => by
    cases cur with
    | none => exact ⟨rfl, rfl, rfl⟩
    | some cid =>
      simp only [amendedFirstSaleWalk]
      cases hfu : findUser db cid with
      | none => exact ⟨rfl, rfl, rfl⟩
      | some cand =>
        simp only
        split
        · exact ⟨rfl, rfl, rfl⟩
        · split
          · have h1 := amendedWalk_frame tier fuel
              (setTracker db cand.id tier
                { trackerOf db cand.id tier with
                  salesCount := (trackerOf db cand.id tier).salesCount + 1,
                  firstPassedUp := true })
              cand.sponsorId (depth + 1)
            have h2 := setTracker_frame db cand.id tier
              { trackerOf db cand.id tier with
                salesCount := (trackerOf db cand.id tier).salesCount + 1,
                firstPassedUp := true }
            exact ⟨h1.1.trans h2.1, h1.2.1.trans h2.2.1, h1.2.2.trans h2.2.2⟩
          · exact amendedWalk_frame tier fuel db cand.sponsorId (depth + 1)

/-- The walk never touches the tracker of a member who has already passed
up at this tier. -/
theorem amendedWalk_tracker_stable (tier uid : Nat) :
    ∀ (fuel : Nat) (db : DB) (cur : Option Nat) (depth : Nat),
      (trackerOf db uid tier).firstPassedUp = true →
      trackerOf (amendedFirstSaleWalk db cur tier depth fuel).2.2 uid tier =
        trackerOf db uid tier
  | 0, db, cur, depth, _ => rfl
  | fuel + 1, db, cur, depth, hp => by
    cases cur with
    | none => rfl
    | some cid =>
      simp only [amendedFirstSaleWalk]
      cases hfu : findUser db cid with
      | none => rfl
      | some cand =>
        simp only
        split
        · rfl
        · next hq =>
          split
          · next howns =>
            have hne : cand.id ≠ uid := by
              intro hh
              rw [hh] at hq howns
              simp [howns, hp] at hq
            have hkey := trackerOf_key db cand.id tier
            have hstep := trackerOf_setTracker_ne db cand.id tier uid tier
              { trackerOf db cand.id tier with
                salesCount := (trackerOf db cand.id tier).salesCount + 1,
                firstPassedUp := true }
              (fun hc => hne hc.1.symm) ⟨hkey.1, hkey.2⟩
            rw [amendedWalk_tracker_stable tier uid fuel _ cand.sponsorId (depth + 1)
              (by rw [hstep]; exact hp)]
            exact hstep
          · exact amendedWalk_tracker_stable tier uid fuel db cand.sponsorId (depth + 1) hp

theorem trackerOf_congr {db1 db2 : DB} (h : db1.trackers = db2.trackers) (uid tier : Nat) :
    trackerOf db1 uid tier = trackerOf db2 uid tier := by
  unfold trackerOf findTracker
  rw [h]

theorem credit_earner_ccs (db : DB) (pid bid tier eid : Nat) (amt : Money)
    (ct : String) (dep : Nat) :
    (credit_earner db pid bid tier eid amt ct dep).2.courseCommissions =
      db.courseCommissions ++ [⟨pid, bid, some eid, amt, tier, ct, dep⟩] := rfl

theorem credit_platform_ccs (db : DB) (pid bid tier : Nat) (amt : Money) :
    (credit_platform db pid bid tier amt).2.courseCommissions =
      db.courseCommissions ++
        [⟨pid, bid, (db.users.find? (fun u => u.isAdmin)).map (·.id), amt, tier,
          "platform", 0⟩] := by
  cases h : db.users.find? (fun u => u.isAdmin) <;>
    simp [credit_platform, h, updateUser]

/-! ## Claim C1 -/

/-- **C1** (evaluation at the failing input).  In the Grid variant a seat
fill does *not* produce ledger entries summing to the price `P`: the single
purchase of the tier-1 package (price `$20`) by member 2 succeeds and fills
a seat, but the only ledger entry it produces is the level-pool commission
`round(P * LEVEL_PCT * LEVEL_WEIGHT, 6) = $0.218750`, so the amounts for
this purchase event sum to `$0.21875 ≠ $20`: there is no immediate
direct-share / per-level / platform-share split. -/
theorem c1_grid_fill_ledger_sum_ne_price :
    (process_grid_payment dbGridFill 2 1 "tx1" (fun _ _ => true)).1 =
      .ok ⟨1, 1, 1, 1, 1, false⟩ ∧
    ((process_grid_payment dbGridFill 2 1 "tx1" (fun _ _ => true)).2.commissions.map
      (·.amountUsdt)) = [applyPct (usd 20) (LEVEL_PCT.mul LEVEL_WEIGHT)] ∧
    GRID_PACKAGES 1 = some (usd 20) ∧
    applyPct (usd 20) (LEVEL_PCT.mul LEVEL_WEIGHT) = 218750 ∧
    (218750 : Money) ≠ usd 20 := by decide

/-! ## Claim C2 -/

/-- **C2** (counterexample).  `process_course_purchase` performs no
reference-keyed idempotency check: after buyer 2's tier-1 purchase with
external reference `"TX"` succeeds, re-invoking the operation with the same
already-processed reference `"TX"` (for the tier-2 course) is *not*
rejected as a duplicate — it succeeds again, appends another ledger entry
and changes the buyer's balance again. -/
theorem c2_course_replay_same_reference_processed_again :
    (process_course_purchase dbTwoCourses 2 1 "wallet" (some "TX")).1 =
      .ok ⟨some 1, usd 100, "platform", 0⟩ ∧
    (process_course_purchase
        (process_course_purchase dbTwoCourses 2 1 "wallet" (some "TX")).2
        2 2 "wallet" (some "TX")).1 = .ok ⟨some 1, usd 300, "platform", 0⟩ ∧
    (process_course_purchase
        (process_course_purchase dbTwoCourses 2 1 "wallet" (some "TX")).2
        2 2 "wallet" (some "TX")).2.courseCommissions.length =
      (process_course_purchase dbTwoCourses 2 1 "wallet" (some "TX")).2.courseCommissions.length
        + 1 ∧
    (findUser (process_course_purchase
        (process_course_purchase dbTwoCourses 2 1 "wallet" (some "TX")).2
        2 2 "wallet" (some "TX")).2 2).map (·.balance) = some (usd 600) ∧
    (findUser (process_course_purchase dbTwoCourses 2 1 "wallet" (some "TX")).2 2).map
      (·.balance) = some (usd 900) := by decide

/-- **C2** (amended claim).  `process_grid_payment` rejects an
already-processed `tx_hash` before any mutation, returning the duplicate
error with the store unchanged; `process_course_purchase` has no
reference-keyed check, but replaying the *same purchase* (same buyer, a
course of an already-owned tier) is rejected with the store unchanged by
the one-purchase-per-tier rule. -/
theorem c2_amended_idempotency :
    (∀ (db : DB) (uid tier : Nat) (tx : String) (verify : String → Money → Bool),
      (db.payments.find? (fun p => p.txHash == tx)).isSome = true →
      process_grid_payment db uid tier tx verify = (.error "Transaction already processed", db)) ∧
    (∀ (db : DB) (buyerId courseId : Nat) (pm : String) (txRef : Option String)
      (buyer : User) (course : Course),
      findUser db buyerId = some buyer →
      db.courses.find? (fun c => c.id == courseId && c.isActive) = some course →
      (db.coursePurchases.find?
        (fun p => p.userId == buyerId && p.courseTier == course.tier)).isSome = true →
      process_course_purchase db buyerId courseId pm txRef =
        (.error "Already purchased this tier", db)) := by
  constructor
  · intro db uid tier tx verify h
    simp [process_grid_payment, h]
  · intro db buyerId courseId pm txRef buyer course hb hc hp
    simp [process_course_purchase, hb, hc, hp]

/-- Witness for `c2_amended_idempotency`: applying it to a store already
holding a payment with hash `"T"`. -/
theorem c2_amended_idempotency_witness :
    process_grid_payment
        { emptyDB with payments := [⟨1, none, usd 20, "membership", "T", "confirmed"⟩] }
        1 1 "T" (fun _ _ => true) =
      (.error "Transaction already processed",
        { emptyDB with payments := [⟨1, none, usd 20, "membership", "T", "confirmed"⟩] }) :=
  c2_amended_idempotency.1
    { emptyDB with payments := [⟨1, none, usd 20, "membership", "T", "confirmed"⟩] }
    1 1 "T" (fun _ _ => true) (by decide)

/-! ## Claim C3 -/

/-- **C3** (counterexample).  A rejected grid purchase can leave persistent
state behind: in a store whose only member is the active admin 1 (who has
no sponsor), a verified grid purchase by the admin fails placement (the
admin fallback makes them the grid owner, and one cannot join one's own
grid), the operation returns `success: false` — yet the incoming `Payment`
row for `"txA"` has been persisted. -/
theorem c3_rejected_grid_purchase_persists_payment :
    (process_grid_payment dbLoneAdmin 1 1 "txA" (fun _ _ => true)).1 =
      .error "Could not place in any grid" ∧
    (process_grid_payment dbLoneAdmin 1 1 "txA" (fun _ _ => true)).2.payments.map (·.txHash) =
      ["txA"] ∧
    dbLoneAdmin.payments = [] := by decide

/-- **C3** (amended claim).  Every validation rejection happens before any
mutation: a failed `process_course_purchase` always leaves the store
unchanged, and a failed `process_grid_payment` or `place_member_in_grid`
either leaves the store unchanged or is the post-verification placement
failure (`"Could not place in any grid"`, which persists the payment row —
see the counterexample — resp. the `"Grid unexpectedly full"` anomaly). -/
theorem c3_amended_validation_rejections_pure :
    (∀ (db : DB) (buyerId courseId : Nat) (pm : String) (txRef : Option String),
      (∃ r, (process_course_purchase db buyerId courseId pm txRef).1 = .ok r) ∨
      (process_course_purchase db buyerId courseId pm txRef).2 = db) ∧
    (∀ (db : DB) (uid tier : Nat) (tx : String) (verify : String → Money → Bool),
      (∃ r, (process_grid_payment db uid tier tx verify).1 = .ok r) ∨
      (process_grid_payment db uid tier tx verify).2 = db ∨
      (process_grid_payment db uid tier tx verify).1 =
        .error "Could not place in any grid") ∧
    (∀ (db : DB) (m o t : Nat) (ov : Bool),
      (∃ r, (place_member_in_grid db m o t ov).1 = .ok r) ∨
      (place_member_in_grid db m o t ov).2 = db ∨
      (place_member_in_grid db m o t ov).1 = .error "Grid unexpectedly full") := by
  refine ⟨?_, ?_, ?_⟩
  · intro db buyerId courseId pm txRef
    simp only [process_course_purchase]
    repeat' split
    all_goals simp
  · intro db uid tier tx verify
    simp only [process_grid_payment]
    repeat' split
    all_goals simp
  · intro db m o t ov
    simp only [place_member_in_grid]
    repeat' split
    all_goals simp

/-! ## Claim C5 -/

/-- **C5** (counterexample).  Three divergences from the claim, on concrete
stores.  (a) With sponsor 2's tracker already passed-up at tier 1 and
sponsor 2 unqualified, the walk credits earner 5 with an entry of type
`pass_up`, not `qualification_skip` (no entry of that type exists in the
code).  (b) Earner 5 has *not* purchased tier 1 — only tier 3 — yet is
credited, so "owns T" is not "has purchased tier T".  (c) In a chain whose
first candidate (user 1) is an admin who owns no tier, the walk skips the
admin and credits user 4 at depth 2: the walk's predicate has no
"is admin" clause. -/
theorem c5_second_branch_counterexample :
    (process_course_purchase dbHigherTier 3 1 "wallet" none).1 =
      .ok ⟨some 5, usd 100, "pass_up", 1⟩ ∧
    (trackerOf dbHigherTier 2 1).firstPassedUp = true ∧
    user_owns_tier dbHigherTier 2 1 = false ∧
    dbHigherTier.coursePurchases.filter (fun p => p.userId == 5 && p.courseTier == 1) = [] ∧
    "pass_up" ≠ "qualification_skip" ∧
    (process_course_purchase dbAdminNoTier 3 1 "wallet" none).1 =
      .ok ⟨some 4, usd 100, "pass_up", 2⟩ ∧
    (findUser dbAdminNoTier 1).map (·.isAdmin) = some true ∧
    user_owns_tier dbAdminNoTier 1 1 = false := by decide

/-- **C5** (amended claim).  When sponsor `S`'s tracker for tier `T`
already has `firstPassedUp`: the only tracker change is the increment of
`S`'s `salesCount`; if `S` owns a tier `≥ T` they are credited the full
price directly (type `direct_sale`, depth 0); otherwise the pure walk
`find_qualified_upline` from `S`'s sponsor — whose predicate is "owns a
tier `≥ T`", with no admin clause — determines the earner, credited the
full price with type `pass_up` at the walked depth, or the platform entry
when nobody qualifies.  "Owns" means holding a course purchase at tier `T`
or higher. -/
theorem c5_amended_repeat_sale_branch :
    (∀ (db : DB) (uid tier : Nat), user_owns_tier db uid tier = true ↔
       ∃ p ∈ db.coursePurchases, p.userId = uid ∧ tier ≤ p.courseTier) ∧
    (∀ (db : DB) (pid : Nat) (buyer : User) (course : Course) (sid : Nat) (sponsor : User),
      buyer.sponsorId = some sid →
      findUser db sid = some sponsor →
      (get_or_create_tracker db sid course.tier).1.firstPassedUp = true →
      (distribute_commission db pid buyer course).2.trackers =
        (markRepeatSale db sid course.tier).trackers ∧
      (distribute_commission db pid buyer course).1.amount = course.price ∧
      (if user_owns_tier db sid course.tier then
         (distribute_commission db pid buyer course).1 =
           ⟨some sid, course.price, "direct_sale", 0⟩
       else
         match find_qualified_upline db sponsor.sponsorId course.tier with
         | (some e, d) => (distribute_commission db pid buyer course).1 =
             ⟨some e.id, course.price, "pass_up", d⟩
         | (none, _) =>
             (distribute_commission db pid buyer course).1.commissionType = "platform")) := by
  constructor
  · intro db uid tier
    simp [user_owns_tier, List.find?_isSome]
  · intro db pid buyer course sid sponsor hs hf ht
    have hid : sponsor.id = sid := findUser_some_id hf
    have htr : (markRepeatSale db sid course.tier).coursePurchases = db.coursePurchases := by
      unfold markRepeatSale get_or_create_tracker updateTracker
      split <;> rfl
    have hus : (markRepeatSale db sid course.tier).users = db.users := by
      unfold markRepeatSale get_or_create_tracker updateTracker
      split <;> rfl
    simp only [distribute_commission, hs, hf, hid, ht, Bool.not_true, Bool.false_eq_true,
      if_false]
    rw [show (updateTracker (get_or_create_tracker db sid course.tier).2 sid course.tier
          (fun t => { t with salesCount := t.salesCount + 1 }))
        = markRepeatSale db sid course.tier from rfl]
    rw [user_owns_tier_congr htr]
    by_cases ho : user_owns_tier db sid course.tier
    · simp [ho, credit_earner_trackers, credit_earner_fst]
    · simp only [ho, Bool.false_eq_true, if_false]
      rw [show find_qualified_upline (markRepeatSale db sid course.tier) sponsor.sponsorId
            course.tier = find_qualified_upline db sponsor.sponsorId course.tier from
        find_qualified_upline_aux_congr hus htr course.tier 500 sponsor.sponsorId 0]
      rcases hq : find_qualified_upline db sponsor.sponsorId course.tier with ⟨e | e1, d⟩
      · simp [hq, credit_platform_trackers, credit_platform_fst]
      · simp [hq, credit_earner_trackers, credit_earner_fst]

/-- Witness for `c5_amended_repeat_sale_branch`: sponsor 1 has passed up
and owns tier 1, so buyer 2's purchase credits sponsor 1 directly. -/
theorem c5_amended_repeat_sale_branch_witness :
    (distribute_commission dbRepeatSale 7 (mkUser 2 (some 1) false true (usd 500))
        ⟨1, usd 100, 1, true⟩).1 =
      ⟨some 1, usd 100, "direct_sale", 0⟩ := by
  have h := (c5_amended_repeat_sale_branch.2 dbRepeatSale 7
    (mkUser 2 (some 1) false true (usd 500)) ⟨1, usd 100, 1, true⟩ 1
    (mkUser 1 none false true 0) (by decide) (by decide) (by decide)).2.2
  rw [show user_owns_tier dbRepeatSale 1 (1 : Nat) = true from by decide] at h
  simpa using h

/-! ## Claim C8 -/

theorem findUser_addP2P (db : DB) (t : P2PTransfer) (uid : Nat) :
    findUser (addP2P db t) uid = findUser db uid := rfl

theorem addP2P_p2pTransfers (db : DB) (t : P2PTransfer) :
    (addP2P db t).p2pTransfers = db.p2pTransfers ++ [t] := rfl

theorem updateUser_p2pTransfers (db : DB) (uid : Nat) (f : User → User) :
    (updateUser db uid f).p2pTransfers = db.p2pTransfers := rfl

theorem mem_of_findUser_eq_some {db : DB} {uid : Nat} {u : User}
    (h : findUser db uid = some u) : u ∈ db.users :=
  List.mem_of_find?_eq_some h

theorem resolve_mem {db : DB} {s : String} {r : User}
    (h : resolveP2PRecipient db s = some r) : r ∈ db.users := by
  simp only [resolveP2PRecipient] at h
  cases hby : (if (!(cleanMemberId s).isEmpty && (cleanMemberId s).all Char.isDigit) = true
      then findUser db (digitsToNat (cleanMemberId s)) else none) with
  | some u =>
    rw [hby] at h
    cases h
    by_cases hc : (!(cleanMemberId s).isEmpty && (cleanMemberId s).all Char.isDigit) = true
    · rw [if_pos hc] at hby
      exact mem_of_findUser_eq_some hby
    · rw [if_neg hc] at hby
      cases hby
  | none =>
    rw [hby] at h
    exact List.mem_of_find?_eq_some h

theorem find_by_id_of_mem_nodup {r : User} :
    ∀ {l : List User}, r ∈ l → ((l.map (·.id)).Nodup) →
      l.find? (fun u => u.id == r.id) = some r
  | [], hm, _ => absurd hm (List.not_mem_nil r)
  | u :: us, hm, hn => by
    rcases List.mem_cons.1 hm with rfl | hm2
    · simp [List.find?]
    · have hne : u.id ≠ r.id := by
        intro hh
        rw [List.map_cons, List.nodup_cons] at hn
        exact hn.1 (hh ▸ List.mem_map_of_mem _ hm2)
      rw [List.find?_cons_of_neg _ (by simp [hne])]
      rw [List.map_cons, List.nodup_cons] at hn
      exact find_by_id_of_mem_nodup hm2 hn.2

theorem findUser_of_mem_nodup {db : DB} {r : User} (hm : r ∈ db.users)
    (hn : (db.users.map (·.id)).Nodup) : findUser db r.id = some r :=
  find_by_id_of_mem_nodup hm hn

/-- The exact shape of a successful transfer: debit, credit, one appended
record. -/
theorem p2p_success_eq (db : DB) (sid : Nat) (toStr : String) (amount : Money)
    (note : Option String) (s r : User)
    (hs : findUser db sid = some s) (hr : resolveP2PRecipient db toStr = some r)
    (h1 : MIN_P2P_AMOUNT ≤ amount) (h2 : amount ≤ MAX_P2P_AMOUNT)
    (ha : s.isActive = true) (hb : amount ≤ s.balance)
    (hrs : r.id ≠ sid) (hra : r.isActive = true) :
    process_p2p_transfer db sid toStr amount note =
      (.ok (s.balance - amount),
       addP2P
         (updateUser (updateUser db sid (debitBy amount)) r.id (creditP2P amount))
         ⟨sid, r.id, amount, p2pNote note, "completed"⟩) := by
  unfold debitBy creditP2P addP2P p2pNote
  simp [process_p2p_transfer, not_lt.2 h1, not_lt.2 h2, hs, ha, not_lt.2 hb, hr, hrs, hra]
  rfl

/-- **C8.**  `process_p2p_transfer` rejects exactly when the amount is
outside `[MIN_P2P_AMOUNT, MAX_P2P_AMOUNT]`, the sender is missing,
inactive or short of funds, or the recipient is unresolvable, the sender
themselves, or inactive; every rejection leaves the store unchanged; and
on success (in a store with unique user ids) the sender is debited the
amount, the recipient is credited it, and exactly one `p2p` transfer
record is appended. -/
theorem c8_p2p_transfer_characterization :
    ∀ (db : DB) (sid : Nat) (toStr : String) (amount : Money) (note : Option String),
      ((∃ e, (process_p2p_transfer db sid toStr amount note).1 = .error e) ↔
        (amount < MIN_P2P_AMOUNT ∨ MAX_P2P_AMOUNT < amount ∨
         (∀ s, findUser db sid = some s → s.isActive = false ∨ s.balance < amount) ∨
         (∀ r, resolveP2PRecipient db toStr = some r → r.id = sid ∨ r.isActive = false))) ∧
      (∀ e, (process_p2p_transfer db sid toStr amount note).1 = .error e →
        (process_p2p_transfer db sid toStr amount note).2 = db) ∧
      (∀ s r, (db.users.map (·.id)).Nodup →
        findUser db sid = some s → resolveP2PRecipient db toStr = some r →
        MIN_P2P_AMOUNT ≤ amount → amount ≤ MAX_P2P_AMOUNT →
        s.isActive = true → amount ≤ s.balance → r.id ≠ sid → r.isActive = true →
        (process_p2p_transfer db sid toStr amount note).1 = .ok (s.balance - amount) ∧
        (findUser (process_p2p_transfer db sid toStr amount note).2 sid).map (·.balance) =
          some (s.balance - amount) ∧
        (findUser (process_p2p_transfer db sid toStr amount note).2 r.id).map (·.balance) =
          some (r.balance + amount) ∧
        (process_p2p_transfer db sid toStr amount note).2.p2pTransfers.map
            (fun t => (t.fromUserId, t.toUserId, t.amountUsdt, t.status)) =
          db.p2pTransfers.map (fun t => (t.fromUserId, t.toUserId, t.amountUsdt, t.status))
            ++ [(sid, r.id, amount, "completed")]) := by
  intro db sid toStr amount note
  refine ⟨?_, ?_, ?_⟩
  · by_cases h1 : amount < MIN_P2P_AMOUNT
    · simp [process_p2p_transfer, h1]
    · by_cases h2 : MAX_P2P_AMOUNT < amount
      · simp [process_p2p_transfer, h1, h2]
      · cases hs : findUser db sid with
        | none => simp [process_p2p_transfer, h1, h2, hs]
        | some s =>
          by_cases ha : s.isActive
          · by_cases hb : s.balance < amount
            · have hred : process_p2p_transfer db sid toStr amount note =
                  (.error "Insufficient balance", db) := by
                simp [process_p2p_transfer, h1, h2, hs, ha, hb]
              rw [hred]
              constructor
              · intro _
                refine Or.inr (Or.inr (Or.inl fun s1 hs1 => ?_))
                cases hs1
                exact Or.inr hb
              · intro _
                exact ⟨"Insufficient balance", rfl⟩
            · cases hr : resolveP2PRecipient db toStr with
              | none =>
                have hred : process_p2p_transfer db sid toStr amount note =
                    (.error "Member not found", db) := by
                  simp [process_p2p_transfer, h1, h2, hs, ha, hb, hr]
                rw [hred]
                constructor
                · intro _
                  refine Or.inr (Or.inr (Or.inr fun r hr1 => ?_))
                  cases hr1
                · intro _
                  exact ⟨"Member not found", rfl⟩
              | some r =>
                by_cases hrs : r.id = sid
                · have hred : process_p2p_transfer db sid toStr amount note =
                      (.error "You cannot transfer funds to yourself", db) := by
                    simp [process_p2p_transfer, h1, h2, hs, ha, hb, hr, hrs]
                  rw [hred]
                  constructor
                  · intro _
                    refine Or.inr (Or.inr (Or.inr fun r1 hr1 => ?_))
                    cases hr1
                    exact Or.inl hrs
                  · intro _
                    exact ⟨"You cannot transfer funds to yourself", rfl⟩
                · by_cases hra : r.isActive
                  · have hred : (process_p2p_transfer db sid toStr amount note).1 =
                        .ok (s.balance - amount) := by
                      simp [process_p2p_transfer, h1, h2, hs, ha, hb, hr, hrs, hra]
                    rw [hred]
                    constructor
                    · rintro ⟨e, he⟩
                      cases he
                    · rintro (h | h | h | h)
                      · exact absurd h h1
                      · exact absurd h h2
                      · rcases h s rfl with h | h
                        · rw [ha] at h; cases h
                        · exact absurd h hb
                      · rcases h r rfl with h | h
                        · exact absurd h hrs
                        · rw [hra] at h; cases h
                  · have hred : process_p2p_transfer db sid toStr amount note =
                        (.error "Recipient does not have an active membership", db) := by
                      simp [process_p2p_transfer, h1, h2, hs, ha, hb, hr, hrs, hra]
                    rw [hred]
                    constructor
                    · intro _
                      refine Or.inr (Or.inr (Or.inr fun r1 hr1 => ?_))
                      cases hr1
                      exact Or.inr (by simpa using hra)
                    · intro _
                      exact ⟨"Recipient does not have an active membership", rfl⟩
          · have hred : process_p2p_transfer db sid toStr amount note =
                (.error "Active membership required to transfer funds", db) := by
              simp [process_p2p_transfer, h1, h2, hs, ha]
            rw [hred]
            constructor
            · intro _
              refine Or.inr (Or.inr (Or.inl fun s1 hs1 => ?_))
              cases hs1
              exact Or.inl (by simpa using ha)
            · intro _
              exact ⟨"Active membership required to transfer funds", rfl⟩
  · intro e
    simp only [process_p2p_transfer]
    repeat' split
    all_goals intro h
    all_goals first
      | rfl
      | (exfalso; simp at h)
  · intro s r hn hs hr h1 h2 ha hb hrs hra
    have hid : ∀ u : User, (debitBy amount u).id = u.id := fun _ => rfl
    have hid2 : ∀ u : User, (creditP2P amount u).id = u.id := fun _ => rfl
    have hfr : findUser db r.id = some r := findUser_of_mem_nodup (resolve_mem hr) hn
    have hform := p2p_success_eq db sid toStr amount note s r hs hr h1 h2 ha hb hrs hra
    rw [hform]
    refine ⟨rfl, ?_, ?_, ?_⟩
    · rw [findUser_addP2P, findUser_updateUser_ne _ _ _ _ hid2 (Ne.symm hrs),
        findUser_updateUser_self _ _ _ hid, hs]
      rfl
    · rw [findUser_addP2P, findUser_updateUser_self _ _ _ hid2,
        findUser_updateUser_ne _ _ _ _ hid hrs, hfr]
      rfl
    · rw [addP2P_p2pTransfers, updateUser_p2pTransfers, updateUser_p2pTransfers]
      simp

/-- Witness for `c8_p2p_transfer_characterization`: member 1 ($100) sends
$50 to member 2 ($5). -/
theorem c8_p2p_transfer_characterization_witness :
    (process_p2p_transfer dbTransfer 1 "2" (usd 50) none).1 = .ok (usd 50) ∧
    (findUser (process_p2p_transfer dbTransfer 1 "2" (usd 50) none).2 1).map (·.balance) =
      some (usd 50) ∧
    (findUser (process_p2p_transfer dbTransfer 1 "2" (usd 50) none).2 2).map (·.balance) =
      some (usd 55) := by
  have h := (c8_p2p_transfer_characterization dbTransfer 1 "2" (usd 50) none).2.2
    (mkUser 1 none false true (usd 100)) (mkUser 2 none false true (usd 5))
    (by decide) (by decide) (by decide) (by decide) (by decide) (by decide) (by decide)
    (by decide) (by decide)
  refine ⟨?_, ?_, ?_⟩
  · rw [h.1]; decide
  · rw [h.2.1]; decide
  · have h3 := h.2.2.1
    rw [show (mkUser 2 none false true (usd 5)).id = 2 from rfl] at h3
    rw [h3]; decide

/-! ## Claim C10 -/

/-- **C10.**  On a successful transfer the only persistent changes are:
the sender's balance drops by the amount, the recipient's balance *and
lifetime `total_earned`* grow by the amount, and one `P2PTransfer` record
is appended; every other table, counter, user record and user field is
untouched. -/
theorem c10_p2p_success_frame :
    ∀ (db : DB) (sid : Nat) (toStr : String) (amount : Money) (note : Option String)
      (s r : User),
      (db.users.map (·.id)).Nodup →
      findUser db sid = some s → resolveP2PRecipient db toStr = some r →
      MIN_P2P_AMOUNT ≤ amount → amount ≤ MAX_P2P_AMOUNT →
      s.isActive = true → amount ≤ s.balance → r.id ≠ sid → r.isActive = true →
      ((process_p2p_transfer db sid toStr amount note).2.users =
        (updateUser (updateUser db sid (debitBy amount)) r.id (creditP2P amount)).users ∧
       (process_p2p_transfer db sid toStr amount note).2.p2pTransfers =
         db.p2pTransfers ++ [⟨sid, r.id, amount, p2pNote note, "completed"⟩] ∧
       (process_p2p_transfer db sid toStr amount note).2.courses = db.courses ∧
       (process_p2p_transfer db sid toStr amount note).2.coursePurchases = db.coursePurchases ∧
       (process_p2p_transfer db sid toStr amount note).2.courseCommissions =
         db.courseCommissions ∧
       (process_p2p_transfer db sid toStr amount note).2.trackers = db.trackers ∧
       (process_p2p_transfer db sid toStr amount note).2.grids = db.grids ∧
       (process_p2p_transfer db sid toStr amount note).2.gridPositions = db.gridPositions ∧
       (process_p2p_transfer db sid toStr amount note).2.commissions = db.commissions ∧
       (process_p2p_transfer db sid toStr amount note).2.payments = db.payments ∧
       (process_p2p_transfer db sid toStr amount note).2.withdrawals = db.withdrawals ∧
       (process_p2p_transfer db sid toStr amount note).2.renewals = db.renewals ∧
       (process_p2p_transfer db sid toStr amount note).2.nextGridId = db.nextGridId ∧
       (process_p2p_transfer db sid toStr amount note).2.nextPurchaseId = db.nextPurchaseId ∧
       findUser (process_p2p_transfer db sid toStr amount note).2 sid =
         some (debitBy amount s) ∧
       findUser (process_p2p_transfer db sid toStr amount note).2 r.id =
         some (creditP2P amount r) ∧
       (∀ uid, uid ≠ sid → uid ≠ r.id →
         findUser (process_p2p_transfer db sid toStr amount note).2 uid =
           findUser db uid)) := by
  intro db sid toStr amount note s r hn hs hr h1 h2 ha hb hrs hra
  have hid : ∀ u : User, (debitBy amount u).id = u.id := fun _ => rfl
  have hid2 : ∀ u : User, (creditP2P amount u).id = u.id := fun _ => rfl
  have hfr : findUser db r.id = some r := findUser_of_mem_nodup (resolve_mem hr) hn
  rw [p2p_success_eq db sid toStr amount note s r hs hr h1 h2 ha hb hrs hra]
  refine ⟨rfl, ?_, rfl, rfl, rfl, rfl, rfl, rfl, rfl, rfl, rfl, rfl, rfl, rfl, ?_, ?_, ?_⟩
  · rw [addP2P_p2pTransfers, updateUser_p2pTransfers, updateUser_p2pTransfers]
  · rw [findUser_addP2P, findUser_updateUser_ne _ _ _ _ hid2 (Ne.symm hrs),
      findUser_updateUser_self _ _ _ hid, hs]
    rfl
  · rw [findUser_addP2P, findUser_updateUser_self _ _ _ hid2,
      findUser_updateUser_ne _ _ _ _ hid hrs, hfr]
    rfl
  · intro uid hu1 hu2
    rw [findUser_addP2P, findUser_updateUser_ne _ _ _ _ hid2 hu2,
      findUser_updateUser_ne _ _ _ _ hid hu1]

/-- Witness for `c10_p2p_success_frame`: the transfer of $50 from member 1
to member 2 counts toward member 2's lifetime earnings. -/
theorem c10_p2p_success_frame_witness :
    findUser (process_p2p_transfer dbTransfer 1 "2" (usd 50) none).2 2 =
      some (creditP2P (usd 50) (mkUser 2 none false true (usd 5))) ∧
    (creditP2P (usd 50) (mkUser 2 none false true (usd 5))).totalEarned = usd 50 := by
  have h := c10_p2p_success_frame dbTransfer 1 "2" (usd 50) none
    (mkUser 1 none false true (usd 100)) (mkUser 2 none false true (usd 5))
    (by decide) (by decide) (by decide) (by decide) (by decide) (by decide) (by decide)
    (by decide) (by decide)
  exact ⟨h.2.2.2.2.2.2.2.2.2.2.2.2.2.2.2.1, by decide⟩

/-! ## Claim C4 -/

/-- **C4** (counterexample).  The claim's walk credits / consumes
candidates "who own T", which the specification's glossary (and the frozen
C5 claim's identical gloss) defines as having purchased *that* tier; the
code's `user_owns_tier` accepts any purchase at tier `≥ T`.  On
`dbC4Higher`, buyer 3's purchase is sponsor 2's first tier-1 sale and the
walk reaches upline 5, who has purchased only tier 3 (is not an admin, so
no clause of the claim's predicate applies) yet holds a tier-1 tracker
with `salesCount = 1`: the code credits 5 the full price (type `pass_up`,
depth 1), while the claim's exact-ownership walk skips 5 and ends with
nobody qualified (platform).  So the claim is false of the code. -/
theorem c4_higher_tier_owner_credited_counterexample :
    (trackerOf dbC4Higher 2 1).firstPassedUp = false ∧
    (process_course_purchase dbC4Higher 3 1 "wallet" none).1 =
      .ok ⟨some 5, usd 100, "pass_up", 1⟩ ∧
    spec_owns_tier_exact dbC4Higher 5 1 = false ∧
    (findUser dbC4Higher 5).map (·.isAdmin) = some false ∧
    0 < (trackerOf dbC4Higher 5 1).salesCount ∧
    (specFirstSaleWalkExact (markFirstSale dbC4Higher 2 1) (some 5) 1 0 500).1 = none := by
  decide

/-- **C4** (amended claim).  With "owns the tier" read as the code's
`user_owns_tier` — a purchase at tier `T` **or any higher tier** — the
claim holds: (i) the source's first-sale pass-up walk equals the amended
walk: credit the first candidate who is an admin, or who owns the tier
and has already passed up or sold; consume the first-sale credit (tracker
`salesCount + 1`, `firstPassedUp := true`) of every candidate who owns
the tier but has done neither, and walk on past them.
(ii) On a first sale (sponsor's tracker not yet passed up),
`_distribute_commission` marks the sponsor's tracker (`salesCount`
incremented, `firstPassedUp` set), appends exactly one ledger entry whose
amount is the full price, and credits the walk's candidate (type
`pass_up`, at the walked depth) or the platform when the walk finds
nobody. -/
theorem c4_amended_first_sale_pass_up :
    (∀ (db : DB) (cur : Option Nat) (tier depth fuel : Nat), TrackersNodup db →
      find_passup_aux db cur tier depth fuel = amendedFirstSaleWalk db cur tier depth fuel) ∧
    (∀ (db : DB) (pid : Nat) (buyer : User) (course : Course) (sid : Nat) (sponsor : User),
      TrackersNodup db →
      buyer.sponsorId = some sid →
      findUser db sid = some sponsor →
      (trackerOf db sid course.tier).firstPassedUp = false →
      trackerOf (distribute_commission db pid buyer course).2 sid course.tier =
        { trackerOf db sid course.tier with
          salesCount := (trackerOf db sid course.tier).salesCount + 1,
          firstPassedUp := true } ∧
      (distribute_commission db pid buyer course).1.amount = course.price ∧
      (distribute_commission db pid buyer course).2.courseCommissions.map (·.amount) =
        db.courseCommissions.map (·.amount) ++ [course.price] ∧
      (match find_passup_recipient (markFirstSale db sid course.tier) sponsor course.tier with
       | (some e, d, _) => (distribute_commission db pid buyer course).1 =
           ⟨some e.id, course.price, "pass_up", d⟩
       | (none, _, _) =>
           (distribute_commission db pid buyer course).1.commissionType = "platform")) := by
  constructor
  · intro db cur tier depth fuel hn
    exact find_passup_aux_eq_amended tier fuel db cur depth hn
  · intro db pid buyer course sid sponsor hn hs hf ht
    have hid : sponsor.id = sid := findUser_some_id hf
    have hkey0 := trackerOf_key db sid course.tier
    have hkey1 : ({ trackerOf db sid course.tier with
        salesCount := (trackerOf db sid course.tier).salesCount + 1 } : Tracker).userId = sid ∧
        ({ trackerOf db sid course.tier with
          salesCount := (trackerOf db sid course.tier).salesCount + 1 } : Tracker).courseTier =
          course.tier := ⟨hkey0.1, hkey0.2⟩
    have hdb3 : updateTracker
        (updateTracker (get_or_create_tracker db sid course.tier).2 sid course.tier
          (fun t => { t with salesCount := t.salesCount + 1 }))
        sid course.tier (fun t => { t with firstPassedUp := true }) =
        markFirstSale db sid course.tier := by
      rw [gocr_update db sid course.tier _ hn]
      rw [setTracker_update db sid course.tier _ _ hkey1]
      rfl
    have hnmfs : TrackersNodup (markFirstSale db sid course.tier) := by
      unfold markFirstSale
      exact setTracker_nodup db sid course.tier _ hn ⟨hkey0.1, hkey0.2⟩
    have htr3 : trackerOf (markFirstSale db sid course.tier) sid course.tier =
        { trackerOf db sid course.tier with
          salesCount := (trackerOf db sid course.tier).salesCount + 1,
          firstPassedUp := true } := by
      unfold markFirstSale
      exact trackerOf_setTracker_self db sid course.tier _ ⟨hkey0.1, hkey0.2⟩
    have hmfr : markFirstSale db sid course.tier =
        setTracker db sid course.tier
          { trackerOf db sid course.tier with
            salesCount := (trackerOf db sid course.tier).salesCount + 1,
            firstPassedUp := true } := rfl
    have heq : find_passup_recipient (markFirstSale db sid course.tier) sponsor course.tier =
        amendedFirstSaleWalk (markFirstSale db sid course.tier) sponsor.sponsorId course.tier
          0 500 :=
      find_passup_aux_eq_amended course.tier 500 _ sponsor.sponsorId 0 hnmfs
    simp only [distribute_commission, hs, hf, hid, gocr_fst, ht, Bool.not_false, if_true]
    rw [hdb3, heq]
    rcases hw : amendedFirstSaleWalk (markFirstSale db sid course.tier) sponsor.sponsorId
        course.tier 0 500 with ⟨e, d, db4⟩
    have hframe := amendedWalk_frame course.tier 500 (markFirstSale db sid course.tier)
      sponsor.sponsorId 0
    have hstable := amendedWalk_tracker_stable course.tier sid 500
      (markFirstSale db sid course.tier) sponsor.sponsorId 0 (by rw [htr3])
    rw [hw] at hframe hstable
    simp only at hframe hstable
    have hsframe := setTracker_frame db sid course.tier
      { trackerOf db sid course.tier with
        salesCount := (trackerOf db sid course.tier).salesCount + 1,
        firstPassedUp := true }
    cases e with
    | some earner =>
      simp only
      refine ⟨?_, rfl, ?_, ?_⟩
      · rw [trackerOf_congr (show (credit_earner db4 pid buyer.id course.tier earner.id
            course.price "pass_up" d).2.trackers = db4.trackers from rfl)]
        rw [hstable, htr3]
      · rw [credit_earner_ccs, hframe.2.2, hmfr, hsframe.2.2]
        simp
      · exact credit_earner_fst db4 pid buyer.id course.tier earner.id course.price
          "pass_up" d
    | none =>
      simp only
      refine ⟨?_, rfl, ?_, ?_⟩
      · rw [trackerOf_congr (credit_platform_trackers db4 pid buyer.id course.tier
          course.price)]
        rw [hstable, htr3]
      · rw [credit_platform_ccs, hframe.2.2, hmfr, hsframe.2.2]
        simp
      · rfl

/-- Witness for `c4_amended_first_sale_pass_up`: spec §8 scenario 1 —
buyer 3's purchase is sponsor 2's first tier-1 sale; sponsor 2's tracker
is consumed and the full price goes up the chain. -/
theorem c4_amended_first_sale_pass_up_witness :
    trackerOf (distribute_commission dbFirstSale 7 (mkUser 3 (some 2) false true (usd 500))
        ⟨1, usd 100, 1, true⟩).2 2 1 = ⟨2, 1, 1, true⟩ ∧
    (distribute_commission dbFirstSale 7 (mkUser 3 (some 2) false true (usd 500))
        ⟨1, usd 100, 1, true⟩).1.amount = usd 100 := by
  have h := c4_amended_first_sale_pass_up.2 dbFirstSale 7 (mkUser 3 (some 2) false true (usd 500))
    ⟨1, usd 100, 1, true⟩ 2 (mkUser 2 (some 1) false true 0)
    (by decide) (by decide) (by decide) (by decide)
  refine ⟨?_, h.2.1⟩
  rw [h.1]
  decide

/-! ## Cascade lemmas (towards C6) -/

theorem updateUser_users_id (db : DB) (k : Nat) (f : User → User)
    (hf : ∀ u, (f u).id = u.id) :
    (updateUser db k f).users.map (·.id) = db.users.map (·.id) := by
  show (db.users.map (fun u => if u.id == k then f u else u)).map (·.id) = db.users.map (·.id)
  rw [List.map_map]
  apply List.map_congr_left
  intro u _
  cases h : u.id == k <;> simp [Function.comp, h, hf]

theorem updateUser_users_proj (db : DB) (k : Nat) (f : User → User)
    (hf : ∀ u, (f u).id = u.id) (hs : ∀ u, (f u).sponsorId = u.sponsorId) :
    (updateUser db k f).users.map (fun u => (u.id, u.sponsorId)) =
      db.users.map (fun u => (u.id, u.sponsorId)) := by
  show (db.users.map (fun u => if u.id == k then f u else u)).map (fun u => (u.id, u.sponsorId)) =
    db.users.map (fun u => (u.id, u.sponsorId))
  rw [List.map_map]
  apply List.map_congr_left
  intro u _
  cases h : u.id == k <;> simp [Function.comp, h, hf, hs]

theorem findUser_proj_congr {db db' : DB}
    (h : db'.users.map (fun u => (u.id, u.sponsorId)) = db.users.map (fun u => (u.id, u.sponsorId)))
    (uid : Nat) :
    (findUser db' uid).map (fun u => (u.id, u.sponsorId)) =
      (findUser db uid).map (fun u => (u.id, u.sponsorId)) := by
  have h1 : (db'.users.map (fun u => (u.id, u.sponsorId))).find?
        (fun x => x.1 == uid) =
      (db.users.map (fun u => (u.id, u.sponsorId))).find? (fun x => x.1 == uid) := by rw [h]
  rw [List.find?_map, List.find?_map] at h1
  exact h1

theorem findUser_isSome_congr {db db' : DB}
    (h : db'.users.map (fun u => (u.id, u.sponsorId)) = db.users.map (fun u => (u.id, u.sponsorId)))
    (uid : Nat) : (findUser db' uid).isSome = (findUser db uid).isSome := by
  have h1 := findUser_proj_congr h uid
  cases h2 : findUser db' uid <;> cases h3 : findUser db uid <;> rw [h2, h3] at h1 <;> simp_all

theorem sponsorExists_congr {db db' : DB}
    (h : db'.users.map (fun u => (u.id, u.sponsorId)) = db.users.map (fun u => (u.id, u.sponsorId)))
    (uid : Nat) : sponsorExists db' uid = sponsorExists db uid := by
  have h1 := findUser_proj_congr h uid
  unfold sponsorExists
  cases h2 : findUser db' uid with
  | none =>
    rw [h2] at h1
    cases h3 : findUser db uid with
    | none => rfl
    | some b => rw [h3] at h1; simp at h1
  | some a =>
    rw [h2] at h1
    cases h3 : findUser db uid with
    | none => rw [h3] at h1; simp at h1
    | some b =>
      rw [h3] at h1
      simp only [Option.map_some', Option.some.injEq, Prod.mk.injEq] at h1
      cases hb2 : b.sponsorId with
      | none => simp [h1.2, hb2]
      | some sid => simp [h1.2, hb2, findUser_isSome_congr h sid]

theorem findUser_map_active_update (db : DB) (k uid : Nat) (f : User → User)
    (hf : ∀ u, (f u).id = u.id) (ha : ∀ u, (f u).isActive = u.isActive) :
    (findUser (updateUser db k f) uid).map (·.isActive) =
      (findUser db uid).map (·.isActive) := by
  rw [findUser_updateUser db k uid f hf]
  cases h : findUser db uid with
  | none => rfl
  | some u =>
    cases h2 : u.id == k with
    | false =>
      have hne : u.id ≠ k := by simpa using h2
      simp [hne]
    | true =>
      have heq : u.id = k := by simpa using h2
      simp [heq, ha]

theorem findUser_map_active_mono (db : DB) (k uid : Nat) (f : User → User)
    (hf : ∀ u, (f u).id = u.id) (ha : ∀ u, u.isActive = true → (f u).isActive = true)
    (h : (findUser db uid).map (·.isActive) = some true) :
    (findUser (updateUser db k f) uid).map (·.isActive) = some true := by
  rw [findUser_updateUser db k uid f hf]
  cases h1 : findUser db uid with
  | none => rw [h1] at h; simp at h
  | some u =>
    rw [h1] at h
    simp only [Option.map_some', Option.some.injEq] at h
    cases h2 : u.id == k with
    | false =>
      have hne : u.id ≠ k := by simpa using h2
      simp [hne, h]
    | true =>
      have heq : u.id = k := by simpa using h2
      simp [heq, ha u h]

theorem sum_balance_map_update {uid : Nat} {f : User → User} {u : User} :
    ∀ {l : List User}, (l.map (·.id)).Nodup →
      l.find? (fun x => x.id == uid) = some u →
      ((l.map (fun x => if x.id == uid then f x else x)).map (·.balance)).sum =
        (l.map (·.balance)).sum + (f u).balance - u.balance
  | [], _, hfind => by simp at hfind
  | x :: xs, hn, hfind => by
    rw [List.map_cons, List.nodup_cons] at hn
    cases hx : x.id == uid with
    | false =>
      simp only [List.find?, hx] at hfind
      have ih := sum_balance_map_update (f := f) hn.2 hfind
      simp only [List.map_cons, hx, List.sum_cons, if_false, Bool.false_eq_true]
      rw [ih]
      ring
    | true =>
      simp only [List.find?, hx] at hfind
      have hu : x = u := by
        cases hfind
        rfl
      have hxid : x.id = uid := by simpa using hx
      have htail : ∀ y ∈ xs, (if y.id == uid then f y else y) = y := by
        intro y hy
        have hyid : y.id ≠ uid := by
          intro he
          exact hn.1 (by
            rw [← hxid] at he
            exact he ▸ List.mem_map_of_mem (·.id) hy)
        simp [hyid]
      have hxs : xs.map (fun y => if y.id == uid then f y else y) = xs := by
        have h2 := List.map_congr_left htail
        simpa using h2
      simp only [List.map_cons, List.sum_cons, hx, if_true]
      rw [hxs, ← hu]
      ring

theorem sumBalances_updateUser {db : DB} {uid : Nat} {f : User → User} {u : User}
    (hn : (db.users.map (·.id)).Nodup) (hfind : findUser db uid = some u) :
    sumBalances (updateUser db uid f) = sumBalances db + (f u).balance - u.balance :=
  sum_balance_map_update hn hfind

theorem cascadeAbsorb_findUser (db : DB) (rid : Nat) (tx : String) (d : Nat) (uid : Nat) :
    findUser (cascadeAbsorb db rid tx d) uid = findUser (cascadeDebit db rid) uid := rfl

theorem cascadeStep_findUser (db : DB) (rid nid : Nat) (tx : String) (d : Nat) (uid : Nat) :
    findUser (cascadeStep db rid nid tx d) uid =
      findUser (cascadeCredit (cascadeDebit db rid) nid) uid := rfl

theorem cascadeStep_proj (db : DB) (rid nid : Nat) (tx : String) (d : Nat) :
    (cascadeStep db rid nid tx d).users.map (fun u => (u.id, u.sponsorId)) =
      db.users.map (fun u => (u.id, u.sponsorId)) := by
  show (cascadeCredit (cascadeDebit db rid) nid).users.map (fun u => (u.id, u.sponsorId)) =
    db.users.map (fun u => (u.id, u.sponsorId))
  unfold cascadeCredit cascadeDebit
  rw [updateUser_users_proj, updateUser_users_proj]
  all_goals exact fun u => rfl

theorem cascadeStep_ids (db : DB) (rid nid : Nat) (tx : String) (d : Nat) :
    (cascadeStep db rid nid tx d).users.map (·.id) = db.users.map (·.id) := by
  show (cascadeCredit (cascadeDebit db rid) nid).users.map (·.id) = db.users.map (·.id)
  unfold cascadeCredit cascadeDebit
  rw [updateUser_users_id, updateUser_users_id]
  all_goals exact fun u => rfl

theorem cascadeAbsorb_proj (db : DB) (rid : Nat) (tx : String) (d : Nat) :
    (cascadeAbsorb db rid tx d).users.map (fun u => (u.id, u.sponsorId)) =
      db.users.map (fun u => (u.id, u.sponsorId)) := by
  show (cascadeDebit db rid).users.map (fun u => (u.id, u.sponsorId)) =
    db.users.map (fun u => (u.id, u.sponsorId))
  unfold cascadeDebit
  rw [updateUser_users_proj]
  all_goals exact fun u => rfl

theorem cascadeStep_active_mono {db : DB} {rid nid uid : Nat} {tx : String} {d : Nat}
    (h : (findUser db uid).map (·.isActive) = some true) :
    (findUser (cascadeStep db rid nid tx d) uid).map (·.isActive) = some true := by
  rw [cascadeStep_findUser]
  unfold cascadeCredit cascadeDebit
  rw [findUser_map_active_update]
  · refine findUser_map_active_mono _ _ _ _ ?_ ?_ h
    · exact fun u => rfl
    · exact fun u _ => rfl
  · exact fun u => rfl
  · exact fun u => rfl

theorem cascadeStep_active_rid {db : DB} {rid nid : Nat} {tx : String} {d : Nat} {r : User}
    (hr : findUser db rid = some r) :
    (findUser (cascadeStep db rid nid tx d) rid).map (·.isActive) = some true := by
  rw [cascadeStep_findUser]
  unfold cascadeCredit cascadeDebit
  rw [findUser_map_active_update]
  · rw [findUser_updateUser_self]
    · rw [hr]
      rfl
    · exact fun u => rfl
  · exact fun u => rfl
  · exact fun u => rfl

theorem cascadeStep_active_other {db : DB} {rid nid uid : Nat} {tx : String} {d : Nat}
    (hne : uid ≠ rid) :
    (findUser (cascadeStep db rid nid tx d) uid).map (·.isActive) =
      (findUser db uid).map (·.isActive) := by
  rw [cascadeStep_findUser]
  unfold cascadeCredit cascadeDebit
  rw [findUser_map_active_update]
  · rw [findUser_updateUser_ne]
    · exact fun u => rfl
    · exact hne
  · exact fun u => rfl
  · exact fun u => rfl

theorem cascadeAbsorb_active_mono {db : DB} {rid uid : Nat} {tx : String} {d : Nat}
    (h : (findUser db uid).map (·.isActive) = some true) :
    (findUser (cascadeAbsorb db rid tx d) uid).map (·.isActive) = some true := by
  rw [cascadeAbsorb_findUser]
  unfold cascadeDebit
  refine findUser_map_active_mono _ _ _ _ ?_ ?_ h
  · exact fun u => rfl
  · exact fun u _ => rfl

theorem cascadeAbsorb_active_rid {db : DB} {rid : Nat} {tx : String} {d : Nat} {r : User}
    (hr : findUser db rid = some r) :
    (findUser (cascadeAbsorb db rid tx d) rid).map (·.isActive) = some true := by
  rw [cascadeAbsorb_findUser]
  unfold cascadeDebit
  rw [findUser_updateUser_self]
  · rw [hr]
    rfl
  · exact fun u => rfl

theorem cascadeDebit_sum {db : DB} {rid : Nat} {r : User}
    (hn : (db.users.map (·.id)).Nodup) (hr : findUser db rid = some r) :
    sumBalances (cascadeDebit db rid) = sumBalances db - MEMBERSHIP_FEE := by
  unfold cascadeDebit
  rw [sumBalances_updateUser hn hr]
  show sumBalances db + (r.balance - MEMBERSHIP_FEE) - r.balance = _
  ring

theorem cascadeCredit_sum {db : DB} {nid : Nat} {x : User}
    (hn : (db.users.map (·.id)).Nodup) (hx : findUser db nid = some x) :
    sumBalances (cascadeCredit db nid) = sumBalances db + MEMBERSHIP_FEE := by
  unfold cascadeCredit
  rw [sumBalances_updateUser hn hx]
  show sumBalances db + (x.balance + MEMBERSHIP_FEE) - x.balance = _
  ring

theorem cascadeDebit_ids (db : DB) (rid : Nat) :
    (cascadeDebit db rid).users.map (·.id) = db.users.map (·.id) := by
  unfold cascadeDebit
  rw [updateUser_users_id]
  exact fun u => rfl

theorem cascadeAbsorb_sum {db : DB} {rid : Nat} {tx : String} {d : Nat} {r : User}
    (hn : (db.users.map (·.id)).Nodup) (hr : findUser db rid = some r) :
    sumBalances (cascadeAbsorb db rid tx d) = sumBalances db - MEMBERSHIP_FEE := by
  show sumBalances (cascadeDebit db rid) = _
  exact cascadeDebit_sum hn hr

theorem cascadeStep_sum {db : DB} {rid nid : Nat} {tx : String} {d : Nat} {r x : User}
    (hn : (db.users.map (·.id)).Nodup) (hr : findUser db rid = some r)
    (hx : findUser (cascadeDebit db rid) nid = some x) :
    sumBalances (cascadeStep db rid nid tx d) = sumBalances db := by
  have hn1 : ((cascadeDebit db rid).users.map (·.id)).Nodup := by
    rw [cascadeDebit_ids]
    exact hn
  have h1 : sumBalances (cascadeStep db rid nid tx d) =
      sumBalances (cascadeCredit (cascadeDebit db rid) nid) := rfl
  rw [h1, cascadeCredit_sum hn1 hx, cascadeDebit_sum hn hr]
  ring

theorem cascadeAux_stop_none {db : DB} {rid : Nat} {tx : String} {d : Nat}
    (hr : findUser db rid = none) :
    ∀ fuel, cascadeAux db rid tx d fuel = (db, [])
  | 0 => rfl
  | fuel + 1 => by
    unfold cascadeAux
    rw [hr]

theorem cascadeAux_stop_active {db : DB} {rid : Nat} {tx : String} {d : Nat} {r : User}
    (hr : findUser db rid = some r) (ha : r.isActive = true) :
    ∀ fuel, cascadeAux db rid tx d fuel = (db, [])
  | 0 => rfl
  | fuel + 1 => by
    unfold cascadeAux
    rw [hr]
    simp [ha]

theorem cascadeAux_stop_poor {db : DB} {rid : Nat} {tx : String} {d : Nat} {r : User}
    (hr : findUser db rid = some r) (ha : r.isActive = false)
    (hb : r.balance < MEMBERSHIP_FEE) :
    ∀ fuel, cascadeAux db rid tx d fuel = (db, [])
  | 0 => rfl
  | fuel + 1 => by
    unfold cascadeAux
    rw [hr]
    simp [ha, not_le.2 hb]

theorem cascadeAux_absorb {db : DB} {rid : Nat} {tx : String} {d : Nat} {r : User} {fuel : Nat}
    (hr : findUser db rid = some r) (ha : r.isActive = false)
    (hb : MEMBERSHIP_FEE ≤ r.balance)
    (hs : r.sponsorId.bind (fun sid => findUser (cascadeDebit db rid) sid) = none) :
    cascadeAux db rid tx d (fuel + 1) = (cascadeAbsorb db rid tx d, [(rid, d)]) := by
  unfold cascadeAux
  rw [hr]
  simp only [cascadeAbsorb, cascadeDebit] at hs ⊢
  simp only [ha, Bool.false_eq_true, if_false, if_pos hb]
  rw [hs]

theorem cascadeAux_forward {db : DB} {rid : Nat} {tx : String} {d : Nat} {r nextR : User}
    {fuel : Nat}
    (hr : findUser db rid = some r) (ha : r.isActive = false)
    (hb : MEMBERSHIP_FEE ≤ r.balance)
    (hs : r.sponsorId.bind (fun sid => findUser (cascadeDebit db rid) sid) = some nextR) :
    cascadeAux db rid tx d (fuel + 1) =
      ((cascadeAux (cascadeStep db rid nextR.id tx d) nextR.id tx (d + 1) fuel).1,
        (rid, d) :: (cascadeAux (cascadeStep db rid nextR.id tx d) nextR.id tx (d + 1) fuel).2) := by
  conv_lhs => unfold cascadeAux
  rw [hr]
  simp only [ha, Bool.false_eq_true, if_false, if_pos hb]
  rw [show (r.sponsorId.bind fun sid =>
      findUser (updateUser db rid fun u =>
        { u with balance := u.balance - MEMBERSHIP_FEE, isActive := true }) sid) =
    some nextR from hs]
  rfl

theorem cascadeAux_length_le : ∀ (fuel : Nat) (db : DB) (rid : Nat) (tx : String) (d : Nat),
    (cascadeAux db rid tx d fuel).2.length ≤ fuel
  | 0, _, _, _, _ => Nat.le_refl 0
  | fuel + 1, db, rid, tx, d => by
    cases hr : findUser db rid with
    | none =>
      rw [cascadeAux_stop_none hr]
      simp
    | some r =>
      cases ha : r.isActive with
      | true =>
        rw [cascadeAux_stop_active hr ha]
        simp
      | false =>
        by_cases hb : MEMBERSHIP_FEE ≤ r.balance
        · cases hs : r.sponsorId.bind (fun sid => findUser (cascadeDebit db rid) sid) with
          | none =>
            rw [cascadeAux_absorb hr ha hb hs]
            simp
          | some nextR =>
            rw [cascadeAux_forward hr ha hb hs]
            have ih := cascadeAux_length_le fuel (cascadeStep db rid nextR.id tx d) nextR.id tx (d + 1)
            simp only [List.length_cons]
            omega
        · rw [cascadeAux_stop_poor hr ha (not_le.1 hb)]
          simp

theorem cascadeAux_active_mono : ∀ (fuel : Nat) (db : DB) (rid : Nat) (tx : String) (d uid : Nat),
    (findUser db uid).map (·.isActive) = some true →
    (findUser (cascadeAux db rid tx d fuel).1 uid).map (·.isActive) = some true
  | 0, _, _, _, _, _, h => h
  | fuel + 1, db, rid, tx, d, uid, h => by
    cases hr : findUser db rid with
    | none =>
      rw [cascadeAux_stop_none hr]
      exact h
    | some r =>
      cases ha : r.isActive with
      | true =>
        rw [cascadeAux_stop_active hr ha]
        exact h
      | false =>
        by_cases hb : MEMBERSHIP_FEE ≤ r.balance
        · cases hs : r.sponsorId.bind (fun sid => findUser (cascadeDebit db rid) sid) with
          | none =>
            rw [cascadeAux_absorb hr ha hb hs]
            exact cascadeAbsorb_active_mono h
          | some nextR =>
            rw [cascadeAux_forward hr ha hb hs]
            exact cascadeAux_active_mono fuel _ nextR.id tx (d + 1) uid (cascadeStep_active_mono h)
        · rw [cascadeAux_stop_poor hr ha (not_le.1 hb)]
          exact h

theorem cascadeAux_not_mem_active : ∀ (fuel : Nat) (db : DB) (rid : Nat) (tx : String)
      (d uid : Nat),
    (findUser db uid).map (·.isActive) = some true →
    uid ∉ (cascadeAux db rid tx d fuel).2.map Prod.fst
  | 0, _, _, _, _, uid, _ => List.not_mem_nil uid
  | fuel + 1, db, rid, tx, d, uid, h => by
    cases hr : findUser db rid with
    | none =>
      rw [cascadeAux_stop_none hr]
      exact List.not_mem_nil uid
    | some r =>
      cases ha : r.isActive with
      | true =>
        rw [cascadeAux_stop_active hr ha]
        exact List.not_mem_nil uid
      | false =>
        by_cases hb : MEMBERSHIP_FEE ≤ r.balance
        · cases hs : r.sponsorId.bind (fun sid => findUser (cascadeDebit db rid) sid) with
          | none =>
            rw [cascadeAux_absorb hr ha hb hs]
            intro hmem
            simp only [List.map_cons, List.map_nil, List.mem_singleton] at hmem
            subst hmem
            rw [hr] at h
            simp only [Option.map_some', Option.some.injEq] at h
            simp [ha] at h
          | some nextR =>
            rw [cascadeAux_forward hr ha hb hs]
            intro hmem
            simp only [List.map_cons, List.mem_cons] at hmem
            rcases hmem with he | hm
            · subst he
              rw [hr] at h
              simp only [Option.map_some', Option.some.injEq] at h
              simp [ha] at h
            · exact cascadeAux_not_mem_active fuel _ nextR.id tx (d + 1) uid
                (cascadeStep_active_mono h) hm
        · rw [cascadeAux_stop_poor hr ha (not_le.1 hb)]
          exact List.not_mem_nil uid

theorem cascadeAux_map_fst_nodup : ∀ (fuel : Nat) (db : DB) (rid : Nat) (tx : String) (d : Nat),
    ((cascadeAux db rid tx d fuel).2.map Prod.fst).Nodup
  | 0, _, _, _, _ => List.nodup_nil
  | fuel + 1, db, rid, tx, d => by
    cases hr : findUser db rid with
    | none =>
      rw [cascadeAux_stop_none hr]
      exact List.nodup_nil
    | some r =>
      cases ha : r.isActive with
      | true =>
        rw [cascadeAux_stop_active hr ha]
        exact List.nodup_nil
      | false =>
        by_cases hb : MEMBERSHIP_FEE ≤ r.balance
        · cases hs : r.sponsorId.bind (fun sid => findUser (cascadeDebit db rid) sid) with
          | none =>
            rw [cascadeAux_absorb hr ha hb hs]
            simp
          | some nextR =>
            rw [cascadeAux_forward hr ha hb hs]
            simp only [List.map_cons, List.nodup_cons]
            constructor
            · exact cascadeAux_not_mem_active fuel _ nextR.id tx (d + 1) rid
                (cascadeStep_active_rid hr)
            · exact cascadeAux_map_fst_nodup fuel _ nextR.id tx (d + 1)
        · rw [cascadeAux_stop_poor hr ha (not_le.1 hb)]
          exact List.nodup_nil

theorem cascadeAux_activated : ∀ (fuel : Nat) (db : DB) (rid : Nat) (tx : String) (d : Nat)
      (a : Nat × Nat), a ∈ (cascadeAux db rid tx d fuel).2 →
    (findUser db a.1).map (·.isActive) = some false ∧
    (findUser (cascadeAux db rid tx d fuel).1 a.1).map (·.isActive) = some true
  | 0, _, _, _, _, a, hmem => absurd hmem (List.not_mem_nil a)
  | fuel + 1, db, rid, tx, d, a, hmem => by
    cases hr : findUser db rid with
    | none =>
      rw [cascadeAux_stop_none hr] at hmem
      exact absurd hmem (List.not_mem_nil a)
    | some r =>
      cases ha : r.isActive with
      | true =>
        rw [cascadeAux_stop_active hr ha] at hmem
        exact absurd hmem (List.not_mem_nil a)
      | false =>
        by_cases hb : MEMBERSHIP_FEE ≤ r.balance
        · cases hs : r.sponsorId.bind (fun sid => findUser (cascadeDebit db rid) sid) with
          | none =>
            rw [cascadeAux_absorb hr ha hb hs] at hmem ⊢
            simp only [List.mem_singleton] at hmem
            subst hmem
            refine ⟨?_, ?_⟩
            · rw [hr]
              simp [ha]
            · exact cascadeAbsorb_active_rid hr
          | some nextR =>
            rw [cascadeAux_forward hr ha hb hs] at hmem ⊢
            simp only [List.mem_cons] at hmem
            rcases hmem with he | hm
            · subst he
              refine ⟨?_, ?_⟩
              · rw [hr]
                simp [ha]
              · exact cascadeAux_active_mono fuel _ nextR.id tx (d + 1) rid
                  (cascadeStep_active_rid hr)
            · have ih := cascadeAux_activated fuel (cascadeStep db rid nextR.id tx d) nextR.id tx
                (d + 1) a hm
              refine ⟨?_, ih.2⟩
              by_cases hae : a.1 = rid
              · exfalso
                have h2 := ih.1
                rw [hae, cascadeStep_active_rid hr] at h2
                simp at h2
              · rw [← @cascadeStep_active_other db rid nextR.id a.1 tx d hae]
                exact ih.1
        · rw [cascadeAux_stop_poor hr ha (not_le.1 hb)] at hmem
          exact absurd hmem (List.not_mem_nil a)

theorem cascadeDebit_findUser_map (db : DB) (rid sid : Nat) :
    findUser (cascadeDebit db rid) sid =
      (findUser db sid).map (fun u => if u.id == rid then
        { u with balance := u.balance - MEMBERSHIP_FEE, isActive := true } else u) := by
  unfold cascadeDebit
  rw [findUser_updateUser]
  exact fun u => rfl

theorem cascadeAux_sum : ∀ (fuel : Nat) (db : DB) (rid : Nat) (tx : String) (d : Nat),
    (db.users.map (·.id)).Nodup →
    sumBalances (cascadeAux db rid tx d fuel).1 =
      sumBalances db - MEMBERSHIP_FEE *
        (((cascadeAux db rid tx d fuel).2.filter fun a => !sponsorExists db a.1).length : ℤ)
  | 0, _, _, _, _, _ => by simp [cascadeAux]
  | fuel + 1, db, rid, tx, d, hn => by
    cases hr : findUser db rid with
    | none =>
      rw [cascadeAux_stop_none hr]
      simp
    | some r =>
      cases ha : r.isActive with
      | true =>
        rw [cascadeAux_stop_active hr ha]
        simp
      | false =>
        by_cases hb : MEMBERSHIP_FEE ≤ r.balance
        · cases hs : r.sponsorId.bind (fun sid => findUser (cascadeDebit db rid) sid) with
          | none =>
            rw [cascadeAux_absorb hr ha hb hs]
            have hse : sponsorExists db rid = false := by
              unfold sponsorExists
              rw [hr]
              cases hsp : r.sponsorId with
              | none => simp [hsp]
              | some sid =>
                rw [hsp] at hs
                simp only [Option.some_bind] at hs
                rw [cascadeDebit_findUser_map] at hs
                simp only [Option.map_eq_none'] at hs
                simp [hsp, hs]
            show sumBalances (cascadeAbsorb db rid tx d) = _
            rw [@cascadeAbsorb_sum db rid tx d r hn hr]
            simp [hse]
          | some nextR =>
            rw [cascadeAux_forward hr ha hb hs]
            have hn3 : ((cascadeStep db rid nextR.id tx d).users.map (·.id)).Nodup := by
              rw [cascadeStep_ids]
              exact hn
            have ih := cascadeAux_sum fuel (cascadeStep db rid nextR.id tx d) nextR.id tx
              (d + 1) hn3
            have hsum : sumBalances (cascadeStep db rid nextR.id tx d) = sumBalances db := by
              cases hsp : r.sponsorId with
              | none =>
                rw [hsp] at hs
                simp at hs
              | some sid =>
                rw [hsp] at hs
                simp only [Option.some_bind] at hs
                have hid : nextR.id = sid := findUser_some_id hs
                rw [hid]
                exact cascadeStep_sum hn hr hs
            have hcong : ∀ x ∈ (cascadeAux (cascadeStep db rid nextR.id tx d) nextR.id tx
                (d + 1) fuel).2,
                (!sponsorExists (cascadeStep db rid nextR.id tx d) x.1) =
                  (!sponsorExists db x.1) := by
              intro x _
              rw [sponsorExists_congr (cascadeStep_proj db rid nextR.id tx d) x.1]
            have hse : sponsorExists db rid = true := by
              unfold sponsorExists
              rw [hr]
              cases hsp : r.sponsorId with
              | none =>
                rw [hsp] at hs
                simp at hs
              | some sid =>
                rw [hsp] at hs
                simp only [Option.some_bind] at hs
                rw [cascadeDebit_findUser_map] at hs
                cases hfd : findUser db sid with
                | none =>
                  rw [hfd] at hs
                  simp at hs
                | some w => simp [hsp, hfd]
            simp only [List.filter_cons, hse, Bool.not_true, Bool.false_eq_true, if_false]
            rw [ih, hsum, List.filter_congr hcong]
        · rw [cascadeAux_stop_poor hr ha (not_le.1 hb)]
          simp

/-- C6: the activation cascade terminates within its fuel bound (hence
within the `max_depth = 50` cap from the engine's entry point at
`chain_depth = 1`), activates no member twice in one cascade (the
activated-id list is duplicate-free), stops immediately — with no state
change — on an already-active recipient (who keeps the credit) and on an
inactive recipient whose balance does not cover the membership fee, only
ever activates members that were inactive and leaves each of them active,
and conserves the total of member balances except for one membership fee
absorbed at each activated member whose sponsor pointer does not resolve
to an existing member. -/
theorem c6_cascade_termination_single_activation :
    (∀ (db : DB) (rid : Nat) (tx : String) (d fuel : Nat),
        (cascadeAux db rid tx d fuel).2.length ≤ fuel) ∧
    (∀ (db : DB) (rid : Nat) (tx : String),
        (cascade_auto_activation db rid tx 1).2.length ≤ 50) ∧
    (∀ (db : DB) (rid : Nat) (tx : String) (d fuel : Nat),
        ((cascadeAux db rid tx d fuel).2.map Prod.fst).Nodup) ∧
    (∀ (db : DB) (rid : Nat) (tx : String) (d fuel : Nat) (r : User),
        findUser db rid = some r → r.isActive = true →
        cascadeAux db rid tx d fuel = (db, [])) ∧
    (∀ (db : DB) (rid : Nat) (tx : String) (d fuel : Nat) (r : User),
        findUser db rid = some r → r.isActive = false →
        r.balance < MEMBERSHIP_FEE →
        cascadeAux db rid tx d fuel = (db, [])) ∧
    (∀ (db : DB) (rid : Nat) (tx : String) (d fuel : Nat) (a : Nat × Nat),
        a ∈ (cascadeAux db rid tx d fuel).2 →
        (findUser db a.1).map (·.isActive) = some false ∧
        (findUser (cascadeAux db rid tx d fuel).1 a.1).map (·.isActive) = some true) ∧
    (∀ (db : DB) (rid : Nat) (tx : String) (d fuel : Nat),
        (db.users.map (·.id)).Nodup →
        sumBalances (cascadeAux db rid tx d fuel).1 =
          sumBalances db - MEMBERSHIP_FEE *
            (((cascadeAux db rid tx d fuel).2.filter
              fun a => !sponsorExists db a.1).length : ℤ)) :=
  ⟨fun db rid tx d fuel => cascadeAux_length_le fuel db rid tx d,
   fun db rid tx => cascadeAux_length_le 50 db rid tx 1,
   fun db rid tx d fuel => cascadeAux_map_fst_nodup fuel db rid tx d,
   fun _ _ _ _ fuel _ hr ha => cascadeAux_stop_active hr ha fuel,
   fun _ _ _ _ fuel _ hr ha hb => cascadeAux_stop_poor hr ha hb fuel,
   fun db rid tx d fuel a hmem => cascadeAux_activated fuel db rid tx d a hmem,
   fun db rid tx d fuel hn => cascadeAux_sum fuel db rid tx d hn⟩

/-- Concrete run of the cascade facts: member 1 of `dbCascade` is inactive
with balance `$25` and active sponsor 2, so one hop activates member 1,
forwards the fee to member 2, and stops there; an active recipient and an
inactive recipient with an insufficient balance change nothing. -/
theorem c6_cascade_termination_single_activation_witness :
    (cascadeAux dbCascade 2 "t" 2 49 = (dbCascade, []) ∧
     cascadeAux { emptyDB with users := [mkUser 3 none false false (usd 1)] } 3 "t" 1 50 =
       ({ emptyDB with users := [mkUser 3 none false false (usd 1)] }, []) ∧
     ((findUser dbCascade (1, 1).1).map (·.isActive) = some false ∧
      (findUser (cascadeAux dbCascade 1 "t" 1 50).1 (1, 1).1).map (·.isActive) = some true) ∧
     sumBalances (cascadeAux dbCascade 1 "t" 1 50).1 =
       sumBalances dbCascade - MEMBERSHIP_FEE *
         (((cascadeAux dbCascade 1 "t" 1 50).2.filter
           fun a => !sponsorExists dbCascade a.1).length : ℤ)) :=
  ⟨c6_cascade_termination_single_activation.2.2.2.1 dbCascade 2 "t" 2 49
      (mkUser 2 none false true 0) (by decide) (by decide),
   c6_cascade_termination_single_activation.2.2.2.2.1 _ 3 "t" 1 50
      (mkUser 3 none false false (usd 1)) (by decide) (by decide) (by decide),
   c6_cascade_termination_single_activation.2.2.2.2.2.1 dbCascade 1 "t" 1 50 (1, 1) (by decide),
   c6_cascade_termination_single_activation.2.2.2.2.2.2 dbCascade 1 "t" 1 50 (by decide)⟩

/-! ## Non-negative balance lemmas (towards C9) -/

theorem forall_balance_update {uid : Nat} {f : User → User} {u : User} :
    ∀ {l : List User}, (l.map (·.id)).Nodup →
      l.find? (fun x => x.id == uid) = some u →
      (∀ x ∈ l, 0 ≤ x.balance) → 0 ≤ (f u).balance →
      ∀ v ∈ l.map (fun x => if x.id == uid then f x else x), 0 ≤ v.balance
  | [], _, hfind, _, _ => by simp at hfind
  | x :: xs, hn, hfind, hall, hfu => by
    rw [List.map_cons, List.nodup_cons] at hn
    intro v hv
    rw [List.map_cons] at hv
    rcases List.mem_cons.1 hv with rfl | hv2
    · cases hx : x.id == uid with
      | true =>
        simp only [List.find?, hx] at hfind
        cases hfind
        simp only [hx, if_true]
        exact hfu
      | false =>
        simp only [hx, Bool.false_eq_true, if_false]
        exact hall x (by simp)
    · cases hx : x.id == uid with
      | true =>
        have hxid : x.id = uid := by simpa using hx
        rcases List.mem_map.1 hv2 with ⟨y, hy, rfl⟩
        have hyne : (y.id == uid) = false := by
          have hyid : y.id ≠ uid := by
            intro he
            exact hn.1 (by
              rw [← hxid] at he
              exact he ▸ List.mem_map_of_mem (·.id) hy)
          simpa using hyid
        simp only [hyne, Bool.false_eq_true, if_false]
        exact hall y (List.mem_cons_of_mem x hy)
      | false =>
        simp only [List.find?, hx] at hfind
        exact forall_balance_update hn.2 hfind
          (fun z hz => hall z (List.mem_cons_of_mem x hz)) hfu v hv2

theorem moneyInv_updateUser_credit {db : DB} {uid : Nat} {f : User → User}
    (h : MoneyInv db) (hf : ∀ u, 0 ≤ u.balance → 0 ≤ (f u).balance) :
    MoneyInv (updateUser db uid f) := by
  refine ⟨?_, h.2.1, h.2.2⟩
  intro v hv
  rcases List.mem_map.1 hv with ⟨u, hu, rfl⟩
  cases hx : u.id == uid with
  | true =>
    simp only [hx, if_true]
    exact hf u (h.1 u hu)
  | false =>
    simp only [hx, Bool.false_eq_true, if_false]
    exact h.1 u hu

theorem moneyInv_updateUser_debit {db : DB} {uid : Nat} {f : User → User} {u : User}
    (h : MoneyInv db) (hn : UsersNodup db)
    (hfind : findUser db uid = some u) (hb : 0 ≤ (f u).balance) :
    MoneyInv (updateUser db uid f) :=
  ⟨forall_balance_update hn hfind h.1 hb, h.2.1, h.2.2⟩

theorem moneyInv_updateGrid {db : DB} {gid : Nat} {f : Grid → Grid}
    (h : MoneyInv db) (hf : ∀ g, 0 ≤ g.revenueTotal → 0 ≤ (f g).revenueTotal) :
    MoneyInv (updateGrid db gid f) := by
  refine ⟨h.1, ?_, h.2.2⟩
  intro g hg
  rcases List.mem_map.1 hg with ⟨g0, hg0, rfl⟩
  cases hx : g0.id == gid with
  | true =>
    simp only [hx, if_true]
    exact hf g0 (h.2.1 g0 hg0)
  | false =>
    simp only [hx, Bool.false_eq_true, if_false]
    exact h.2.1 g0 hg0

theorem moneyInv_grids_append {db : DB} {g : Grid} {n : Nat}
    (h : MoneyInv db) (hg : 0 ≤ g.revenueTotal) :
    MoneyInv { db with grids := db.grids ++ [g], nextGridId := n } := by
  refine ⟨h.1, ?_, h.2.2⟩
  intro x hx
  rcases List.mem_append.1 hx with hx | hx
  · exact h.2.1 x hx
  · rw [List.mem_singleton.1 hx]
    exact hg

theorem applyPct_nonneg {x : Money} {p : Pct} (hx : 0 ≤ x) (hn : 0 ≤ p.num)
    (hd : 0 ≤ p.den) : 0 ≤ applyPct x p := by
  unfold applyPct
  apply Int.fdiv_nonneg
  · exact add_nonneg (mul_nonneg (mul_nonneg (by norm_num) hx) hn) hd
  · exact mul_nonneg (by norm_num) hd

theorem GRID_PACKAGES_nonneg : ∀ {t : Nat} {p : Money}, GRID_PACKAGES t = some p → 0 ≤ p := by
  intro t p h
  rcases t with _ | _ | _ | _ | _ | _ | _ | _ | _ | n
  · exact Option.noConfusion h
  · injection h with h1
    rw [← h1]
    decide
  · injection h with h1
    rw [← h1]
    decide
  · injection h with h1
    rw [← h1]
    decide
  · injection h with h1
    rw [← h1]
    decide
  · injection h with h1
    rw [← h1]
    decide
  · injection h with h1
    rw [← h1]
    decide
  · injection h with h1
    rw [← h1]
    decide
  · injection h with h1
    rw [← h1]
    decide
  · exact Option.noConfusion h

theorem usersNodup_updateUser {db : DB} {uid : Nat} {f : User → User}
    (hf : ∀ u, (f u).id = u.id) (hn : UsersNodup db) : UsersNodup (updateUser db uid f) := by
  unfold UsersNodup at hn ⊢
  rw [updateUser_users_id]
  · exact hn
  · exact hf

theorem wf_request_withdrawal (db : DB) (userId : Nat) (amount : Money)
    (h : WF db) : WF (request_withdrawal db userId amount).2 := by
  unfold request_withdrawal
  cases hf : findUser db userId with
  | none => exact h
  | some user =>
    by_cases h5 : amount < usd 5
    · simp only [if_pos h5]
      exact h
    · simp only [if_neg h5]
      by_cases hbal : user.balance < amount
      · simp only [if_pos hbal]
        exact h
      · simp only [if_neg hbal]
        cases hw : user.walletAddress with
        | none => exact h
        | some addr =>
          refine ⟨?_, ?_⟩
          · exact moneyInv_updateUser_debit h.1 h.2 hf (by
              show 0 ≤ user.balance - amount
              exact sub_nonneg.2 (not_lt.1 hbal))
          · unfold UsersNodup
            show ((updateUser db userId (fun u =>
              { u with balance := u.balance - amount,
                       totalWithdrawn := u.totalWithdrawn + amount })).users.map (·.id)).Nodup
            rw [updateUser_users_id]
            · exact h.2
            · exact fun u => rfl

theorem wf_process_p2p_transfer (db : DB) (fromUserId : Nat) (toMemberId : String)
    (amount : Money) (note : Option String)
    (h : WF db) : WF (process_p2p_transfer db fromUserId toMemberId amount note).2 := by
  unfold process_p2p_transfer
  split
  · exact h
  · rename_i hmin
    split
    · exact h
    · split
      · exact h
      · rename_i sender hf
        split
        · exact h
        · split
          · exact h
          · rename_i hbal
            split
            · exact h
            · rename_i recipient hres
              split
              · exact h
              · split
                · exact h
                · have hamt : 0 ≤ amount :=
                    le_trans (by decide : (0 : Money) ≤ MIN_P2P_AMOUNT) (not_lt.1 hmin)
                  have hm1 : MoneyInv (updateUser db fromUserId (fun u =>
                      { u with balance := u.balance - amount })) :=
                    moneyInv_updateUser_debit h.1 h.2 hf (by
                      show 0 ≤ sender.balance - amount
                      exact sub_nonneg.2 (not_lt.1 hbal))
                  refine ⟨?_, ?_⟩
                  · exact moneyInv_updateUser_credit hm1 (fun u hu => by
                      show 0 ≤ u.balance + amount
                      exact add_nonneg hu hamt)
                  · unfold UsersNodup
                    show (((updateUser (updateUser db fromUserId (fun u =>
                        { u with balance := u.balance - amount })) recipient.id (fun u =>
                        { u with balance := u.balance + amount,
                                 totalEarned := u.totalEarned + amount })).users.map (·.id))).Nodup
                    rw [updateUser_users_id, updateUser_users_id]
                    · exact h.2
                    all_goals exact fun u => rfl

theorem wf_cascadeAux : ∀ (fuel : Nat) (db : DB) (rid : Nat) (tx : String) (d : Nat),
    WF db → WF (cascadeAux db rid tx d fuel).1
  | 0, _, _, _, _, h => h
  | fuel + 1, db, rid, tx, d, h => by
    cases hr : findUser db rid with
    | none =>
      rw [cascadeAux_stop_none hr]
      exact h
    | some r =>
      cases ha : r.isActive with
      | true =>
        rw [cascadeAux_stop_active hr ha]
        exact h
      | false =>
        by_cases hb : MEMBERSHIP_FEE ≤ r.balance
        · have hmd : MoneyInv (cascadeDebit db rid) :=
            moneyInv_updateUser_debit h.1 h.2 hr (by
              show 0 ≤ r.balance - MEMBERSHIP_FEE
              exact sub_nonneg.2 hb)
          cases hs : r.sponsorId.bind (fun sid => findUser (cascadeDebit db rid) sid) with
          | none =>
            rw [cascadeAux_absorb hr ha hb hs]
            refine ⟨hmd, ?_⟩
            unfold UsersNodup
            show ((cascadeDebit db rid).users.map (·.id)).Nodup
            rw [cascadeDebit_ids]
            exact h.2
          | some nextR =>
            rw [cascadeAux_forward hr ha hb hs]
            apply wf_cascadeAux fuel
            refine ⟨?_, ?_⟩
            · show MoneyInv (cascadeCredit (cascadeDebit db rid) nextR.id)
              exact moneyInv_updateUser_credit hmd (fun u hu =>
                add_nonneg hu (by decide : (0 : Money) ≤ MEMBERSHIP_FEE))
            · unfold UsersNodup
              show ((cascadeStep db rid nextR.id tx d).users.map (·.id)).Nodup
              rw [cascadeStep_ids]
              exact h.2
        · rw [cascadeAux_stop_poor hr ha (not_le.1 hb)]
          exact h

theorem wf_gocr (db : DB) (uid tier : Nat) (h : WF db) :
    WF (get_or_create_tracker db uid tier).2 := by
  unfold get_or_create_tracker
  cases h1 : findTracker db uid tier
  · exact h
  · exact h

theorem wf_find_passup_aux (tier : Nat) : ∀ (fuel : Nat) (db : DB) (cur : Option Nat)
      (depth : Nat), WF db → WF (find_passup_aux db cur tier depth fuel).2.2
  | 0, _, _, _, h => h
  | fuel + 1, db, cur, depth, h => by
    cases cur with
    | none => exact h
    | some cid =>
      simp only [find_passup_aux]
      cases hfu : findUser db cid with
      | none => exact h
      | some cand =>
        simp only
        cases hadm : cand.isAdmin with
        | true => exact h
        | false =>
          by_cases howns : user_owns_tier db cand.id tier = true
          · simp only [hadm, howns, Bool.false_eq_true, if_false, if_true]
            cases hq : (get_or_create_tracker db cand.id tier).1.firstPassedUp ||
                decide (0 < (get_or_create_tracker db cand.id tier).1.salesCount) with
            | true => exact wf_gocr db cand.id tier h
            | false =>
              exact wf_find_passup_aux tier fuel _ cand.sponsorId (depth + 1)
                (wf_gocr db cand.id tier h)
          · have howns2 : user_owns_tier db cand.id tier = false := by
              simpa using howns
            simp only [hadm, howns2, Bool.false_eq_true, if_false]
            exact wf_find_passup_aux tier fuel db cand.sponsorId (depth + 1) h

theorem wf_credit_earner (db : DB) (pid bid tier eid : Nat) (amt : Money)
    (ct : String) (dep : Nat) (h : WF db) (hamt : 0 ≤ amt) :
    WF (credit_earner db pid bid tier eid amt ct dep).2 := by
  refine ⟨?_, ?_⟩
  · exact moneyInv_updateUser_credit h.1 (fun u hu => add_nonneg hu hamt)
  · unfold UsersNodup
    show ((updateUser { db with courseCommissions := db.courseCommissions ++
        [⟨pid, bid, some eid, amt, tier, ct, dep⟩] } eid (fun u =>
        { u with balance := u.balance + amt, totalEarned := u.totalEarned + amt,
                 courseEarnings := u.courseEarnings + amt })).users.map (·.id)).Nodup
    rw [updateUser_users_id]
    · exact h.2
    · exact fun u => rfl

theorem wf_credit_platform (db : DB) (pid bid tier : Nat) (amt : Money)
    (h : WF db) (hamt : 0 ≤ amt) : WF (credit_platform db pid bid tier amt).2 := by
  unfold credit_platform
  cases hadm : db.users.find? (fun u => u.isAdmin) with
  | none => exact h
  | some a =>
    refine ⟨?_, ?_⟩
    · exact moneyInv_updateUser_credit h.1 (fun u hu => add_nonneg hu hamt)
    · unfold UsersNodup
      show ((updateUser { db with courseCommissions := db.courseCommissions ++
          [⟨pid, bid, some a.id, amt, tier, "platform", 0⟩] } a.id (fun u =>
          { u with balance := u.balance + amt,
                   totalEarned := u.totalEarned + amt })).users.map (·.id)).Nodup
      rw [updateUser_users_id]
      · exact h.2
      · exact fun u => rfl

theorem wf_distribute_commission (db : DB) (pid : Nat) (buyer : User) (course : Course)
    (h : WF db) (hp : 0 ≤ course.price) :
    WF (distribute_commission db pid buyer course).2 := by
  unfold distribute_commission
  split
  · exact wf_credit_platform db pid buyer.id course.tier course.price h hp
  · rename_i sid
    split
    · exact wf_credit_platform db pid buyer.id course.tier course.price h hp
    · rename_i sponsor hfs
      simp only []
      split
      · split
        · rename_i earner depth db4 hw
          refine wf_credit_earner db4 pid buyer.id course.tier earner.id course.price
            "pass_up" depth ?_ hp
          have h3 := wf_find_passup_aux course.tier 500 (updateTracker (updateTracker
              (get_or_create_tracker db sponsor.id course.tier).2 sponsor.id course.tier
              (fun t => { t with salesCount := t.salesCount + 1 })) sponsor.id course.tier
              (fun t => { t with firstPassedUp := true })) sponsor.sponsorId 0
            (wf_gocr db sponsor.id course.tier h)
          have h5 : WF (find_passup_recipient (updateTracker (updateTracker
              (get_or_create_tracker db sponsor.id course.tier).2 sponsor.id course.tier
              (fun t => { t with salesCount := t.salesCount + 1 })) sponsor.id course.tier
              (fun t => { t with firstPassedUp := true })) sponsor course.tier).2.2 := h3
          rw [hw] at h5
          exact h5
        · rename_i e f2 db4 hw
          refine wf_credit_platform db4 pid buyer.id course.tier course.price ?_ hp
          have h3 := wf_find_passup_aux course.tier 500 (updateTracker (updateTracker
              (get_or_create_tracker db sponsor.id course.tier).2 sponsor.id course.tier
              (fun t => { t with salesCount := t.salesCount + 1 })) sponsor.id course.tier
              (fun t => { t with firstPassedUp := true })) sponsor.sponsorId 0
            (wf_gocr db sponsor.id course.tier h)
          have h5 : WF (find_passup_recipient (updateTracker (updateTracker
              (get_or_create_tracker db sponsor.id course.tier).2 sponsor.id course.tier
              (fun t => { t with salesCount := t.salesCount + 1 })) sponsor.id course.tier
              (fun t => { t with firstPassedUp := true })) sponsor course.tier).2.2 := h3
          rw [hw] at h5
          exact h5
      · split
        · exact wf_credit_earner _ pid buyer.id course.tier sponsor.id course.price
            "direct_sale" 0 (wf_gocr db sponsor.id course.tier h) hp
        · split
          · rename_i earner depth hu
            exact wf_credit_earner _ pid buyer.id course.tier earner.id course.price
              "pass_up" depth (wf_gocr db sponsor.id course.tier h) hp
          · exact wf_credit_platform _ pid buyer.id course.tier course.price
              (wf_gocr db sponsor.id course.tier h) hp

theorem wf_process_course_purchase (db : DB) (buyerId courseId : Nat) (pm : String)
    (txRef : Option String) (h : WF db) :
    WF (process_course_purchase db buyerId courseId pm txRef).2 := by
  unfold process_course_purchase
  split
  · exact h
  · rename_i buyer hbuyer
    split
    · exact h
    · rename_i course hcourse
      split
      · exact h
      · split
        · exact h
        · rename_i hpay
          have hp : 0 ≤ course.price :=
            h.1.2.2 course (List.mem_of_find?_eq_some hcourse)
          cases hpm : pm == "wallet" with
          | false =>
            simp only [hpm, Bool.false_eq_true, if_false]
            exact wf_distribute_commission _ db.nextPurchaseId buyer course h hp
          | true =>
            simp only [hpm, if_true]
            have hnd : ¬buyer.balance < course.price := by
              intro hlt
              exact hpay (by simp [hpm, hlt])
            refine wf_distribute_commission _ db.nextPurchaseId buyer course ⟨?_, ?_⟩ hp
            · exact moneyInv_updateUser_debit h.1 h.2 hbuyer (by
                show 0 ≤ buyer.balance - course.price
                exact sub_nonneg.2 (not_lt.1 hnd))
            · unfold UsersNodup
              rw [updateUser_users_id]
              · exact h.2
              · exact fun u => rfl

theorem wf_renewStep (now : Int) (db : DB) (ruid : Nat) (h : WF db) :
    WF (renewStep now db ruid) := by
  unfold renewStep
  split
  · exact h
  · rename_i renewal hren
    split
    · exact h
    · rename_i user huser
      split
      · exact h
      · rename_i hact
        simp only []
        generalize hdb1 : (if (decide (renewal.nextRenewalDate - 3 * DAY ≤ now) &&
            !renewal.inGracePeriod && decide (user.balance < MEMBERSHIP_FEE) &&
            !user.lowBalanceWarned) = true then
            updateUser db ruid (fun u => { u with lowBalanceWarned := true }) else db) = db1
        have h1 : WF db1 := by
          rw [← hdb1]
          split
          · refine ⟨?_, ?_⟩
            · exact moneyInv_updateUser_credit h.1 (fun u hu => hu)
            · unfold UsersNodup
              rw [updateUser_users_id]
              · exact h.2
              · exact fun u => rfl
          · exact h
        have hex : ∃ u1, findUser db1 ruid = some u1 := by
          rw [← hdb1]
          split
          · rw [findUser_updateUser_self]
            · rw [huser]
              exact ⟨_, rfl⟩
            · exact fun u => rfl
          · exact ⟨user, huser⟩
        obtain ⟨u1, hu1⟩ := hex
        rw [hu1]
        simp only [Option.getD_some]
        split
        · split
          · rename_i hfee
            have hmd : MoneyInv (updateUser db1 ruid (fun u =>
                { u with balance := u.balance - MEMBERSHIP_FEE, lowBalanceWarned := false })) :=
              moneyInv_updateUser_debit h1.1 h1.2 hu1 (by
                show 0 ≤ u1.balance - MEMBERSHIP_FEE
                exact sub_nonneg.2 hfee)
            have hnd2 : UsersNodup (updateUser db1 ruid (fun u =>
                { u with balance := u.balance - MEMBERSHIP_FEE, lowBalanceWarned := false })) := by
              unfold UsersNodup
              rw [updateUser_users_id]
              · exact h1.2
              · exact fun u => rfl
            split
            · rename_i s hsponsor
              refine ⟨?_, ?_⟩
              · exact moneyInv_updateUser_credit hmd (fun u hu =>
                  add_nonneg hu (by decide : (0 : Money) ≤ MEMBERSHIP_FEE))
              · unfold UsersNodup
                show ((updateUser (updateUser db1 ruid (fun u =>
                    { u with balance := u.balance - MEMBERSHIP_FEE,
                             lowBalanceWarned := false })) s.id (fun u =>
                    { u with balance := u.balance + MEMBERSHIP_FEE,
                             totalEarned := u.totalEarned + MEMBERSHIP_FEE })).users.map
                    (·.id)).Nodup
                rw [updateUser_users_id, updateUser_users_id]
                · exact h1.2
                all_goals exact fun u => rfl
            · exact ⟨hmd, hnd2⟩
          · exact h1
        · split
          · split
            · rename_i gs hgs
              split
              · refine ⟨?_, ?_⟩
                · exact moneyInv_updateUser_credit h1.1 (fun u hu => hu)
                · unfold UsersNodup
                  show ((updateUser db1 ruid (fun u =>
                      { u with isActive := false })).users.map (·.id)).Nodup
                  rw [updateUser_users_id]
                  · exact h1.2
                  · exact fun u => rfl
              · exact h1
            · exact h1
          · exact h1

theorem wf_foldl_renew (now : Int) : ∀ (l : List Nat) (db : DB), WF db →
    WF (l.foldl (renewStep now) db)
  | [], _, h => h
  | ruid :: l, db, h => wf_foldl_renew now l _ (wf_renewStep now db ruid h)

theorem wf_process_auto_renewals (db : DB) (now : Int) (h : WF db) :
    WF (process_auto_renewals db now) :=
  wf_foldl_renew now _ db h

theorem wf_updateUser_credit {db : DB} {uid : Nat} {f : User → User}
    (h : WF db) (hf : ∀ u, 0 ≤ u.balance → 0 ≤ (f u).balance)
    (hid : ∀ u, (f u).id = u.id) : WF (updateUser db uid f) := by
  refine ⟨moneyInv_updateUser_credit h.1 hf, ?_⟩
  unfold UsersNodup
  rw [updateUser_users_id _ _ _ hid]
  exact h.2

theorem wf_updateUser_debit {db : DB} {uid : Nat} {f : User → User} {u : User}
    (h : WF db) (hfind : findUser db uid = some u) (hb : 0 ≤ (f u).balance)
    (hid : ∀ u, (f u).id = u.id) : WF (updateUser db uid f) := by
  refine ⟨moneyInv_updateUser_debit h.1 h.2 hfind hb, ?_⟩
  unfold UsersNodup
  rw [updateUser_users_id _ _ _ hid]
  exact h.2

theorem wf_updateGrid {db : DB} {gid : Nat} {f : Grid → Grid}
    (h : WF db) (hf : ∀ g, 0 ≤ g.revenueTotal → 0 ≤ (f g).revenueTotal) :
    WF (updateGrid db gid f) :=
  ⟨moneyInv_updateGrid h.1 hf, h.2⟩

theorem wf_grids_append {db : DB} {g : Grid} {n : Nat}
    (h : WF db) (hg : 0 ≤ g.revenueTotal) :
    WF { db with grids := db.grids ++ [g], nextGridId := n } :=
  ⟨moneyInv_grids_append h.1 hg, h.2⟩

theorem wf_gocag (db : DB) (ownerId tier : Nat) (h : WF db) :
    WF (get_or_create_active_grid db ownerId tier).2 := by
  unfold get_or_create_active_grid
  split
  · exact h
  · exact wf_grids_append h (le_refl 0)

theorem gocag_revenue_nonneg {db : DB} (ownerId tier : Nat) (h : MoneyInv db) :
    0 ≤ (get_or_create_active_grid db ownerId tier).1.revenueTotal := by
  unfold get_or_create_active_grid
  split
  · rename_i g hg
    exact h.2.1 g (List.mem_of_find?_eq_some hg)
  · exact le_refl 0

theorem wf_pay_level_commission (db : DB) (grid : Grid) (price : Money)
    (h : WF db) (hp : 0 ≤ price) : WF (pay_level_commission db grid price) := by
  unfold pay_level_commission
  have hamt : 0 ≤ applyPct price (LEVEL_PCT.mul LEVEL_WEIGHT) :=
    applyPct_nonneg hp (by decide) (by decide)
  simp only []
  split
  · exact wf_updateUser_credit h (fun u hu => add_nonneg hu hamt) (fun u => rfl)
  · exact h

theorem wf_complete_grid (db : DB) (grid : Grid) (h : WF db)
    (hrev : 0 ≤ grid.revenueTotal) : WF (complete_grid db grid) := by
  unfold complete_grid
  have hown : 0 ≤ applyPct grid.revenueTotal OWNER_PCT :=
    applyPct_nonneg hrev (by decide) (by decide)
  have hup : 0 ≤ applyPct grid.revenueTotal UPLINE_PCT :=
    applyPct_nonneg hrev (by decide) (by decide)
  have h0 : WF (updateGrid db grid.id (fun g => { g with isComplete := true })) :=
    wf_updateGrid h (fun g hg => hg)
  simp only []
  repeat' split
  all_goals refine wf_updateGrid (wf_grids_append ?_ (le_refl 0)) (fun g hg => hg)
  all_goals first
    | exact h0
    | exact wf_updateUser_credit h0 (fun u hu => add_nonneg hu hown) (fun u => rfl)
    | exact wf_updateUser_credit h0 (fun u hu => add_nonneg hu hup) (fun u => rfl)
    | exact wf_updateUser_credit
        (wf_updateUser_credit h0 (fun u hu => add_nonneg hu hown) (fun u => rfl))
        (fun u hu => add_nonneg hu hup) (fun u => rfl)

theorem wf_place_member_in_grid (db : DB) (m o t : Nat) (ov : Bool) (h : WF db) :
    WF (place_member_in_grid db m o t ov).2 := by
  unfold place_member_in_grid
  split
  · exact h
  · split
    · exact h
    · rename_i price hprice
      have hpn : 0 ≤ price := GRID_PACKAGES_nonneg hprice
      have h1 : WF (get_or_create_active_grid db o t).2 := wf_gocag db o t h
      simp only []
      split
      · exact h1
      · rename_i lv pos hslot
        have h3 : WF (updateGrid { (get_or_create_active_grid db o t).2 with
            gridPositions := (get_or_create_active_grid db o t).2.gridPositions ++
              [⟨(get_or_create_active_grid db o t).1.id, m, lv, pos, ov⟩] }
            (get_or_create_active_grid db o t).1.id
            (fun g => { g with positionsFilled := g.positionsFilled + 1,
                               revenueTotal := g.revenueTotal + price })) :=
          wf_updateGrid ⟨h1.1, h1.2⟩ (fun g hg => add_nonneg hg hpn)
        have hrev1 : 0 ≤ (get_or_create_active_grid db o t).1.revenueTotal + price :=
          add_nonneg (gocag_revenue_nonneg o t h.1) hpn
        repeat' split
        all_goals first
          | exact wf_pay_level_commission _ _ _
              (wf_updateUser_credit h3 (fun u hu => hu) (fun u => rfl)) hpn
          | exact wf_pay_level_commission _ _ _ h3 hpn
          | exact wf_complete_grid _ _ (wf_pay_level_commission _ _ _
              (wf_updateUser_credit h3 (fun u hu => hu) (fun u => rfl)) hpn) hrev1
          | exact wf_complete_grid _ _ (wf_pay_level_commission _ _ _ h3 hpn) hrev1

theorem wf_overspillAux : ∀ (fuel : Nat) (db : DB) (userId tier : Nat) (cur : Option Nat)
      (visited : List Nat), WF db → WF (overspillAux db userId tier cur visited fuel).2
  | 0, _, _, _, _, _, h => h
  | fuel + 1, db, userId, tier, cur, visited, h => by
    cases cur with
    | none => exact h
    | some cid =>
      simp only [overspillAux]
      split
      · exact h
      · split
        · exact wf_place_member_in_grid db userId cid tier true h
        · exact wf_overspillAux fuel _ userId tier _ _
            (wf_place_member_in_grid db userId cid tier true h)

theorem wf_process_grid_payment (db : DB) (userId tier : Nat) (txHash : String)
    (verify : String → Money → Bool) (h : WF db) :
    WF (process_grid_payment db userId tier txHash verify).2 := by
  unfold process_grid_payment
  split
  · exact h
  · split
    · exact h
    · rename_i user huser
      split
      · exact h
      · split
        · exact h
        · rename_i price hprice
          split
          · exact h
          · simp only []
            have h1 : WF { db with payments := db.payments ++
                [⟨userId, none, price, "grid_tier_" ++ toString tier, txHash, "confirmed"⟩] } :=
              ⟨h.1, h.2⟩
            repeat' split
            all_goals first
              | exact wf_place_member_in_grid _ userId _ tier false h1
              | exact wf_overspillAux _ _ userId tier _ _
                  (wf_place_member_in_grid _ userId _ tier false h1)

theorem wf_engineStep {db db' : DB} (h : WF db) (hs : EngineStep db db') : WF db' := by
  cases hs with
  | coursePurchase buyerId courseId pm txRef =>
    exact wf_process_course_purchase db buyerId courseId pm txRef h
  | gridPayment userId tier txHash verify =>
    exact wf_process_grid_payment db userId tier txHash verify h
  | withdrawal userId amount =>
    exact wf_request_withdrawal db userId amount h
  | renewals now =>
    exact wf_process_auto_renewals db now h
  | cascade recipientId txHash chainDepth =>
    exact wf_cascadeAux (50 + 1 - chainDepth) db recipientId txHash chainDepth h
  | p2p fromUserId toMemberId amount note =>
    exact wf_process_p2p_transfer db fromUserId toMemberId amount note h

theorem wf_reachable {db db' : DB} (h : WF db) (hr : Reachable db db') : WF db' := by
  induction hr with
  | refl => exact h
  | step hr12 hs ih => exact wf_engineStep ih hs

/-- C9: starting from a monetarily well-formed store (all balances,
accumulated grid revenues and catalogue prices non-negative) with unique
member ids, every state reached through the engine's operations — course
purchases, grid payments, withdrawals, auto-renewals, activation cascades
and P2P transfers — keeps every member's balance non-negative: each
operation debits a balance only behind its explicit balance check, and
every credited amount is non-negative. -/
theorem c9_balances_never_negative :
    (∀ (db db' : DB), MoneyInv db → UsersNodup db → EngineStep db db' →
        ∀ u ∈ db'.users, 0 ≤ u.balance) ∧
    (∀ (db db' : DB), MoneyInv db → UsersNodup db → Reachable db db' →
        ∀ u ∈ db'.users, 0 ≤ u.balance) :=
  ⟨fun _ _ hm hn hs => (wf_engineStep ⟨hm, hn⟩ hs).1.1,
   fun _ _ hm hn hr => (wf_reachable ⟨hm, hn⟩ hr).1.1⟩

/-- Concrete run: after the successful `$10` transfer from member 1 to
member 2 of `dbTransfer`, the first member row of the reached store still
has a non-negative balance. -/
theorem c9_balances_never_negative_witness :
    0 ≤ ((process_p2p_transfer dbTransfer 1 "2" (usd 10) none).2.users.headD
        (mkUser 0 none false false 0)).balance :=
  c9_balances_never_negative.2 dbTransfer
    (process_p2p_transfer dbTransfer 1 "2" (usd 10) none).2
    (by decide) (by decide)
    (Reachable.step (Reachable.refl dbTransfer)
      (EngineStep.p2p dbTransfer 1 "2" (usd 10) none))
    ((process_p2p_transfer dbTransfer 1 "2" (usd 10) none).2.users.headD
        (mkUser 0 none false false 0)) (by decide)

/-! ## Grid capacity lemmas (towards C7) -/

theorem nodup_append_singleton {α : Type} {l : List α} {a : α}
    (hn : l.Nodup) (ha : a ∉ l) : (l ++ [a]).Nodup := by
  induction l with
  | nil => simp
  | cons x xs ih =>
    rw [List.cons_append, List.nodup_cons]
    rw [List.nodup_cons] at hn
    refine ⟨?_, ih hn.2 (fun hmem => ha (List.mem_cons_of_mem x hmem))⟩
    intro hx
    rcases List.mem_append.1 hx with hx | hx
    · exact hn.1 hx
    · rw [List.mem_singleton] at hx
      exact ha (by
        rw [← hx]
        exact List.mem_cons_self x xs)

theorem grid_mem_eq_of_id : ∀ {l : List Grid} {g1 g2 : Grid}, g1 ∈ l → g2 ∈ l →
    ((l.map (·.id)).Nodup) → g1.id = g2.id → g1 = g2
  | [], g1, _, h1, _, _, _ => absurd h1 (List.not_mem_nil g1)
  | x :: xs, g1, g2, h1, h2, hn, he => by
    rw [List.map_cons, List.nodup_cons] at hn
    rcases List.mem_cons.1 h1 with rfl | h1'
    · rcases List.mem_cons.1 h2 with rfl | h2'
      · rfl
      · exact absurd (by
          rw [he]
          exact List.mem_map_of_mem (·.id) h2') hn.1
    · rcases List.mem_cons.1 h2 with rfl | h2'
      · exact absurd (by
          rw [← he]
          exact List.mem_map_of_mem (·.id) h1') hn.1
      · exact grid_mem_eq_of_id h1' h2' hn.2 he

theorem gridInv_gocag (db : DB) (o t : Nat) (h : GridInv db) :
    GridInv (get_or_create_active_grid db o t).2 ∧
    (get_or_create_active_grid db o t).1 ∈ (get_or_create_active_grid db o t).2.grids ∧
    (get_or_create_active_grid db o t).1.isComplete = false ∧
    (get_or_create_active_grid db o t).2.gridPositions = db.gridPositions ∧
    (get_or_create_active_grid db o t).1.id < (get_or_create_active_grid db o t).2.nextGridId := by
  unfold get_or_create_active_grid
  split
  · rename_i g hg
    have hcond := List.find?_some hg
    simp only [Bool.and_eq_true, Bool.not_eq_true'] at hcond
    exact ⟨h, List.mem_of_find?_eq_some hg, hcond.2, rfl,
      h.2.2.2.1 g (List.mem_of_find?_eq_some hg)⟩
  · refine ⟨⟨?_, ?_, ?_, ?_, ?_⟩, ?_, rfl, rfl, Nat.lt_succ_self _⟩
    · intro g hg
      rcases List.mem_append.1 hg with hg | hg
      · exact h.1 g hg
      · rw [List.mem_singleton] at hg
        subst hg
        exact Nat.zero_le _
    · intro g hg hgc
      rcases List.mem_append.1 hg with hg | hg
      · exact h.2.1 g hg hgc
      · rw [List.mem_singleton] at hg
        subst hg
        refine ⟨(by decide : 0 < GRID_TOTAL), ?_⟩
        show (db.gridPositions.filter
          (fun p : GridPosition => p.gridId == db.nextGridId)).length = 0
        rw [List.length_eq_zero, List.filter_eq_nil_iff]
        intro p hp
        have := h.2.2.2.2 p hp
        simp only [beq_iff_eq]
        omega
    · show ((db.grids ++ [({ id := db.nextGridId, ownerId := o, packageTier := t, packagePrice := (GRID_PACKAGES t).getD 0, cycleNumber := next_cycle_number db o t, positionsFilled := 0, isComplete := false, ownerPaid := false, revenueTotal := 0 } : Grid)]).map (fun g : Grid => g.id)).Nodup
      rw [List.map_append]
      refine nodup_append_singleton h.2.2.1 ?_
      intro hmem
      rcases List.mem_map.1 hmem with ⟨g, hg, hid⟩
      have := h.2.2.2.1 g hg
      simp only at hid
      omega
    · intro g hg
      rcases List.mem_append.1 hg with hg | hg
      · exact Nat.lt_succ_of_lt (h.2.2.2.1 g hg)
      · rw [List.mem_singleton] at hg
        subst hg
        exact Nat.lt_succ_self _
    · intro p hp
      exact Nat.lt_succ_of_lt (h.2.2.2.2 p hp)
    · exact List.mem_append_right _ (List.mem_singleton.2 rfl)

theorem grid_fill_facts (gl : List Grid) (pl : List GridPosition) (n : Nat)
    (grid : Grid) (p : GridPosition) (price : Money)
    (h1 : ∀ g ∈ gl, g.positionsFilled ≤ GRID_TOTAL)
    (h2 : ∀ g ∈ gl, g.isComplete = false → g.positionsFilled < GRID_TOTAL ∧
        (pl.filter (fun q => q.gridId == g.id)).length = g.positionsFilled)
    (h3 : (gl.map (·.id)).Nodup)
    (h4 : ∀ g ∈ gl, g.id < n)
    (h5 : ∀ q ∈ pl, q.gridId < n)
    (hmem : grid ∈ gl) (hopen : grid.isComplete = false) (hpos : p.gridId = grid.id) :
    (∀ g ∈ gl.map (fun g => if g.id == grid.id then
        { g with positionsFilled := g.positionsFilled + 1,
                 revenueTotal := g.revenueTotal + price } else g),
        g.positionsFilled ≤ GRID_TOTAL) ∧
    (∀ g ∈ gl.map (fun g => if g.id == grid.id then
        { g with positionsFilled := g.positionsFilled + 1,
                 revenueTotal := g.revenueTotal + price } else g),
        g.isComplete = false →
        ((pl ++ [p]).filter (fun q => q.gridId == g.id)).length = g.positionsFilled) ∧
    (∀ g ∈ gl.map (fun g => if g.id == grid.id then
        { g with positionsFilled := g.positionsFilled + 1,
                 revenueTotal := g.revenueTotal + price } else g),
        g.isComplete = false → g.id ≠ grid.id → g.positionsFilled < GRID_TOTAL) ∧
    (∀ g ∈ gl.map (fun g => if g.id == grid.id then
        { g with positionsFilled := g.positionsFilled + 1,
                 revenueTotal := g.revenueTotal + price } else g),
        g.id = grid.id → g.positionsFilled = grid.positionsFilled + 1) ∧
    (((gl.map (fun g => if g.id == grid.id then
        { g with positionsFilled := g.positionsFilled + 1,
                 revenueTotal := g.revenueTotal + price } else g)).map (·.id)).Nodup) ∧
    (∀ g ∈ gl.map (fun g => if g.id == grid.id then
        { g with positionsFilled := g.positionsFilled + 1,
                 revenueTotal := g.revenueTotal + price } else g), g.id < n) ∧
    (∀ q ∈ pl ++ [p], q.gridId < n) := by
  have hflt : grid.positionsFilled < GRID_TOTAL := (h2 grid hmem hopen).1
  have hcnt : (pl.filter (fun q => q.gridId == grid.id)).length = grid.positionsFilled :=
    (h2 grid hmem hopen).2
  have hids : ((gl.map (fun g => if g.id == grid.id then
      { g with positionsFilled := g.positionsFilled + 1,
               revenueTotal := g.revenueTotal + price } else g)).map (·.id)) = gl.map (·.id) := by
    rw [List.map_map]
    apply List.map_congr_left
    intro g _
    cases hk : g.id == grid.id <;> simp [Function.comp, hk]
  refine ⟨?_, ?_, ?_, ?_, ?_, ?_, ?_⟩
  · intro g hg
    rcases List.mem_map.1 hg with ⟨g0, hg0, rfl⟩
    cases hk : g0.id == grid.id with
    | true =>
      have : g0 = grid := grid_mem_eq_of_id hg0 hmem h3 (by simpa using hk)
      subst this
      simp only [hk, if_true]
      show g0.positionsFilled + 1 ≤ GRID_TOTAL
      omega
    | false =>
      simp only [hk, Bool.false_eq_true, if_false]
      exact h1 g0 hg0
  · intro g hg hgc
    rcases List.mem_map.1 hg with ⟨g0, hg0, rfl⟩
    rw [List.filter_append, List.length_append]
    cases hk : g0.id == grid.id with
    | true =>
      have he : g0 = grid := grid_mem_eq_of_id hg0 hmem h3 (by simpa using hk)
      subst he
      simp only [hk, if_true]
      show (List.filter (fun q => q.gridId == g0.id) pl).length +
        (List.filter (fun q => q.gridId == g0.id) [p]).length = g0.positionsFilled + 1
      have hp1 : (List.filter (fun q : GridPosition => q.gridId == g0.id) [p]).length = 1 := by
        simp [List.filter, hpos]
      rw [hp1]
      have := hcnt
      omega
    | false =>
      simp only [hk, Bool.false_eq_true, if_false] at hgc ⊢
      have hne : g0.id ≠ grid.id := by simpa using hk
      have hb : (grid.id == g0.id) = false := beq_eq_false_iff_ne.2 (fun he => hne he.symm)
      have hp0 : (List.filter (fun q : GridPosition => q.gridId == g0.id) [p]).length = 0 := by
        simp [List.filter, hpos, hb]
      rw [hp0]
      have := (h2 g0 hg0 hgc).2
      omega
  · intro g hg hgc hne
    rcases List.mem_map.1 hg with ⟨g0, hg0, rfl⟩
    cases hk : g0.id == grid.id with
    | true =>
      have he : g0 = grid := grid_mem_eq_of_id hg0 hmem h3 (by simpa using hk)
      subst he
      exact absurd (by simpa using hk) (by simpa [hk] using hne)
    | false =>
      simp only [hk, Bool.false_eq_true, if_false] at hgc ⊢
      exact (h2 g0 hg0 hgc).1
  · intro g hg hge
    rcases List.mem_map.1 hg with ⟨g0, hg0, rfl⟩
    cases hk : g0.id == grid.id with
    | true =>
      have he : g0 = grid := grid_mem_eq_of_id hg0 hmem h3 (by simpa using hk)
      subst he
      simp [hk]
    | false =>
      simp only [hk, Bool.false_eq_true, if_false] at hge ⊢
      exact absurd hge (by simpa using hk)
  · rw [hids]
    exact h3
  · intro g hg
    rcases List.mem_map.1 hg with ⟨g0, hg0, rfl⟩
    cases hk : g0.id == grid.id with
    | true =>
      simp only [hk, if_true]
      show g0.id < n
      exact h4 g0 hg0
    | false =>
      simp only [hk, Bool.false_eq_true, if_false]
      exact h4 g0 hg0
  · intro q hq
    rcases List.mem_append.1 hq with hq | hq
    · exact h5 q hq
    · rw [List.mem_singleton] at hq
      subst hq
      rw [hpos]
      exact h4 grid hmem

theorem map_seal_paid (l : List Grid) (k : Nat) :
    ((l.map (fun g => if g.id == k then { g with isComplete := true } else g)).map
      (fun g => if g.id == k then { g with ownerPaid := true } else g)) =
    l.map (fun g => if g.id == k then
      { g with isComplete := true, ownerPaid := true } else g) := by
  rw [List.map_map]
  apply List.map_congr_left
  intro g _
  cases hk : g.id == k <;> simp [Function.comp, hk]

theorem complete_grid_frame (db : DB) (grid : Grid) :
    (complete_grid db grid).grids =
      ((db.grids.map (fun g => if g.id == grid.id then { g with isComplete := true } else g)) ++
        [({ id := db.nextGridId, ownerId := grid.ownerId, packageTier := grid.packageTier, packagePrice := grid.packagePrice, cycleNumber := grid.cycleNumber + 1, positionsFilled := 0, isComplete := false, ownerPaid := false, revenueTotal := 0 } : Grid)]).map
        (fun g => if g.id == grid.id then { g with ownerPaid := true } else g) ∧
    (complete_grid db grid).gridPositions = db.gridPositions ∧
    (complete_grid db grid).nextGridId = db.nextGridId + 1 := by
  unfold complete_grid
  simp only []
  repeat' split
  all_goals exact ⟨rfl, rfl, rfl⟩

theorem gridInv_complete_grid (db : DB) (grid : Grid)
    (h1 : ∀ g ∈ db.grids, g.positionsFilled ≤ GRID_TOTAL)
    (h2 : ∀ g ∈ db.grids, g.isComplete = false → g.id ≠ grid.id →
        g.positionsFilled < GRID_TOTAL)
    (h2c : ∀ g ∈ db.grids, g.isComplete = false →
        (db.gridPositions.filter (fun q => q.gridId == g.id)).length = g.positionsFilled)
    (h3 : (db.grids.map (·.id)).Nodup)
    (h4 : ∀ g ∈ db.grids, g.id < db.nextGridId)
    (h5 : ∀ q ∈ db.gridPositions, q.gridId < db.nextGridId) :
    GridInv (complete_grid db grid) := by
  obtain ⟨hgr, hpos, hnext⟩ := complete_grid_frame db grid
  rw [List.map_append, map_seal_paid] at hgr
  unfold GridInv
  rw [hgr, hpos, hnext]
  have hnewfields :
      (([({ id := db.nextGridId, ownerId := grid.ownerId, packageTier := grid.packageTier, packagePrice := grid.packagePrice, cycleNumber := grid.cycleNumber + 1, positionsFilled := 0, isComplete := false, ownerPaid := false, revenueTotal := 0 } : Grid)]).map
        (fun g => if g.id == grid.id then { g with ownerPaid := true } else g)) =
        [(if db.nextGridId == grid.id then
          ({ id := db.nextGridId, ownerId := grid.ownerId, packageTier := grid.packageTier, packagePrice := grid.packagePrice, cycleNumber := grid.cycleNumber + 1, positionsFilled := 0, isComplete := false, ownerPaid := true, revenueTotal := 0 } : Grid)
         else ({ id := db.nextGridId, ownerId := grid.ownerId, packageTier := grid.packageTier, packagePrice := grid.packagePrice, cycleNumber := grid.cycleNumber + 1, positionsFilled := 0, isComplete := false, ownerPaid := false, revenueTotal := 0 } : Grid))] := by
    cases hk : db.nextGridId == grid.id <;> simp [hk] <;> simpa using hk
  rw [hnewfields]
  refine ⟨?_, ?_, ?_, ?_, ?_⟩
  · intro g hg
    rcases List.mem_append.1 hg with hg | hg
    · rcases List.mem_map.1 hg with ⟨g0, hg0, rfl⟩
      cases hk : g0.id == grid.id with
      | true =>
        simp only [hk, if_true]
        show g0.positionsFilled ≤ GRID_TOTAL
        exact h1 g0 hg0
      | false =>
        simp only [hk, Bool.false_eq_true, if_false]
        exact h1 g0 hg0
    · rw [List.mem_singleton] at hg
      subst hg
      cases hk : db.nextGridId == grid.id <;> simp [hk] <;> simpa using hk
  · intro g hg hgc
    rcases List.mem_append.1 hg with hg | hg
    · rcases List.mem_map.1 hg with ⟨g0, hg0, rfl⟩
      cases hk : g0.id == grid.id with
      | true =>
        simp only [hk, if_true] at hgc
        exact absurd hgc (by simp)
      | false =>
        simp only [hk, Bool.false_eq_true, if_false] at hgc ⊢
        exact ⟨h2 g0 hg0 hgc (by simpa using hk), h2c g0 hg0 hgc⟩
    · rw [List.mem_singleton] at hg
      subst hg
      refine ⟨?_, ?_⟩
      · cases hk : db.nextGridId == grid.id <;> simp [hk] <;> decide
      · have hid : (if (db.nextGridId == grid.id) = true then
            ({ id := db.nextGridId, ownerId := grid.ownerId, packageTier := grid.packageTier, packagePrice := grid.packagePrice, cycleNumber := grid.cycleNumber + 1, positionsFilled := 0, isComplete := false, ownerPaid := true, revenueTotal := 0 } : Grid)
           else ({ id := db.nextGridId, ownerId := grid.ownerId, packageTier := grid.packageTier, packagePrice := grid.packagePrice, cycleNumber := grid.cycleNumber + 1, positionsFilled := 0, isComplete := false, ownerPaid := false, revenueTotal := 0 } : Grid)).id
            = db.nextGridId := by
          cases hk : db.nextGridId == grid.id <;> simp [hk] <;> simpa using hk
        have hfil : (if (db.nextGridId == grid.id) = true then
            ({ id := db.nextGridId, ownerId := grid.ownerId, packageTier := grid.packageTier, packagePrice := grid.packagePrice, cycleNumber := grid.cycleNumber + 1, positionsFilled := 0, isComplete := false, ownerPaid := true, revenueTotal := 0 } : Grid)
           else ({ id := db.nextGridId, ownerId := grid.ownerId, packageTier := grid.packageTier, packagePrice := grid.packagePrice, cycleNumber := grid.cycleNumber + 1, positionsFilled := 0, isComplete := false, ownerPaid := false, revenueTotal := 0 } : Grid)).positionsFilled
            = 0 := by
          cases hk : db.nextGridId == grid.id <;> simp [hk] <;> simpa using hk
        rw [hid, hfil, List.length_eq_zero, List.filter_eq_nil_iff]
        intro q hq
        have := h5 q hq
        simp only [beq_iff_eq]
        omega
  · rw [List.map_append]
    have hi1 : ((db.grids.map (fun g => if g.id == grid.id then
        { g with isComplete := true, ownerPaid := true } else g)).map (·.id)) =
        db.grids.map (·.id) := by
      rw [List.map_map]
      apply List.map_congr_left
      intro g _
      cases hk : g.id == grid.id <;> simp [Function.comp, hk]
    rw [hi1]
    have hi2 : (([(if db.nextGridId == grid.id then
        ({ id := db.nextGridId, ownerId := grid.ownerId, packageTier := grid.packageTier, packagePrice := grid.packagePrice, cycleNumber := grid.cycleNumber + 1, positionsFilled := 0, isComplete := false, ownerPaid := true, revenueTotal := 0 } : Grid)
       else ({ id := db.nextGridId, ownerId := grid.ownerId, packageTier := grid.packageTier, packagePrice := grid.packagePrice, cycleNumber := grid.cycleNumber + 1, positionsFilled := 0, isComplete := false, ownerPaid := false, revenueTotal := 0 } : Grid))]).map (·.id)) =
        [db.nextGridId] := by
      cases hk : db.nextGridId == grid.id <;> simp [hk] <;> simpa using hk
    rw [hi2]
    refine nodup_append_singleton h3 ?_
    intro hmem
    rcases List.mem_map.1 hmem with ⟨g, hg, hid⟩
    have := h4 g hg
    omega
  · intro g hg
    rcases List.mem_append.1 hg with hg | hg
    · rcases List.mem_map.1 hg with ⟨g0, hg0, rfl⟩
      have h40 := h4 g0 hg0
      cases hk : g0.id == grid.id with
      | true =>
        simp only [hk, if_true]
        show g0.id < db.nextGridId + 1
        omega
      | false =>
        simp only [hk, Bool.false_eq_true, if_false]
        omega
    · rw [List.mem_singleton] at hg
      subst hg
      cases hk : db.nextGridId == grid.id <;> simp [hk] <;> simpa using hk
  · intro q hq
    exact Nat.lt_succ_of_lt (h5 q hq)

theorem gridInv_congr {db1 db2 : DB} (hg : db1.grids = db2.grids)
    (hp : db1.gridPositions = db2.gridPositions) (hn : db1.nextGridId = db2.nextGridId)
    (h : GridInv db2) : GridInv db1 := by
  unfold GridInv at h ⊢
  rw [hg, hp, hn]
  exact h

theorem gridInv_complete_congr {X Y : DB} (grid : Grid) (hg : X.grids = Y.grids)
    (hp : X.gridPositions = Y.gridPositions) (hn : X.nextGridId = Y.nextGridId)
    (h : GridInv (complete_grid Y grid)) : GridInv (complete_grid X grid) := by
  obtain ⟨hg1, hp1, hn1⟩ := complete_grid_frame X grid
  obtain ⟨hg2, hp2, hn2⟩ := complete_grid_frame Y grid
  refine gridInv_congr ?_ ?_ ?_ h
  · rw [hg1, hg2, hg, hn]
  · rw [hp1, hp2, hp]
  · rw [hn1, hn2, hn]

theorem pay_level_frame (db : DB) (grid : Grid) (price : Money) :
    (pay_level_commission db grid price).grids = db.grids ∧
    (pay_level_commission db grid price).gridPositions = db.gridPositions ∧
    (pay_level_commission db grid price).nextGridId = db.nextGridId := by
  unfold pay_level_commission
  simp only []
  split
  · exact ⟨rfl, rfl, rfl⟩
  · exact ⟨rfl, rfl, rfl⟩

theorem gridInv_place (db : DB) (m o t : Nat) (ov : Bool) (h : GridInv db) :
    GridInv (place_member_in_grid db m o t ov).2 := by
  unfold place_member_in_grid
  split
  · exact h
  · split
    · exact h
    · rename_i price hprice
      obtain ⟨h1, hmem, hopen, hposeq, hidlt⟩ := gridInv_gocag db o t h
      simp only []
      split
      · exact h1
      · rename_i lv pos hslot
        obtain ⟨f1, f2, f3, f4, f5, f6, f7⟩ :=
          grid_fill_facts (get_or_create_active_grid db o t).2.grids
            (get_or_create_active_grid db o t).2.gridPositions
            (get_or_create_active_grid db o t).2.nextGridId
            (get_or_create_active_grid db o t).1
            ⟨(get_or_create_active_grid db o t).1.id, m, lv, pos, ov⟩ price
            h1.1 h1.2.1 h1.2.2.1 h1.2.2.2.1 h1.2.2.2.2 hmem hopen rfl
        have hfix : GridInv (complete_grid (updateGrid
            { (get_or_create_active_grid db o t).2 with
              gridPositions := (get_or_create_active_grid db o t).2.gridPositions ++
                [⟨(get_or_create_active_grid db o t).1.id, m, lv, pos, ov⟩] }
            (get_or_create_active_grid db o t).1.id
            (fun g => { g with positionsFilled := g.positionsFilled + 1,
                               revenueTotal := g.revenueTotal + price }))
            ({ (get_or_create_active_grid db o t).1 with
               positionsFilled := (get_or_create_active_grid db o t).1.positionsFilled + 1,
               revenueTotal := (get_or_create_active_grid db o t).1.revenueTotal + price })) :=
          gridInv_complete_grid _ _ f1
            (fun g hg hop hne => f3 g hg hop hne)
            (fun g hg hop => f2 g hg hop) f5 f6 f7
        unfold pay_level_commission
        simp only []
        repeat' split
        all_goals first
          | (refine gridInv_complete_congr _ ?_ ?_ ?_ hfix <;> rfl)
          | (have hn2 : ¬GRID_TOTAL ≤
                (get_or_create_active_grid db o t).1.positionsFilled + 1 := by assumption
             have hD3 : GridInv (updateGrid
                { (get_or_create_active_grid db o t).2 with
                  gridPositions := (get_or_create_active_grid db o t).2.gridPositions ++
                    [⟨(get_or_create_active_grid db o t).1.id, m, lv, pos, ov⟩] }
                (get_or_create_active_grid db o t).1.id
                (fun g => { g with positionsFilled := g.positionsFilled + 1,
                                   revenueTotal := g.revenueTotal + price })) := by
               refine ⟨f1, ?_, f5, f6, f7⟩
               intro g hg hop
               by_cases hid : g.id = (get_or_create_active_grid db o t).1.id
               · have hfe := f4 g hg hid
                 refine ⟨?_, f2 g hg hop⟩
                 rw [hfe]
                 omega
               · exact ⟨f3 g hg hop hid, f2 g hg hop⟩
             exact hD3)

theorem place_ok_filled (db : DB) (m o t : Nat) (ov : Bool) (r : PlaceOk)
    (h : GridInv db) (hok : (place_member_in_grid db m o t ov).1 = .ok r) :
    r.filled ≤ GRID_TOTAL ∧ (r.complete = true ↔ r.filled = GRID_TOTAL) := by
  unfold place_member_in_grid at hok
  split at hok
  · exact absurd hok (by simp)
  · split at hok
    · exact absurd hok (by simp)
    · rename_i price hprice
      obtain ⟨h1, hmem, hopen, hposeq, hidlt⟩ := gridInv_gocag db o t h
      have hlt : (get_or_create_active_grid db o t).1.positionsFilled < GRID_TOTAL :=
        (h1.2.1 _ hmem hopen).1
      simp only [] at hok
      split at hok
      · exact absurd hok (by simp)
      · rename_i lv pos hslot
        simp only [Except.ok.injEq] at hok
        subst hok
        refine ⟨by show _ + 1 ≤ GRID_TOTAL; omega, ?_⟩
        show decide (GRID_TOTAL ≤ (get_or_create_active_grid db o t).1.positionsFilled + 1)
            = true ↔ (get_or_create_active_grid db o t).1.positionsFilled + 1 = GRID_TOTAL
        rw [decide_eq_true_iff]
        omega

theorem complete_grid_succession (db : DB) (grid : Grid) (hne : grid.id ≠ db.nextGridId) :
    (complete_grid db grid).grids =
      db.grids.map (fun g => if g.id == grid.id then
        { g with isComplete := true, ownerPaid := true } else g) ++
      [({ id := db.nextGridId, ownerId := grid.ownerId, packageTier := grid.packageTier, packagePrice := grid.packagePrice, cycleNumber := grid.cycleNumber + 1, positionsFilled := 0, isComplete := false, ownerPaid := false, revenueTotal := 0 } : Grid)] ∧
    (complete_grid db grid).grids.length = db.grids.length + 1 := by
  obtain ⟨hgr, -, -⟩ := complete_grid_frame db grid
  rw [List.map_append, map_seal_paid] at hgr
  have hb : (db.nextGridId == grid.id) = false := beq_eq_false_iff_ne.2 (fun he => hne he.symm)
  have hsingle : (([({ id := db.nextGridId, ownerId := grid.ownerId, packageTier := grid.packageTier, packagePrice := grid.packagePrice, cycleNumber := grid.cycleNumber + 1, positionsFilled := 0, isComplete := false, ownerPaid := false, revenueTotal := 0 } : Grid)]).map
      (fun g => if g.id == grid.id then { g with ownerPaid := true } else g)) =
      [({ id := db.nextGridId, ownerId := grid.ownerId, packageTier := grid.packageTier, packagePrice := grid.packagePrice, cycleNumber := grid.cycleNumber + 1, positionsFilled := 0, isComplete := false, ownerPaid := false, revenueTotal := 0 } : Grid)] := by
    have hne2 : ¬db.nextGridId = grid.id := fun he => hne he.symm
    simp [hb, hne2]
  rw [hsingle] at hgr
  refine ⟨hgr, ?_⟩
  rw [hgr]
  simp

/-- C7: under the grid store invariant, no grid's `positions_filled` ever
exceeds the fixed capacity `GRID_TOTAL = 63`: the invariant itself bounds
every counter, placement preserves the invariant, and a successful
placement reports `filled ≤ 63` with the `complete` flag raised exactly on
reaching capacity; and sealing a full grid (`_complete_grid`) marks it
complete (and owner-paid) while appending exactly one successor grid — same
owner, tier and package price, `cycle_number` (the "advance") incremented
by one, zero seats and zero revenue — so the grid list grows by exactly
one row. -/
theorem c7_grid_capacity_and_succession :
    (∀ (db : DB), GridInv db → ∀ g ∈ db.grids, g.positionsFilled ≤ GRID_TOTAL) ∧
    (∀ (db : DB) (m o t : Nat) (ov : Bool), GridInv db →
        GridInv (place_member_in_grid db m o t ov).2) ∧
    (∀ (db : DB) (m o t : Nat) (ov : Bool) (r : PlaceOk), GridInv db →
        (place_member_in_grid db m o t ov).1 = .ok r →
        r.filled ≤ GRID_TOTAL ∧ (r.complete = true ↔ r.filled = GRID_TOTAL)) ∧
    (∀ (db : DB) (grid : Grid), grid.id ≠ db.nextGridId →
        (complete_grid db grid).grids =
          db.grids.map (fun g => if g.id == grid.id then
            { g with isComplete := true, ownerPaid := true } else g) ++
          [({ id := db.nextGridId, ownerId := grid.ownerId, packageTier := grid.packageTier, packagePrice := grid.packagePrice, cycleNumber := grid.cycleNumber + 1, positionsFilled := 0, isComplete := false, ownerPaid := false, revenueTotal := 0 } : Grid)] ∧
        (complete_grid db grid).grids.length = db.grids.length + 1) :=
  ⟨fun _ h => h.1, gridInv_place, place_ok_filled, complete_grid_succession⟩

/-- Concrete runs of the capacity and succession facts: a sealed full grid
respects the bound, the single seat fill of `dbGridFill` preserves the
invariant and reports seat 1 of 63 (not complete), and completing a full
grid of `emptyDB` appends exactly the cycle-2 successor. -/
theorem c7_grid_capacity_and_succession_witness :
    ((⟨1, 1, 1, usd 20, 1, 63, true, true, 0⟩ : Grid).positionsFilled ≤ GRID_TOTAL ∧
     GridInv (place_member_in_grid dbGridFill 2 1 1 false).2 ∧
     ((⟨1, 1, 1, 1, 1, false⟩ : PlaceOk).filled ≤ GRID_TOTAL ∧
      ((⟨1, 1, 1, 1, 1, false⟩ : PlaceOk).complete = true ↔
        (⟨1, 1, 1, 1, 1, false⟩ : PlaceOk).filled = GRID_TOTAL)) ∧
     ((complete_grid emptyDB ⟨5, 1, 1, usd 20, 1, 63, true, false, usd 100⟩).grids =
        emptyDB.grids.map (fun g => if g.id == 5 then
          { g with isComplete := true, ownerPaid := true } else g) ++
        [({ id := 1, ownerId := 1, packageTier := 1, packagePrice := usd 20, cycleNumber := 2, positionsFilled := 0, isComplete := false, ownerPaid := false, revenueTotal := 0 } : Grid)] ∧
      (complete_grid emptyDB ⟨5, 1, 1, usd 20, 1, 63, true, false, usd 100⟩).grids.length =
        emptyDB.grids.length + 1)) :=
  ⟨c7_grid_capacity_and_succession.1
      { emptyDB with grids := [⟨1, 1, 1, usd 20, 1, 63, true, true, 0⟩], nextGridId := 2 }
      (by decide) ⟨1, 1, 1, usd 20, 1, 63, true, true, 0⟩ (by decide),
   c7_grid_capacity_and_succession.2.1 dbGridFill 2 1 1 false (by decide),
   c7_grid_capacity_and_succession.2.2.1 dbGridFill 2 1 1 false ⟨1, 1, 1, 1, 1, false⟩
      (by decide) (by decide),
   c7_grid_capacity_and_succession.2.2.2 emptyDB ⟨5, 1, 1, usd 20, 1, 63, true, false, usd 100⟩
      (by decide)⟩

end SuperAdPro
